import Mathlib

/-! # SettleX "Atlas" chatbot core: a shallow embedding of `chatbot.js` and `backend.js`

Conventions of the embedding.

* A JavaScript string is a list of characters (`Str`).  Tags that the program only
  compares (intent names, context tags, sentiment names) are Lean `String`s.
* `toLowerCase` / `toUpperCase` map the ASCII letters and leave every other character
  alone.
* A JavaScript number is the rational it denotes.  `parseFloat`, the number literals and
  the arithmetic on amounts and rates give the double nearest to the exact result
  (`roundDouble`: 53 significant bits, ties to even, subnormal numbers included).
  `Infinity` and `NaN` have no counterpart: the embedding speaks about results below
  `2 ^ 1024` only.  `Math.floor(Math.random() * k)` is computed exactly.
* `undefined` / `null` are `none`.
* The mutable singleton `AtlasBackend.state` is passed explicitly: every operation that
  mutates it returns the new state next to its result.
* `Date.now()` and `Math.random()` are read from an explicit `Env`; number formatting
  (`Number#toString`, `toFixed(2)`, `Intl.NumberFormat`) is a parameter (`Host`).
-/

namespace SettleX

/-- A JavaScript string. -/
abbrev Str := List Char

/-- `String.prototype.includes`: does `w` occur in `s` as a contiguous block? -/
def includes : Str → Str → Bool
  | [], w => w.isEmpty
  | c :: s, w => w.isPrefixOf (c :: s) || includes s w

/-- `String.prototype.toLowerCase` (ASCII letters). -/
def toLowerCase (s : Str) : Str := s.map Char.toLower

/-- `String.prototype.toUpperCase` (ASCII letters). -/
def toUpperCase (s : Str) : Str := s.map Char.toUpper

/-- The characters removed by `String.prototype.trim`: ECMAScript WhiteSpace and
LineTerminator. -/
def isWhiteSpace (c : Char) : Bool :=
  let n := c.toNat
  n == 9 || n == 10 || n == 11 || n == 12 || n == 13 || n == 32 || n == 0xA0 ||
  n == 0x1680 || (0x2000 ≤ n && n ≤ 0x200A) || n == 0x2028 || n == 0x2029 ||
  n == 0x202F || n == 0x205F || n == 0x3000 || n == 0xFEFF

/-- `String.prototype.trim`. -/
def trim (s : Str) : Str :=
  ((s.dropWhile isWhiteSpace).reverse.dropWhile isWhiteSpace).reverse

/-- The regex class `\d`: the characters `0` to `9`. -/
def isDigit (c : Char) : Bool := decide (48 ≤ c.toNat) && decide (c.toNat ≤ 57)

/-- The regex class `[A-Z]` under the `i` flag: the characters `A` to `Z` and `a` to `z`. -/
def isLetter (c : Char) : Bool :=
  (decide (65 ≤ c.toNat) && decide (c.toNat ≤ 90)) ||
    (decide (97 ≤ c.toNat) && decide (c.toNat ≤ 122))

/-! ## Regular expressions used by the program -/

/-- One attempt of an alternation of literals `a|b|c` at the start of `s`: the first
alternative, in the order written, that is a leading block of `s`. -/
def matchAlternationAt (alts : List Str) (s : Str) : Option Str :=
  alts.find? (fun a => a.isPrefixOf s)

/-- The result `m[0]` of `s.match(/a|b|c/)`: the leftmost position at which some
alternative matches, `none` when there is no match. -/
def matchAlternation (alts : List Str) : Str → Option Str
  | [] => matchAlternationAt alts []
  | c :: s =>
    match matchAlternationAt alts (c :: s) with
    | some m => some m
    | none => matchAlternation alts s

/-- Greedy `(?:,\d{3})*` at the start of `s`: the matched text and the rest. -/
def matchGroups : Str → Str × Str
  | ',' :: a :: b :: c :: rest =>
    if isDigit a && isDigit b && isDigit c then
      (',' :: a :: b :: c :: (matchGroups rest).1, (matchGroups rest).2)
    else ([], ',' :: a :: b :: c :: rest)
  | s => ([], s)

/-- Greedy `(?:\.\d+)?` at the start of `s`: the matched text and the rest. -/
def matchFraction : Str → Str × Str
  | '.' :: rest =>
    if (rest.takeWhile isDigit).isEmpty then ([], '.' :: rest)
    else ('.' :: rest.takeWhile isDigit, rest.dropWhile isDigit)
  | s => ([], s)

/-- The optional group `(k|m|b)?` under the `i` flag at the start of `s`. -/
def matchMagnitude : Str → Option Char
  | [] => none
  | c :: _ => if c.toLower == 'k' || c.toLower == 'm' || c.toLower == 'b' then some c else none

/-- An attempt of `/(\d+(?:,\d{3})*(?:\.\d+)?)(k|m|b)?/i` at the start of `s`, which the
caller knows to begin with a digit.  Every part after `\d+` is optional, so the greedy
choice never has to be undone.  The result is the pair of capture groups. -/
def amountMatchAt (s : Str) : Str × Option Char :=
  let ds := s.takeWhile isDigit
  let r1 := s.dropWhile isDigit
  let g := matchGroups r1
  let f := matchFraction g.2
  (ds ++ g.1 ++ f.1, matchMagnitude f.2)

/-- The capture groups of `s.match(/(\d+(?:,\d{3})*(?:\.\d+)?)(k|m|b)?/i)`: the leftmost
match starts at the first digit of `s`. -/
def amountMatch : Str → Option (Str × Option Char)
  | [] => none
  | c :: s => if isDigit c then some (amountMatchAt (c :: s)) else amountMatch s

/-- A sequence of character classes tried at the start of `s`. -/
def matchClassesAt : List (Char → Bool) → Str → Bool
  | [], _ => true
  | _ :: _, [] => false
  | p :: ps, c :: s => p c && matchClassesAt ps s

/-- The value of `/c1c2...cn/.test(s)` for a sequence of character classes without
anchors: the sequence may match at any position. -/
def testClasses (ps : List (Char → Bool)) : Str → Bool
  | [] => matchClassesAt ps []
  | c :: s => matchClassesAt ps (c :: s) || testClasses ps s

/-- The value of a run of decimal digits. -/
def digitsToNat (ds : Str) : Nat :=
  ds.foldl (fun n c => 10 * n + (c.toNat - 48)) 0

/-- The digits before and after the decimal point of a text of the form
`digits` or `digits.digits`. -/
def splitDecimal (s : Str) : Str × Str :=
  match s.dropWhile isDigit with
  | '.' :: fs => (s.takeWhile isDigit, fs.takeWhile isDigit)
  | _ => (s.takeWhile isDigit, [])

/-! ## Numbers -/

/-- The integer nearest to `n / d`; when `n / d` lies halfway between two integers, the
even one. -/
def roundHalfEven (n d : Nat) : Nat :=
  if 2 * (n % d) < d then n / d
  else if d < 2 * (n % d) then n / d + 1
  else if (n / d) % 2 = 0 then n / d else n / d + 1

/-- The number of times `n` can be halved before it is below 2, counting at most `fuel`
halvings. -/
def log2Fuel : Nat → Nat → Nat
  | 0, _ => 0
  | fuel + 1, n => if n < 2 then 0 else log2Fuel fuel (n / 2) + 1

/-- The position of the leading binary digit of `n`: `2 ^ log2 n ≤ n < 2 ^ (log2 n + 1)`
for `n ≥ 1`. -/
def log2 (n : Nat) : Nat := log2Fuel n n

/-- The binary exponent `e` of the positive fraction `n / d`: `2 ^ e ≤ n / d < 2 ^ (e + 1)`. -/
def binaryExponent (n d : Nat) : Int :=
  let c : Int := (log2 n : Int) - (log2 d : Int)
  if d * 2 ^ c.toNat ≤ n * 2 ^ (-c).toNat then c else c - 1

/-- The exponent of the spacing of the doubles around the positive fraction `n / d`: 52
binary places below its leading digit, and never below `-1074`, the spacing of the
subnormal doubles. -/
def quantumExponent (n d : Nat) : Int := max (binaryExponent n d - 52) (-1074)

/-- The double nearest to the fraction `n / d`, ties to even. -/
def roundDoubleNat (n d : Nat) : ℚ :=
  if n = 0 then 0
  else
    let p := quantumExponent n d
    ((roundHalfEven (n * 2 ^ (-p).toNat) (d * 2 ^ p.toNat) * 2 ^ p.toNat : Nat) : ℚ) /
      ((2 ^ (-p).toNat : Nat) : ℚ)

/-- The double nearest to the rational `q` (IEEE-754 binary64, round to nearest, ties to
even), as a rational. -/
def roundDouble (q : ℚ) : ℚ :=
  if q < 0 then - roundDoubleNat q.num.natAbs q.den else roundDoubleNat q.num.natAbs q.den

/-- `parseFloat` on the texts the amount regex can capture once commas are removed:
a run of digits, optionally followed by `.` and a run of digits.  The result is the double
nearest to the decimal value. -/
def parseFloat (s : Str) : ℚ :=
  roundDouble ((digitsToNat (splitDecimal s).1 : ℚ) +
    (digitsToNat (splitDecimal s).2 : ℚ) / 10 ^ (splitDecimal s).2.length)

/-- JavaScript truthiness of a number-or-undefined value: the number when the value is
truthy (a number other than zero), `none` when it is falsy. -/
def whenTruthyNum : Option ℚ → Option ℚ
  | some q => if q = 0 then none else some q
  | none => none

/-- JavaScript truthiness of a string-or-undefined value: the string when the value is
truthy (a string other than the empty one), `none` when it is falsy. -/
def whenTruthyStr : Option Str → Option Str
  | some s => if s = [] then none else some s
  | none => none

/-- JavaScript truthiness of a tag-or-null value. -/
def truthyTag : Option String → Bool
  | some t => t != ""
  | none => false

/-- The JavaScript expression `a || b`, for the truthiness test `t`. -/
def jsOr {α : Type} (t : Option α → Option α) (a b : Option α) : Option α :=
  match t a with
  | some _ => a
  | none => b


/-! ## Lexicon (`AtlasBackend.nlp`, `AtlasBackend.knowledge`, `AtlasBackend.config`) -/

namespace AtlasBackend

/-- One entry of `nlp.intents`. -/
structure IntentSpec where
  name : String
  keywords : List Str
  weight : Nat

/-- The table `nlp.intents`, in the order `Object.entries` enumerates it. -/
def nlp.intents : List IntentSpec := [
  ⟨"greeting",
    ["hello", "hi", "hey", "greetings", "morning", "evening", "start", "begin"].map String.toList, 1⟩,
  ⟨"goodbye",
    ["bye", "goodbye", "see ya", "exit", "quit", "end", "close"].map String.toList, 1⟩,
  ⟨"thanks",
    ["thank", "thanks", "cool", "awesome", "great", "helpful", "cheers"].map String.toList, 1⟩,
  ⟨"calculator",
    ["convert", "calculator", "how much", "change", "swap", "calculate", "exchange",
     "value of"].map String.toList, 2⟩,
  ⟨"rate_inquiry",
    ["rate", "price", "cost", "spread", "margin", "fees", "charges", "commission", "fx rate",
     "dollar rate"].map String.toList, 2⟩,
  ⟨"compliance_fira",
    ["fira", "advice", "certificate", "proof", "remittance advice", "efira",
     "download fira"].map String.toList, 3⟩,
  ⟨"compliance_rodtep",
    ["rodtep", "incentive", "benefit", "claim", "duty", "drawback", "rebate",
     "government scheme"].map String.toList, 3⟩,
  ⟨"compliance_boe",
    ["boe", "bill of entry", "import doc", "customs", "clearance", "idpms",
     "entry bill"].map String.toList, 3⟩,
  ⟨"onboarding",
    ["sign up", "register", "account", "kyc", "join", "open account", "documents needed", "iec",
     "gstin"].map String.toList, 2⟩,
  ⟨"speed",
    ["time", "speed", "fast", "how long", "days", "settlement", "duration", "when",
     "timeline"].map String.toList, 1⟩,
  ⟨"security",
    ["safe", "secure", "trust", "fraud", "rbi", "license", "audit", "iso", "escrow",
     "money safe"].map String.toList, 2⟩,
  ⟨"support",
    ["help", "support", "contact", "human", "agent", "representative", "call", "email", "issue",
     "problem", "error", "ticket", "complain"].map String.toList, 2⟩,
  ⟨"troubleshoot",
    ["failed", "rejected", "declined", "stuck", "pending", "not received", "missing", "issue",
     "bug"].map String.toList, 2⟩,
  ⟨"explain_concept",
    ["what is", "define", "meaning", "explain", "definition", "term"].map String.toList, 1⟩]

/-- The list `nlp.sentiment.negative`. -/
def nlp.sentiment.negative : List Str :=
  ["bad", "slow", "fail", "error", "angry", "waiting", "stuck", "useless", "broken", "waste",
   "lost"].map String.toList

/-- The list `nlp.sentiment.positive`. -/
def nlp.sentiment.positive : List Str :=
  ["good", "fast", "great", "amazing", "thanks", "love", "easy", "smooth",
   "best"].map String.toList

/-- The list `nlp.sentiment.urgent`. -/
def nlp.sentiment.urgent : List Str :=
  ["urgent", "emergency", "asap", "immediately", "now", "critical", "blocked",
   "money stuck"].map String.toList

/-- The field `config.maxHistorySize`. -/
def config.maxHistorySize : Nat := 50

/-- The field `config.supportEmail`. -/
def config.supportEmail : Str := "priority.desk@settlex.com".toList

/-! ## Analyzer -/

/-- The record returned by `advancedAnalyze`. -/
structure Analysis where
  intent : String
  score : Nat
  currency : Option Str
  amount : Option ℚ
  sentiment : String
  raw : Str

/-- The alternatives of each test of `normalizeCurrency`, with the code it returns. -/
def normalizeTable : List (List Str × Str) := [
  (["dollar", "usd", "greenback"].map String.toList, "USD".toList),
  (["singapore", "sgd"].map String.toList, "SGD".toList),
  (["pound", "gbp", "sterling"].map String.toList, "GBP".toList),
  (["euro", "eur"].map String.toList, "EUR".toList),
  (["dirham", "aed"].map String.toList, "AED".toList),
  (["dong", "vnd"].map String.toList, "VND".toList),
  (["yen", "jpy"].map String.toList, "JPY".toList),
  (["baht", "thb"].map String.toList, "THB".toList)]

/-- The chain of `if (lower.match(...)) return code` of `normalizeCurrency`. -/
def normalizeLower (lower : Str) : List (List Str × Str) → Option Str
  | [] => none
  | (alts, code) :: rest =>
    if (matchAlternation alts lower).isSome then some code else normalizeLower lower rest

/-- The function `normalizeCurrency(text)`. -/
def normalizeCurrency (text : Str) : Option Str :=
  if text.isEmpty then none else normalizeLower (toLowerCase text) normalizeTable

/-- The alternation of the currency regex in `advancedAnalyze`, in the order written. -/
def currencyAlternation : List Str :=
  ["usd", "sgd", "gbp", "eur", "aed", "vnd", "thb", "jpy", "aud", "cad", "dollar", "pound",
   "euro", "dong", "baht", "yen", "rupee", "inr"].map String.toList

/-- The inner `forEach` of step 1 of `advancedAnalyze`: the score of one intent. -/
def keywordScore (lower : Str) (data : IntentSpec) : Nat :=
  data.keywords.foldl (fun score word => if includes lower word then score + data.weight else score) 0

/-- One round of the `for` loop of step 1 on the pair `(bestIntent, maxScore)`. -/
def scoreStep (lower : Str) (acc : String × Nat) (data : IntentSpec) : String × Nat :=
  if keywordScore lower data > acc.2 then (data.name, keywordScore lower data) else acc

/-- Step 1 of `advancedAnalyze`: the pair `(bestIntent, maxScore)` after the loop. -/
def scoreIntents (lower : Str) : String × Nat :=
  nlp.intents.foldl (scoreStep lower) ("unknown", 0)

/-- Step 2 of `advancedAnalyze`: `detectedCurrency`. -/
def detectCurrency (lower : Str) : Option Str :=
  match matchAlternation currencyAlternation lower with
  | some m => normalizeCurrency m
  | none => none

/-- The three `if (multiplier === ...) val *= ...` of step 3; each product is rounded to the
nearest double. -/
def applyMultiplier (val : ℚ) (multiplier : Option Char) : ℚ :=
  let v1 := if multiplier = some 'k' then roundDouble (val * 1000) else val
  let v2 := if multiplier = some 'm' then roundDouble (v1 * 1000000) else v1
  if multiplier = some 'b' then roundDouble (v2 * 1000000000) else v2

/-- Step 3 of `advancedAnalyze`: `detectedAmount`. -/
def detectAmount (lower : Str) : Option ℚ :=
  match amountMatch lower with
  | some (num, multiplier) =>
    some (applyMultiplier (parseFloat (num.filter (fun c => c != ','))) multiplier)
  | none => none

/-- Step 4 of `advancedAnalyze`: `sentimentScore` after the three `forEach` loops. -/
def sentimentScore (lower : Str) : Int :=
  let s1 := nlp.sentiment.negative.foldl (fun sc w => if includes lower w then sc - 1 else sc) 0
  let s2 := nlp.sentiment.positive.foldl (fun sc w => if includes lower w then sc + 1 else sc) s1
  nlp.sentiment.urgent.foldl (fun sc w => if includes lower w then sc - 2 else sc) s2

/-- The alternation of the urgency regex `/urgent|asap|now/`. -/
def urgencyMarkers : List Str := ["urgent", "asap", "now"].map String.toList

/-- Step 4 of `advancedAnalyze`: the three assignments to `sentiment`. -/
def detectSentiment (lower : Str) : String :=
  let s0 := "neutral"
  let s1 := if sentimentScore lower > 0 then "positive" else s0
  let s2 := if sentimentScore lower < 0 then "negative" else s1
  if (matchAlternation urgencyMarkers lower).isSome then "urgent" else s2

/-- The function `advancedAnalyze(text)`. -/
def advancedAnalyze (text : Str) : Analysis :=
  let lower := toLowerCase text
  let best := scoreIntents lower
  let bestIntent :=
    if includes lower "ticket".toList || includes lower "complaint".toList then "support"
    else best.1
  { intent := if best.2 > 0 then bestIntent else "unknown"
    score := best.2
    currency := detectCurrency lower
    amount := detectAmount lower
    sentiment := detectSentiment lower
    raw := text }

end AtlasBackend

/-! ## Quoting collaborator (`backend.js`) -/

namespace SettleXBackend

/-- The object `SettleXBackend.rates`: one optional rate per key. -/
structure Rates where
  USD : Option ℚ
  SGD : Option ℚ
  GBP : Option ℚ
  EUR : Option ℚ
  VND : Option ℚ

/-- The property read `this.rates[currency]`. -/
def Rates.get (r : Rates) (currency : Str) : Option ℚ :=
  if currency = "USD".toList then r.USD
  else if currency = "SGD".toList then r.SGD
  else if currency = "GBP".toList then r.GBP
  else if currency = "EUR".toList then r.EUR
  else if currency = "VND".toList then r.VND
  else none

/-- The part of the object `SettleXBackend` that the chatbot reads. -/
structure Backend where
  rates : Rates
  isReady : Bool

/-- The record returned by `getQuote`. -/
structure Quote where
  live_mid_rate : ℚ
  bank : ℚ
  settlex : ℚ
  bank_total : ℚ
  settlex_total : ℚ
  savings : ℚ

/-- The function `getQuote(amount, currency, type)`; `outflow` is `type === 'OUTFLOW'`.
A rate that is missing or zero is falsy and gives `null`.  Every literal and every
operation is rounded to the nearest double, in the order the source evaluates them. -/
def getQuote (be : Backend) (amount : ℚ) (currency : Str) (outflow : Bool) : Option Quote :=
  match whenTruthyNum (be.rates.get currency) with
  | none => none
  | some midRate =>
    let bankSpread : ℚ := roundDouble (25 / 1000)
    let settlexSpread : ℚ := roundDouble (20 / 10000)
    let bankFixedFee : ℚ := 2500
    let settlexFixedFee : ℚ := 0
    let bankRate :=
      if outflow then roundDouble (midRate * roundDouble (1 + bankSpread))
      else roundDouble (midRate * roundDouble (1 - bankSpread))
    let settlexRate :=
      if outflow then roundDouble (midRate * roundDouble (1 + settlexSpread))
      else roundDouble (midRate * roundDouble (1 - settlexSpread))
    let bankTotalCost :=
      if outflow then roundDouble (roundDouble (amount * bankRate) + bankFixedFee)
      else roundDouble (roundDouble (amount * bankRate) - bankFixedFee)
    let settlexTotalCost :=
      if outflow then roundDouble (roundDouble (amount * settlexRate) + settlexFixedFee)
      else roundDouble (roundDouble (amount * settlexRate) - settlexFixedFee)
    some { live_mid_rate := midRate
           bank := bankRate
           settlex := settlexRate
           bank_total := bankTotalCost
           settlex_total := settlexTotalCost
           savings := |roundDouble (bankTotalCost - settlexTotalCost)| }

end SettleXBackend

/-! ## Session state and environment -/

/-- Number formatting supplied by the JavaScript host. -/
structure Host where
  /-- The conversion of a number to a string in a concatenation or a template. -/
  numToString : ℚ → Str
  /-- The method `Number.prototype.toFixed(2)`. -/
  toFixed2 : ℚ → Str
  /-- The function `SettleXBackend.formatCurrency`, a call of `Intl.NumberFormat`. -/
  formatCurrency : ℚ → Str

/-- One value of `Math.random()`: the rational `num / den` of the interval `[0, 1)`. -/
structure Random where
  num : Nat
  den : Nat
  lt : num < den

/-- The value of `Math.floor(Math.random() * k)`. -/
def Random.floorMul (r : Random) (k : Nat) : Nat := r.num * k / r.den

/-- What one call of `process` reads from outside: the clock and the random source. -/
structure Env where
  now : Nat
  random : Random

namespace AtlasBackend

open SettleXBackend

/-- The object `state.tempData`, with the four properties the program ever writes. -/
structure TempData where
  pendingAmount : Option ℚ
  pendingCurrency : Option Str
  companyName : Option Str
  ticketIssue : Option Str

/-- The empty object assigned by `this.state.tempData = \x7b\x7d`. -/
def TempData.empty : TempData := ⟨none, none, none, none⟩

/-- One entry of `state.history`. -/
structure HistoryEntry where
  ts : Nat
  msg : Str

/-- The object `AtlasBackend.state`. -/
structure State where
  context : Option String
  subContext : Option String
  step : Nat
  lastIntent : Option String
  userName : Option String
  userSentiment : String
  tempData : TempData
  history : List HistoryEntry
  sessionStart : Nat

/-- The initial value of `AtlasBackend.state` in a session started at time `t`. -/
def State.initial (t : Nat) : State :=
  { context := none, subContext := none, step := 0, lastIntent := none, userName := none,
    userSentiment := "neutral", tempData := TempData.empty, history := [], sessionStart := t }

/-- The own properties of `knowledge.dictionary`. -/
def knowledge.dictionary : List (Str × Str) := [
  ("ad_code".toList, "Authorized Dealer Code. A 14-digit code assigned by the bank where you have a current account. You must register this at every customs port where you export/import.".toList),
  ("brc".toList, "Bank Realization Certificate. A legacy term, now largely replaced by e-FIRA and EDPMS status updates. It certifies that export proceeds have been realized.".toList),
  ("edpms".toList, "Export Data Processing and Monitoring System. An RBI platform where banks report export realizations. SettleX updates this automatically.".toList),
  ("idpms".toList, "Import Data Processing and Monitoring System. The RBI platform for tracking import remittances against Bills of Entry.".toList),
  ("fema".toList, "Foreign Exchange Management Act, 1999. The primary law governing FX in India. SettleX ensures all transactions comply with FEMA guidelines automatically.".toList),
  ("swift".toList, "Society for Worldwide Interbank Financial Telecommunication. The legacy messaging network. We bypass this using DBS Intra-Bank rails for 80% lower costs.".toList),
  ("nostro".toList, "An account held by an Indian bank in a foreign country (e.g., YES BANK's account with Wells Fargo US).".toList),
  ("vostro".toList, "An account held by a foreign bank in India (e.g., DBS Singapore's INR account in India).".toList),
  ("eefc".toList, "Exchange Earners' Foreign Currency Account. An account where exporters can retain 100% of their earnings in foreign currency to hedge against future payments.".toList),
  ("hs_code".toList, "Harmonized System Code. A standardized numerical method of classifying traded products. Crucial for RoDTEP claims.".toList),
  ("opgsp".toList, "Online Payment Gateway Service Provider. The older regulatory framework for small value exports, now being superseded by PA-CB.".toList),
  ("pa_cb".toList, "Payment Aggregator - Cross Border. The new RBI master direction (2025) regulating fintechs like SettleX.".toList),
  ("kyc".toList, "Know Your Customer. Mandatory verification involving PAN, Aadhaar, and business registration docs.".toList),
  ("aml".toList, "Anti-Money Laundering. SettleX uses real-time screening against OFAC and UN lists to prevent illicit flows.".toList),
  ("neft".toList, "National Electronic Funds Transfer. Used for domestic INR payouts under \u201a\u00c7\u03c02 Lakhs.".toList),
  ("rtgs".toList, "Real Time Gross Settlement. Used for domestic INR payouts over \u201a\u00c7\u03c02 Lakhs.".toList)]

/-- The properties that `knowledge.dictionary`, a plain object, inherits from
`Object.prototype` under a key made of lower-case letters and underscores, with the text
a template literal prints for the value.  Both values are truthy. -/
def knowledge.dictionaryInherited : List (Str × Str) := [
  ("constructor".toList, "function Object() \x7b [native code] \x7d".toList),
  ("__proto__".toList, "[object Object]".toList)]

/-- The property read `this.knowledge.dictionary[term]`, as the text it prints. -/
def dictionaryGet (term : Str) : Option Str :=
  match knowledge.dictionary.lookup term with
  | some d => some d
  | none => knowledge.dictionaryInherited.lookup term

/-- The entry `knowledge.faq.rodtep`. -/
def knowledge.faq.rodtep : Str := "RoDTEP (Remission of Duties and Taxes on Exported Products) is a scheme for exporters. Since we generate e-FIRAs in T+1 days, you can claim these benefits approx. 10 days faster than with traditional banks.".toList

/-- The entry `knowledge.faq.fira`. -/
def knowledge.faq.fira : Str := "An e-FIRA (Foreign Inward Remittance Advice) is proof of foreign payment. We automate this via our partner banks (YES Bank/DBS) so you don't have to chase relationship managers.".toList

/-- The entry `knowledge.faq.boe`. -/
def knowledge.faq.boe : Str := "Bill of Entry (BoE) is required for imports. Upload it to the 'Compliance Vault', and our OCR will auto-match it with your payment within 15 minutes.".toList

/-- The entry `knowledge.faq.security`. -/
def knowledge.faq.security : Str := "We are ISO 27001 certified and compliant with RBI's PA-CB (Payment Aggregator - Cross Border) guidelines. Your funds are held in escrow, never in our working capital.".toList

/-- The entry `knowledge.troubleshooting.payment_failed`. -/
def knowledge.troubleshooting.payment_failed : Str := "If your payment failed, check: 1) Is the beneficiary account active? 2) Does the purpose code match the invoice? 3) Do you have sufficient balance? If all look good, raise a priority ticket.".toList

/-- The entry `knowledge.troubleshooting.login_issue`. -/
def knowledge.troubleshooting.login_issue : Str := "Ensure you are using your registered corporate email. If you forgot your password, click 'Forgot Password' on the login screen. Accounts are locked after 5 failed attempts.".toList

/-! ## Utilities and live data connectors -/

/-- The function `getRateString(currency)`. -/
def getRateString (host : Host) (be : Backend) (currency : Str) : Str :=
  match getQuote be 1000 currency true with
  | none =>
    "I don't have live data for ".toList ++ currency ++
      " right now. Please try USD, SGD, GBP, or EUR.".toList
  | some quote =>
    "\uf8ff\u00fc\u00e9\u00d8 **".toList ++ currency ++ " Live Wholesale**: \u201a\u00c7\u03c0".toList ++
      host.toFixed2 quote.settlex ++ " \n\n".toList ++
      "Compare that to your bank's rate (approx \u201a\u00c7\u03c0".toList ++ host.toFixed2 quote.bank ++
      "). ".toList ++ "We save you ~2.3% per unit.".toList

/-- The function `calculateConversion(amount, currency)`. -/
def calculateConversion (host : Host) (be : Backend) (amount : ℚ) (currency : Str) : Str :=
  match getQuote be amount currency true with
  | none => "Currency not supported or live data unavailable.".toList
  | some quote =>
    let savingsFormatted := host.formatCurrency quote.savings
    let bankTotalFormatted := host.formatCurrency quote.bank_total
    let settlexTotalFormatted := host.formatCurrency quote.settlex_total
    "\uf8ff\u00fc\u00df\u00c6 **Cost Analysis for ".toList ++ host.numToString amount ++ " ".toList ++ currency ++
      "**\n".toList ++
      "\u201a\u00c4\u00a2 Traditional Bank Cost: ".toList ++ bankTotalFormatted ++ "\n".toList ++
      "\u201a\u00c4\u00a2 SettleX Wholesale Cost: ".toList ++ settlexTotalFormatted ++ "\n".toList ++
      "----------------------------------\n".toList ++
      "\u201a\u00fa\u00d6 **Total Profit Recovered: ".toList ++ savingsFormatted ++ "**".toList

/-- The function `pickRandom(arr)`; `none` is `undefined`, for an empty array.  The one
caller passes a pool of three entries, so its default for `none` is never used. -/
def pickRandom (r : Random) (arr : List Str) : Option Str :=
  arr[r.floorMul arr.length]?

/-- The function `updateAnalytics(msg)`: the new value of `state.history`. -/
def updateAnalytics (env : Env) (st : State) (msg : Str) : State :=
  let pushed := st.history ++ [{ ts := env.now, msg := msg }]
  { st with history := if pushed.length > config.maxHistorySize then pushed.drop 1 else pushed }

/-- The function `startWorkflow(name)`. -/
def startWorkflow (st : State) (name : String) : State :=
  { st with context := some "workflow", subContext := some name, step := 0,
            tempData := TempData.empty }

/-! ## Validators -/

/-- The function `validators.pan(text)`: `/[A-Z]\x7b5\x7d[0-9]\x7b4\x7d[A-Z]\x7b1\x7d/i` tested on
the trimmed text. -/
def validators.pan (text : Str) : Bool :=
  testClasses (List.replicate 5 isLetter ++ List.replicate 4 isDigit ++ [isLetter]) (trim text)

/-- The function `validators.gstin(text)`:
`/\d\x7b2\x7d[A-Z]\x7b5\x7d\d\x7b4\x7d[A-Z]\x7b1\x7d[A-Z\d]\x7b1\x7d[Z]\x7b1\x7d[A-Z\d]\x7b1\x7d/i` tested on the trimmed
text. -/
def validators.gstin (text : Str) : Bool :=
  testClasses
    (List.replicate 2 isDigit ++ List.replicate 5 isLetter ++ List.replicate 4 isDigit ++
      [isLetter, fun c => isLetter c || isDigit c, fun c => c.toLower == 'z',
       fun c => isLetter c || isDigit c])
    (trim text)

/-- The function `validators.iec(text)`: `/\d\x7b10\x7d/` tested on the trimmed text. -/
def validators.iec (text : Str) : Bool :=
  testClasses (List.replicate 10 isDigit) (trim text)

/-! ## Response Generator -/

/-- The function `sentimentAdjust(response, sentiment)`. -/
def sentimentAdjust (response : Str) (sentiment : String) : Str :=
  if sentiment = "negative" then "I apologize if you're facing issues. ".toList ++ response
  else if sentiment = "urgent" then "\uf8ff\u00fc\u00f6\u00ae **Priority Response**: ".toList ++ response
  else response

/-- The pool of greetings of `generateResponse`. -/
def greetings : List Str := [
  "Hello! I'm Atlas, your SettleX Trade Assistant. I'm connected to the Live Interbank Market. How can I optimize your cash flow?".toList,
  "Hi there! Ready to save on FX spreads? Ask me about live rates, compliance, or transfers.".toList,
  "Greetings from the SettleX team. What can I help you clear today?".toList]

/-- The last element of `raw.split(' ')`. -/
def lastWord (raw : Str) : Str := (raw.splitOn ' ').getLastD []

/-- The reply of a dictionary hit: the term in upper case, then its definition. -/
def definitionReply (term definition : Str) : Str :=
  "\uf8ff\u00fc\u00ec\u00f1 **".toList ++ toUpperCase term ++ "**: ".toList ++ definition

/-- The function `generateResponse(analysis)`: the reply and the new state. -/
def generateResponse (host : Host) (be : Backend) (env : Env) (st : State)
    (analysis : Analysis) : Str × State :=
  if analysis.intent = "greeting" then
    ((pickRandom env.random greetings).getD "undefined".toList, st)
  else if analysis.intent = "rate_inquiry" then
    match whenTruthyStr analysis.currency with
    | some currency => (getRateString host be currency, st)
    | none =>
      ("I can check live wholesale rates for you. Which currency? (USD, SGD, GBP, EUR)".toList,
        { st with context := some "awaiting_currency_for_rate" })
  else if analysis.intent = "calculator" then
    match whenTruthyNum analysis.amount, whenTruthyStr analysis.currency with
    | some amount, some currency => (calculateConversion host be amount currency, st)
    | amount, currency =>
      let t1 := st.tempData
      let t2 := if amount.isSome then { t1 with pendingAmount := analysis.amount } else t1
      let t3 := if currency.isSome then { t2 with pendingCurrency := analysis.currency } else t2
      ("I can calculate that instant savings for you. How much do you want to convert? (e.g., '5000 USD')".toList,
        { st with context := some "awaiting_calculation_details", tempData := t3 })
  else if analysis.intent = "compliance_fira" then (knowledge.faq.fira, st)
  else if analysis.intent = "compliance_rodtep" then (knowledge.faq.rodtep, st)
  else if analysis.intent = "compliance_boe" then (knowledge.faq.boe, st)
  else if analysis.intent = "speed" then
    ("We move at the speed of data. Using DBS 'Golden Rail' intra-bank transfers, payments from major hubs (SG, US, UK) settle T+0 (Same Day) if booked before 2:00 PM IST. Traditional SWIFT takes T+3.".toList, st)
  else if analysis.intent = "security" then (knowledge.faq.security, st)
  else if analysis.intent = "onboarding" then
    ("Opening an account is fully digital. Would you like me to guide you through the requirements? (Type 'Yes' to start)".toList,
      startWorkflow st "onboarding")
  else if analysis.intent = "support" ∨ analysis.intent = "troubleshoot" then
    if analysis.sentiment = "urgent" ∨ analysis.sentiment = "negative" then
      ("I detect this is urgent. Would you like to raise a **Priority Support Ticket** right now? (Type 'Yes')".toList,
        startWorkflow st "ticket")
    else if includes analysis.raw "fail".toList || includes analysis.raw "reject".toList then
      (knowledge.troubleshooting.payment_failed, st)
    else if includes analysis.raw "login".toList || includes analysis.raw "password".toList then
      (knowledge.troubleshooting.login_issue, st)
    else
      ("You can reach our human Ops Team at ".toList ++ config.supportEmail ++
        ". Or I can help you debug 'failed payments' or 'login issues' here.".toList, st)
  else if analysis.intent = "explain_concept" then
    let term := toLowerCase (lastWord analysis.raw)
    match dictionaryGet term with
    | some definition => (definitionReply term definition, st)
    | none =>
      ("I have a full trade dictionary. Which term do you want defined? (e.g., 'EEFC', 'HS Code', 'FEMA')".toList,
        { st with context := some "awaiting_term_definition" })
  else if analysis.intent = "thanks" then
    ("You're very welcome! SettleX is always here to help.".toList, st)
  else if analysis.intent = "goodbye" then
    ("Goodbye! Keep your margins high and your compliance clean. \uf8ff\u00fc\u00eb\u00e3".toList, st)
  else if analysis.intent = "personality" then
    ("I'm Atlas, a digital assistant built on the SettleX infrastructure. I process trade data faster than you can say 'Letter of Credit'.".toList, st)
  else
    ("I'm trained on Trade Finance, Live FX Rates, and Compliance rules. You can ask: 'Current USD Rate', 'What is RoDTEP?', 'Convert 5000 SGD', or 'Help with login'.".toList, st)

/-! ## Context Resolver -/

/-- The function `handleContext(analysis, rawText)`: the reply and the new state. -/
def handleContext (host : Host) (be : Backend) (env : Env) (st : State)
    (analysis : Analysis) (rawText : Str) : Str × State :=
  let ctx := st.context
  let st0 : State := { st with context := none }
  if ctx = some "awaiting_currency_for_rate" then
    match whenTruthyStr (normalizeCurrency rawText) with
    | some currency => (getRateString host be currency, st0)
    | none =>
      if analysis.intent = "goodbye" then
        ("No problem. Let me know if you need rates later.".toList, st0)
      else
        ("I didn't catch that currency. We support USD, SGD, GBP, EUR, and AED. Which one are you interested in?".toList, st0)
  else if ctx = some "awaiting_calculation_details" then
    let amount := jsOr whenTruthyNum analysis.amount st.tempData.pendingAmount
    let currency := jsOr whenTruthyStr analysis.currency st.tempData.pendingCurrency
    match whenTruthyNum amount, whenTruthyStr currency with
    | some a, some c => (calculateConversion host be a c, st0)
    | some a, none =>
      ("Got the amount (".toList ++ host.numToString a ++ "). Now, which currency? (e.g. USD)".toList,
        { st0 with tempData := { st.tempData with pendingAmount := amount },
                   context := some "awaiting_calculation_details" })
    | none, some c =>
      ("Got the currency (".toList ++ c ++ "). How much do you want to convert?".toList,
        { st0 with tempData := { st.tempData with pendingCurrency := currency },
                   context := some "awaiting_calculation_details" })
    | none, none =>
      ("I still need an amount and a currency to help (e.g., '1000 USD').".toList, st0)
  else if ctx = some "awaiting_term_definition" then
    let term := (toLowerCase rawText).filter (fun c => ('a' ≤ c && c ≤ 'z') || c == '_')
    match dictionaryGet term with
    | some definition => (definitionReply term definition, st0)
    | none =>
      ("I couldn't find a definition for that specific term in my trade dictionary. Try 'FEMA', 'HS Code', or 'BRC'.".toList, st0)
  else generateResponse host be env st0 analysis

/-! ## Workflow Engine -/

/-- The text a template literal prints for a string-or-undefined value. -/
def templateStr : Option Str → Str
  | some s => s
  | none => "undefined".toList

/-- The function `workflowManager.flowOnboarding(step, msg)`; the reply `none` is the
`undefined` returned when no `if (step === ...)` applies. -/
def workflowManager.flowOnboarding (st : State) (step : Nat) (msg : Str) : Option Str × State :=
  if step = 0 then
    if includes (toLowerCase msg) "yes".toList then
      (some "Great! Step 1: Do you have a valid **IEC (Import Export Code)**? (Yes/No)".toList,
        { st with step := st.step + 1 })
    else
      (some "No problem. You can start anytime via the 'Open Account' button.".toList,
        { st with context := none })
  else if step = 1 then
    if includes (toLowerCase msg) "yes".toList then
      (some "Perfect. Step 2: Please enter your **10-digit PAN Number** for validation simulation.".toList,
        { st with step := st.step + 1 })
    else
      (some "You need an IEC to operate on SettleX. Please apply via the DGFT portal first.".toList,
        { st with context := none })
  else if step = 2 then
    if validators.pan msg then
      (some "\u201a\u00fa\u00d6 PAN Validated. Step 3: Enter your Company Name.".toList,
        { st with step := st.step + 1 })
    else
      (some "\u201a\u00f9\u00e5 Invalid PAN format. It should be 5 letters, 4 numbers, 1 letter (e.g., ABCDE1234F). Try again.".toList, st)
  else if step = 3 then
    (some ("Thanks. Last Step: Enter your GSTIN for ".toList ++ msg ++ ".".toList),
      { st with tempData := { st.tempData with companyName := some msg }, step := st.step + 1 })
  else if step = 4 then
    if validators.gstin msg then
      (some ("\uf8ff\u00fc\u00e9\u00e2 **Pre-Check Complete!**\n\nCompany: ".toList ++
          templateStr st.tempData.companyName ++
          "\nPAN: Verified\nGSTIN: Verified\n\nPlease click the 'Open Account' button in the top right to upload your docs and go live.".toList),
        { st with context := none })
    else
      (some "\u201a\u00f9\u00e5 Invalid GSTIN format. It typically starts with state code (e.g., 29ABCDE1234F1Z5). Try again.".toList, st)
  else (none, st)

/-- The function `workflowManager.flowTicket(step, msg)`. -/
def workflowManager.flowTicket (env : Env) (st : State) (step : Nat) (msg : Str) :
    Option Str × State :=
  if step = 0 then
    if includes (toLowerCase msg) "yes".toList then
      (some "Okay, I'm opening a priority ticket. Please describe the issue in one sentence.".toList,
        { st with step := st.step + 1 })
    else
      (some "Understood. Let me know if you need anything else.".toList,
        { st with context := none })
  else if step = 1 then
    (some "Got it. Please provide a valid **Transaction ID** (if applicable) or type 'NA'.".toList,
      { st with tempData := { st.tempData with ticketIssue := some msg }, step := st.step + 1 })
  else if step = 2 then
    let ticketId := "TKT-".toList ++ Nat.toDigits 10 (env.random.floorMul 10000)
    (some ("\u201a\u00fa\u00d6 **Ticket Created: ".toList ++ ticketId ++ "**\n\nIssue: ".toList ++
        templateStr st.tempData.ticketIssue ++ "\nRef: ".toList ++ msg ++
        "\n\nOur Ops Team has been alerted. ETA: < 2 hours.".toList),
      { st with context := none })
  else (none, st)

/-- The function `workflowManager.handleStep(msg)`. -/
def workflowManager.handleStep (env : Env) (st : State) (msg : Str) : Option Str × State :=
  let flow := st.subContext
  let step := st.step
  let lower := toLowerCase msg
  if lower = "cancel".toList ∨ lower = "stop".toList ∨ lower = "exit".toList then
    (some "Workflow cancelled. How else can I help?".toList,
      { st with context := none, subContext := none })
  else if flow = some "onboarding" then workflowManager.flowOnboarding st step msg
  else if flow = some "ticket" then workflowManager.flowTicket env st step msg
  else (some "Workflow Error. Resetting.".toList, st)

/-! ## Session Loop -/

/-- The function `process(message)`: the reply (`none` is `undefined`) and the new state.
The argument `be` is `none` when `typeof SettleXBackend === 'undefined'`; a `message` that
is `none` is `null` or `undefined`. -/
def process (host : Host) (be : Option Backend) (env : Env) (st : State)
    (message : Option Str) : Option Str × State :=
  match whenTruthyStr message with
  | none => (some [], st)
  | some message =>
    let cleanMsg := trim message
    let st1 := updateAnalytics env st cleanMsg
    match be with
    | none =>
      (some "I'm currently establishing a secure handshake with the GIFT City server to get live rates. Please try again in 2 seconds.".toList, st1)
    | some be =>
      if !be.isReady then
        (some "I'm currently establishing a secure handshake with the GIFT City server to get live rates. Please try again in 2 seconds.".toList, st1)
      else if st1.context = some "workflow" then workflowManager.handleStep env st1 cleanMsg
      else
        let analysis := advancedAnalyze cleanMsg
        let st2 : State := { st1 with userSentiment := analysis.sentiment }
        if truthyTag st2.context then
          let r := handleContext host be env st2 analysis cleanMsg
          (some r.1, r.2)
        else
          let r := generateResponse host be env st2 analysis
          (some (sentimentAdjust r.1 analysis.sentiment), r.2)

end AtlasBackend

end SettleX

namespace SettleX

/-! ## Decimal numerals, in the words of the specification -/

/-- The text of the optional decimal part of a numeral: a point and the digits after
it. -/
def fractionText : Option Str → Str
  | some f => '.' :: f
  | none => []

/-- The text of a decimal numeral: the leading digits `ds`, the thousands groups `groups`,
each written after a comma, the optional decimal part `frac`, written after a point, and
the optional magnitude letter `mag`. -/
def numeralText (ds : Str) (groups : List Str) (frac : Option Str) (mag : Option Char) : Str :=
  ds ++ (groups.map (fun g => ',' :: g)).flatten ++ fractionText frac ++ mag.toList

/-- The digit a character `0` to `9` stands for. -/
def digitValue (c : Char) : Nat := c.toNat - '0'.toNat

/-- The number a numeral denotes: its digits, thousands separators left out, read in
base ten, plus its decimal part. -/
def numeralValue (ds : Str) (groups : List Str) (frac : Option Str) : ℚ :=
  ((Nat.ofDigits (10 : ℕ) ((ds ++ groups.flatten).reverse.map digitValue) : ℕ) : ℚ) +
    (match frac with
     | some f => ((Nat.ofDigits (10 : ℕ) (f.reverse.map digitValue) : ℕ) : ℚ) / 10 ^ f.length
     | none => 0)

/-- The number of words of the set `ws` that occur in the text `lower`. -/
def occurrences (lower : Str) (ws : List Str) : Nat :=
  (ws.filter (fun w => includes lower w)).length

/-- The factor a magnitude letter stands for: `k` is 1e3, `m` is 1e6, `b` is 1e9, and no
letter is 1. -/
def magnitudeFactor : Option Char → ℚ
  | some 'k' => 1000
  | some 'm' => 1000000
  | some 'b' => 1000000000
  | _ => 1

end SettleX

namespace SettleX

/-! ## Sample collaborators for closed examples -/

/-- A plain way to print a number: an integer in decimal, as JavaScript prints it, and
any other rational as numerator, slash, denominator. -/
def printNumber (q : ℚ) : Str :=
  (if q.num < 0 then ['-'] else []) ++ Nat.toDigits 10 q.num.natAbs ++
    (if q.den = 1 then [] else '/' :: Nat.toDigits 10 q.den)

/-- A host whose three formatters are `printNumber`. -/
def sampleHost : Host := ⟨printNumber, printNumber, printNumber⟩

/-- A ready quoting collaborator that holds a rate for USD, SGD, GBP and EUR. -/
def sampleBackend : SettleXBackend.Backend :=
  { rates := { USD := some 83, SGD := some 62, GBP := some 106, EUR := some 90, VND := none }
    isReady := true }

/-- An environment whose clock reads 0 and whose random source returns 0. -/
def sampleEnv : Env := ⟨0, ⟨0, 1, Nat.zero_lt_one⟩⟩

/-- The amount that is present after a message in the calculation dialogue: the newly
detected one when there is one other than zero, otherwise the previously stored one,
when there is one other than zero. -/
def AtlasBackend.presentAmount (analysis : AtlasBackend.Analysis) (slots : AtlasBackend.TempData) :
    Option ℚ :=
  match whenTruthyNum analysis.amount with
  | some a => some a
  | none => whenTruthyNum slots.pendingAmount

/-- The currency that is present after a message in the calculation dialogue: the newly
detected one when there is one, otherwise the previously stored one. -/
def AtlasBackend.presentCurrency (analysis : AtlasBackend.Analysis)
    (slots : AtlasBackend.TempData) : Option Str :=
  match whenTruthyStr analysis.currency with
  | some c => some c
  | none => whenTruthyStr slots.pendingCurrency

/-- The key of a term in the words of the specification: every character that is not a
letter removed from the raw message, and the rest in lower case. -/
def AtlasBackend.lettersOnlyKey (rawText : Str) : Str :=
  toLowerCase (rawText.filter isLetter)

/-- The key `handleContext` looks a term up under: the raw message in lower case, with
every character other than `a` to `z` and the underscore removed. -/
def AtlasBackend.termKey (rawText : Str) : Str :=
  (toLowerCase rawText).filter (fun c => ('a' ≤ c && c ≤ 'z') || c == '_')

/-- A cancel message of the Workflow Engine: its lower-case form is "cancel", "stop" or
"exit". -/
def AtlasBackend.isCancel (msg : Str) : Bool :=
  decide (toLowerCase msg = "cancel".toList ∨ toLowerCase msg = "stop".toList ∨
    toLowerCase msg = "exit".toList)

/-- The session state after the messages `msgs` have been sent one after the other, with
the same collaborators at every turn. -/
def AtlasBackend.processAll (host : Host) (be : Option SettleXBackend.Backend) (env : Env)
    (st : AtlasBackend.State) (msgs : List Str) : AtlasBackend.State :=
  msgs.foldl (fun s m => (AtlasBackend.process host be env s (some m)).2) st

/-- One turn of a session: the collaborator as it is at that moment (absent, not ready or
ready), the environment, and the message passed to `process`. -/
abbrev Turn := Option SettleXBackend.Backend × Env × Option Str

/-- The session state after a sequence of calls of `process`, one for each turn. -/
def AtlasBackend.processTurns (host : Host) (st : AtlasBackend.State) (turns : List Turn) :
    AtlasBackend.State :=
  turns.foldl (fun s t => (AtlasBackend.process host t.1 t.2.1 s t.2.2).2) st

/-- The last `k` elements of a list, in their order. -/
def lastEntries {α : Type} (k : Nat) (l : List α) : List α := l.drop (l.length - k)

/-- The score of an intent in the words of the specification: its weight times the number
of its keywords that occur in the text. -/
def AtlasBackend.intentScore (lower : Str) (data : AtlasBackend.IntentSpec) : Nat :=
  data.weight * occurrences lower data.keywords

/-- The greatest score among a list of intents, 0 for the empty list. -/
def AtlasBackend.greatestScore (lower : Str) (ds : List AtlasBackend.IntentSpec) : Nat :=
  (ds.map (AtlasBackend.intentScore lower)).foldr max 0

/-- The first intent of a list, in the order written, whose score is `m`. -/
def AtlasBackend.firstWithScore (lower : Str) (m : Nat) (ds : List AtlasBackend.IntentSpec) :
    Option AtlasBackend.IntentSpec :=
  ds.find? (fun d => AtlasBackend.intentScore lower d == m)

/-- The last whitespace-delimited token of a text, in the words of the specification: the
last non-empty piece when the text is cut at every whitespace character. -/
def AtlasBackend.lastWhitespaceToken (raw : Str) : Str :=
  ((raw.splitOnP isWhiteSpace).filter (fun w => !w.isEmpty)).getLastD []

/-- The states in which every tag is a defined one: the context is null, one of the three
context tags, or `workflow`, and in the last case the workflow is `onboarding` at a step
up to 4 or `ticket` at a step up to 2. -/
def AtlasBackend.WellFormed (st : AtlasBackend.State) : Prop :=
  (st.context = none ∨ st.context = some "awaiting_currency_for_rate" ∨
    st.context = some "awaiting_calculation_details" ∨
    st.context = some "awaiting_term_definition" ∨ st.context = some "workflow") ∧
  (st.context = some "workflow" →
    (st.subContext = some "onboarding" ∧ st.step ≤ 4) ∨
    (st.subContext = some "ticket" ∧ st.step ≤ 2))

end SettleX

namespace SettleX

/-! ## Positions of numbers and currency tokens, in the words of the specification -/

/-- Does the word `w` occur in the text `s` at position `i`? -/
def occursAt (w s : Str) (i : Nat) : Bool := w.isPrefixOf (s.drop i)

/-- Does the text begin with a digit? -/
def startsDigit : Str → Bool
  | c :: _ => isDigit c
  | [] => false

/-- Does the text begin with a magnitude letter, `k`, `m` or `b` in either case? -/
def startsMagnitude : Str → Bool
  | c :: _ => c.toLower == 'k' || c.toLower == 'm' || c.toLower == 'b'
  | [] => false

/-- Does the text begin with a decimal part, a point and a digit? -/
def startsFraction : Str → Bool
  | '.' :: c :: _ => isDigit c
  | _ => false

/-- Does the text begin with a thousands group, a comma and three digits? -/
def startsGroup : Str → Bool
  | ',' :: a :: b :: c :: _ => isDigit a && isDigit b && isDigit c
  | _ => false

/-- A numeral with the thousands groups `groups`, the decimal part `frac` and the magnitude
letter `mag` ends before the text `rest`, that is, `rest` does not prolong it.  After a
magnitude letter nothing can; after a decimal part a digit or a magnitude letter can;
otherwise a magnitude letter, a decimal part, a thousands group and, when the numeral has
no thousands group, a digit can. -/
def numeralEnds (groups : List Str) (frac : Option Str) (mag : Option Char) (rest : Str) :
    Bool :=
  match mag, frac with
  | some _, _ => true
  | none, some _ => !startsDigit rest && !startsMagnitude rest
  | none, none =>
    !startsMagnitude rest && !startsFraction rest && !startsGroup rest &&
      (!groups.isEmpty || !startsDigit rest)

/-- The amount computed in doubles from the exact value `v` of a numeral and its magnitude
letter: the double nearest to `v`, multiplied by the factor of the letter and rounded to
the nearest double again. -/
def AtlasBackend.roundedAmount (v : ℚ) (mag : Option Char) : ℚ :=
  match mag with
  | none => roundDouble v
  | some _ => roundDouble (roundDouble v * magnitudeFactor mag)

end SettleX

/-! # Properties -/

namespace SettleX

namespace AtlasBackend

open SettleXBackend

/-! ## Substring search -/

theorem isPrefixOf_append_left (w v s : Str) (h : (w ++ v).isPrefixOf s = true) :
    w.isPrefixOf s = true := by
  rw [List.isPrefixOf_iff_prefix] at h ⊢
  exact (List.prefix_append w v).trans h

theorem includes_append_left (s w v : Str) (h : includes s (w ++ v) = true) :
    includes s w = true := by
  induction s with
  | nil =>
    cases w with
    | nil => rfl
    | cons a w => simp [includes] at h
  | cons c s ih =>
    simp only [includes, Bool.or_eq_true] at h ⊢
    rcases h with h | h
    · exact Or.inl (isPrefixOf_append_left w v _ h)
    · exact Or.inr (ih h)

/-! ## Intent scoring -/

theorem foldl_score_ge (p : Str → Bool) (k : Nat) (ws : List Str) (init : Nat) :
    init ≤ ws.foldl (fun score word => if p word then score + k else score) init := by
  induction ws generalizing init with
  | nil => exact Nat.le_refl _
  | cons w ws ih =>
    simp only [List.foldl_cons]
    split
    · exact Nat.le_trans (Nat.le_add_right _ _) (ih _)
    · exact ih _

theorem foldl_score_hit (p : Str → Bool) (k : Nat) (ws : List Str) (init : Nat) (w : Str)
    (hw : w ∈ ws) (hp : p w = true) :
    init + k ≤ ws.foldl (fun score word => if p word then score + k else score) init := by
  induction ws generalizing init with
  | nil => cases hw
  | cons a ws ih =>
    simp only [List.foldl_cons]
    rcases List.mem_cons.mp hw with rfl | hmem
    · rw [if_pos hp]
      exact foldl_score_ge p k ws _
    · exact Nat.le_trans (Nat.add_le_add_right (foldl_score_ge p k [a] init) k) (ih _ hmem)

theorem keywordScore_hit (lower : Str) (data : IntentSpec) (w : Str) (hw : w ∈ data.keywords)
    (hp : includes lower w = true) : data.weight ≤ keywordScore lower data := by
  have h := foldl_score_hit (includes lower) data.weight data.keywords 0 w hw hp
  simpa [keywordScore] using h

theorem foldl_scoreStep_ge (lower : Str) (ds : List IntentSpec) (acc : String × Nat) :
    acc.2 ≤ (ds.foldl (scoreStep lower) acc).2 := by
  induction ds generalizing acc with
  | nil => exact Nat.le_refl _
  | cons d ds ih =>
    simp only [List.foldl_cons]
    refine Nat.le_trans ?_ (ih _)
    unfold scoreStep
    split
    · exact Nat.le_of_lt ‹_›
    · exact Nat.le_refl _

theorem foldl_scoreStep_ge_mem (lower : Str) (ds : List IntentSpec) (acc : String × Nat)
    (d : IntentSpec) (hd : d ∈ ds) :
    keywordScore lower d ≤ (ds.foldl (scoreStep lower) acc).2 := by
  induction ds generalizing acc with
  | nil => cases hd
  | cons a ds ih =>
    simp only [List.foldl_cons]
    rcases List.mem_cons.mp hd with rfl | hmem
    · refine Nat.le_trans ?_ (foldl_scoreStep_ge lower ds _)
      unfold scoreStep
      split
      · exact Nat.le_refl _
      · exact Nat.le_of_not_lt ‹_›
    · exact ih _ hmem

theorem scoreIntents_ge (lower : Str) (d : IntentSpec) (hd : d ∈ nlp.intents) :
    keywordScore lower d ≤ (scoreIntents lower).2 :=
  foldl_scoreStep_ge_mem lower nlp.intents _ d hd

/-- The entry `support` of `nlp.intents`. -/
theorem support_mem_intents :
    (⟨"support",
      ["help", "support", "contact", "human", "agent", "representative", "call", "email",
       "issue", "problem", "error", "ticket", "complain"].map String.toList, 2⟩ : IntentSpec)
      ∈ nlp.intents := by
  simp [nlp.intents]

theorem scoreIntents_pos_of_ticket_or_complaint (lower : Str)
    (h : includes lower "ticket".toList = true ∨ includes lower "complaint".toList = true) :
    0 < (scoreIntents lower).2 := by
  have hk : includes lower "ticket".toList = true ∨ includes lower "complain".toList = true := by
    rcases h with h | h
    · exact Or.inl h
    · exact Or.inr (includes_append_left lower "complain".toList "t".toList h)
  have h2 := scoreIntents_ge lower _ support_mem_intents
  refine Nat.lt_of_lt_of_le ?_ h2
  rcases hk with hk | hk
  · exact Nat.lt_of_lt_of_le (by decide) (keywordScore_hit lower _ "ticket".toList (by simp) hk)
  · exact Nat.lt_of_lt_of_le (by decide) (keywordScore_hit lower _ "complain".toList (by simp) hk)

/-- C1: whenever the lower-cased text contains "ticket" or "complaint", `advancedAnalyze`
returns the intent `support`, whatever the keyword scores of the intents are. -/
theorem advancedAnalyze_ticket_complaint_support (text : Str)
    (h : includes (toLowerCase text) "ticket".toList = true ∨
         includes (toLowerCase text) "complaint".toList = true) :
    (advancedAnalyze text).intent = "support" := by
  have hpos := scoreIntents_pos_of_ticket_or_complaint (toLowerCase text) h
  have hor : (includes (toLowerCase text) "ticket".toList ||
      includes (toLowerCase text) "complaint".toList) = true := by
    simpa [Bool.or_eq_true] using h
  simp only [advancedAnalyze, hor, if_true, gt_iff_lt, hpos]

/-- Witness of C1: "My COMPLAINT about fees" scores highest for `rate_inquiry`, and is
nevertheless classified as `support`. -/
theorem advancedAnalyze_ticket_complaint_support_witness :
    (includes (toLowerCase "My COMPLAINT about fees".toList) "ticket".toList = true ∨
      includes (toLowerCase "My COMPLAINT about fees".toList) "complaint".toList = true) ∧
    (advancedAnalyze "My COMPLAINT about fees".toList).intent = "support" :=
  ⟨by decide, advancedAnalyze_ticket_complaint_support _ (by decide)⟩


theorem includes_iff_block (s w : Str) : includes s w = true ↔ w <:+: s := by
  induction s with
  | nil => cases w <;> simp [includes]
  | cons c s ih =>
    simp only [includes, Bool.or_eq_true, List.infix_cons_iff, List.isPrefixOf_iff_prefix, ih]

theorem toNat_ofNat_lt (n : Nat) (h : n < 55296) : (Char.ofNat n).toNat = n := by
  unfold Char.ofNat
  rw [dif_pos (Or.inl h)]
  simp [Char.ofNatAux, Char.toNat, UInt32.toNat]

theorem toLower_of_isDigit (c : Char) (h : isDigit c = true) : c.toLower = c := by
  simp only [isDigit, Bool.and_eq_true, decide_eq_true_eq] at h
  unfold Char.toLower
  simp only
  rw [if_neg (by omega)]

theorem isDigit_toLower (c : Char) : isDigit c.toLower = isDigit c := by
  unfold Char.toLower
  simp only
  split
  · next h =>
    have h1 : (Char.ofNat (c.toNat + 32)).toNat = c.toNat + 32 := toNat_ofNat_lt _ (by omega)
    simp only [isDigit, h1]
    have : ¬ (c.toNat + 32 ≤ 57) := by omega
    have : ¬ (c.toNat ≤ 57) := by omega
    simp [*]
  · rfl

theorem toLowerCase_append (a b : Str) : toLowerCase (a ++ b) = toLowerCase a ++ toLowerCase b := by
  simp [toLowerCase]

theorem amountMatch_append_of_no_digit (p s : Str) (hp : ∀ c ∈ p, isDigit c = false) :
    amountMatch (p ++ s) = amountMatch s := by
  induction p with
  | nil => rfl
  | cons c p ih =>
    have hc : isDigit c = false := hp c (List.mem_cons_self _ _)
    simp only [List.cons_append, amountMatch, hc, Bool.false_eq_true, if_false]
    exact ih (fun d hd => hp d (List.mem_cons_of_mem _ hd))

theorem matchAlternation_append_of_no_match (alts : List Str) (p s : Str)
    (h : ∀ t, t ≠ [] → t <:+ p → matchAlternationAt alts (t ++ s) = none) :
    matchAlternation alts (p ++ s) = matchAlternation alts s := by
  induction p with
  | nil => rfl
  | cons c p ih =>
    have h1 := h (c :: p) (by simp) (List.suffix_refl _)
    simp only [List.cons_append] at h1 ⊢
    simp only [matchAlternation, h1]
    exact ih (fun t ht hsuf => h t ht (hsuf.trans (List.suffix_cons c p)))

theorem matchAlternation_skip (alts : List Str) (p rest : Str) (x : Char)
    (hx : ∀ a ∈ alts, x ∉ a) (hp : ∀ a ∈ alts, includes p a = false) :
    matchAlternation alts (p ++ x :: rest) = matchAlternation alts (x :: rest) := by
  apply matchAlternation_append_of_no_match
  intro t ht hsuf
  simp only [matchAlternationAt, List.find?_eq_none, List.isPrefixOf_iff_prefix]
  intro a ha hpre
  have hinc : ¬ a <:+: p := by
    rw [← includes_iff_block, hp a ha]; simp
  rcases List.prefix_or_prefix_of_prefix hpre (List.prefix_append t (x :: rest)) with h1 | h1
  · exact hinc (h1.isInfix.trans hsuf.isInfix)
  · obtain ⟨r, rfl⟩ := h1
    rw [List.prefix_append_right_inj] at hpre
    cases r with
    | nil =>
      apply hinc
      simpa using hsuf.isInfix
    | cons y r =>
      have : y = x := by
        obtain ⟨u, hu⟩ := hpre
        simp at hu
        exact hu.1
      subst this
      exact hx _ ha (by simp)

/-! ## Amount extraction -/

theorem log2Fuel_spec (fuel n : Nat) (hf : n ≤ fuel) (hn : 1 ≤ n) :
    2 ^ log2Fuel fuel n ≤ n ∧ n < 2 ^ (log2Fuel fuel n + 1) := by
  induction fuel generalizing n with
  | zero => omega
  | succ fuel ih =>
    unfold log2Fuel
    by_cases h2 : n < 2
    · rw [if_pos h2]
      constructor
      · simpa using hn
      · simpa using h2
    · rw [if_neg h2]
      obtain ⟨h3, h4⟩ := ih (n / 2) (by omega) (by omega)
      constructor
      · rw [Nat.pow_succ]
        omega
      · rw [Nat.pow_succ]
        omega

theorem log2_spec (n : Nat) (hn : 1 ≤ n) : 2 ^ log2 n ≤ n ∧ n < 2 ^ (log2 n + 1) :=
  log2Fuel_spec n n (Nat.le_refl _) hn

theorem log2_lt_of_lt_pow (n k : Nat) (hn : 1 ≤ n) (h : n < 2 ^ k) : log2 n < k := by
  by_contra hk
  have h1 := (log2_spec n hn).1
  have h2 : 2 ^ k ≤ 2 ^ log2 n := Nat.pow_le_pow_right (by decide) (by omega)
  omega

theorem roundHalfEven_one (m : Nat) : roundHalfEven m 1 = m := by
  simp [roundHalfEven, Nat.mod_one]

theorem roundDoubleNat_one (n : Nat) (h : n < 2 ^ 53) : roundDoubleNat n 1 = n := by
  by_cases hn : n = 0
  · simp [roundDoubleNat, hn]
  have hpos : 1 ≤ n := Nat.pos_of_ne_zero hn
  have hlog := log2_lt_of_lt_pow n 53 hpos h
  have hle := (log2_spec n hpos).1
  have h1 : log2 1 = 0 := by decide
  have hb : binaryExponent n 1 = (log2 n : Int) := by
    simp only [binaryExponent, h1, Nat.cast_zero, sub_zero, Int.toNat_ofNat, one_mul]
    have : (-(log2 n : Int)).toNat = 0 := by omega
    rw [this, pow_zero, mul_one, if_pos hle]
  have hq : quantumExponent n 1 = (log2 n : Int) - 52 := by
    rw [quantumExponent, hb]
    omega
  have hp1 : ((log2 n : Int) - 52).toNat = 0 := by omega
  have hp2 : (-((log2 n : Int) - 52)).toNat = 52 - log2 n := by omega
  simp only [roundDoubleNat, hn, if_false, hq, hp1, hp2, pow_zero, mul_one, roundHalfEven_one]
  push_cast
  field_simp

/-- A whole number below `2 ^ 53` is a double. -/
theorem roundDouble_natCast (n : Nat) (h : n < 2 ^ 53) : roundDouble (n : ℚ) = n := by
  have h0 : ¬ ((n : ℚ) < 0) := by
    push_neg
    exact Nat.cast_nonneg n
  simp only [roundDouble, h0, if_false, Rat.num_natCast, Int.natAbs_ofNat, Rat.den_natCast]
  exact roundDoubleNat_one n h

theorem detectAmount_eval (lower num : Str) (mult : Option Char) (ip fp : Str)
    (h1 : amountMatch lower = some (num, mult))
    (h2 : splitDecimal (num.filter (fun c => c != ',')) = (ip, fp)) :
    detectAmount lower =
      some (applyMultiplier
        (roundDouble ((digitsToNat ip : ℚ) + (digitsToNat fp : ℚ) / 10 ^ fp.length)) mult) := by
  simp only [detectAmount, h1, parseFloat, h2]

theorem applyMultiplier_none (v : ℚ) : applyMultiplier v none = v := by
  simp [applyMultiplier]

theorem applyMultiplier_k (v : ℚ) : applyMultiplier v (some 'k') = roundDouble (v * 1000) := by
  simp [applyMultiplier]

theorem applyMultiplier_m (v : ℚ) :
    applyMultiplier v (some 'm') = roundDouble (v * 1000000) := by
  simp [applyMultiplier]

theorem applyMultiplier_b (v : ℚ) :
    applyMultiplier v (some 'b') = roundDouble (v * 1000000000) := by
  simp [applyMultiplier]

theorem amountMatch_5000 (rest : Str) :
    amountMatch ("5000 ".toList ++ rest) = some ("5000".toList, none) := by
  simp [amountMatch, amountMatchAt, isDigit, matchGroups, matchFraction, matchMagnitude,
    List.takeWhile, List.dropWhile]

theorem matchAlternation_currency_usd (rest : Str) :
    matchAlternation currencyAlternation ("5000 usd".toList ++ rest) = some "usd".toList := by
  simp [matchAlternation, matchAlternationAt, currencyAlternation, List.isPrefixOf]

theorem no_digit_toLowerCase (p : Str) (hp : ∀ c ∈ p, isDigit c = false) :
    ∀ c ∈ toLowerCase p, isDigit c = false := by
  intro c hc
  simp only [toLowerCase, List.mem_map] at hc
  obtain ⟨d, hd, rfl⟩ := hc
  rw [isDigit_toLower]
  exact hp d hd

theorem takeWhile_isDigit_append (ds rest : Str) (hds : ∀ c ∈ ds, isDigit c = true)
    (hrest : ∀ c r, rest = c :: r → isDigit c = false) :
    (ds ++ rest).takeWhile isDigit = ds ∧ (ds ++ rest).dropWhile isDigit = rest := by
  rw [List.takeWhile_append_of_pos hds, List.dropWhile_append_of_pos hds]
  cases rest with
  | nil => simp
  | cons c r => simp [List.takeWhile, List.dropWhile, hrest c r rfl]

/-! ## Numerals -/

theorem matchGroups_of_not_comma (r : Str) (h : ∀ t, r ≠ ',' :: t) : matchGroups r = ([], r) := by
  unfold matchGroups
  split
  · next a b c rest => exact absurd rfl (h _)
  · rfl

theorem matchGroups_groups (groups : List Str) (r : Str)
    (hg : ∀ g ∈ groups, g.length = 3 ∧ ∀ c ∈ g, isDigit c = true) (hr : ∀ t, r ≠ ',' :: t) :
    matchGroups ((groups.map (fun g => ',' :: g)).flatten ++ r) =
      ((groups.map (fun g => ',' :: g)).flatten, r) := by
  induction groups with
  | nil => simpa using matchGroups_of_not_comma r hr
  | cons g gs ih =>
    obtain ⟨hlen, hdig⟩ := hg g (List.mem_cons_self _ _)
    have ih2 := ih (fun g2 h2 => hg g2 (List.mem_cons_of_mem _ h2))
    match g, hlen, hdig with
    | [a, b, c], _, hdig =>
      have ha : isDigit a = true := hdig a (by simp)
      have hb : isDigit b = true := hdig b (by simp)
      have hc : isDigit c = true := hdig c (by simp)
      simp only [List.map_cons, List.flatten_cons, List.cons_append, List.nil_append,
        List.append_assoc]
      rw [matchGroups]
      simp only [ha, hb, hc, Bool.and_self, if_true, ih2]

theorem digitsToNat_eq_ofDigits (ds : Str) :
    digitsToNat ds = Nat.ofDigits 10 (ds.reverse.map digitValue) := by
  induction ds using List.reverseRecOn with
  | nil => rfl
  | append_singleton ds c ih =>
    simp only [digitsToNat, List.foldl_append, List.foldl_cons, List.foldl_nil,
      List.reverse_append, List.reverse_cons, List.reverse_nil, List.nil_append,
      List.singleton_append, List.map_cons, Nat.ofDigits_cons] at ih ⊢
    rw [← ih]
    simp only [digitValue]
    have : '0'.toNat = 48 := by decide
    omega

theorem filter_comma_of_digits (s : Str) (h : ∀ c ∈ s, isDigit c = true) :
    s.filter (fun c => c != ',') = s := by
  rw [List.filter_eq_self]
  intro c hc
  have hd := h c hc
  have hne : c ≠ ',' := by
    rintro rfl
    exact absurd hd (by decide)
  simpa using hne

theorem filter_comma_groups (groups : List Str)
    (hg : ∀ g ∈ groups, g.length = 3 ∧ ∀ c ∈ g, isDigit c = true) :
    ((groups.map (fun g => ',' :: g)).flatten).filter (fun c => c != ',') = groups.flatten := by
  induction groups with
  | nil => rfl
  | cons g gs ih =>
    have h1 := filter_comma_of_digits g (hg g (List.mem_cons_self _ _)).2
    have h2 := ih (fun g2 h2 => hg g2 (List.mem_cons_of_mem _ h2))
    simp only [List.map_cons, List.flatten_cons, List.cons_append, List.filter_cons,
      List.filter_append, h1, h2]
    simp

theorem digits_flatten (groups : List Str)
    (hg : ∀ g ∈ groups, g.length = 3 ∧ ∀ c ∈ g, isDigit c = true) :
    ∀ c ∈ groups.flatten, isDigit c = true := by
  intro c hc
  obtain ⟨g, hgm, hcg⟩ := List.mem_flatten.mp hc
  exact (hg g hgm).2 c hcg

/-- The amount regex captures a whole numeral: the digits, groups and decimal part in the
first group, the magnitude letter in the second. -/
theorem amountMatch_numeral (ds : Str) (groups : List Str) (frac : Option Str)
    (mag : Option Char) (hds0 : ds ≠ []) (hds : ∀ c ∈ ds, isDigit c = true)
    (hg : ∀ g ∈ groups, g.length = 3 ∧ ∀ c ∈ g, isDigit c = true)
    (hf : ∀ f, frac = some f → f ≠ [] ∧ ∀ c ∈ f, isDigit c = true)
    (hm : mag = none ∨ mag = some 'k' ∨ mag = some 'm' ∨ mag = some 'b') :
    amountMatch (numeralText ds groups frac mag) =
      some (ds ++ (groups.map (fun g => ',' :: g)).flatten ++
        fractionText frac, mag) := by
  -- the tail after the groups: decimal part and magnitude letter
  have htail : ∀ t, fractionText frac ++ mag.toList ≠ ',' :: t := by
    intro t h
    cases frac with
    | some f => simp [fractionText] at h
    | none => rcases hm with rfl | rfl | rfl | rfl <;> simp [fractionText] at h
  have hfrac : matchFraction (fractionText frac ++ mag.toList) =
      (fractionText frac, mag.toList) := by
    cases frac with
    | none => rcases hm with rfl | rfl | rfl | rfl <;> rfl
    | some f =>
      obtain ⟨hf0, hfd⟩ := hf f rfl
      have hmd : ∀ c r, mag.toList = c :: r → isDigit c = false := by
        intro c r h
        rcases hm with rfl | rfl | rfl | rfl <;> simp at h <;> (rw [← h.1]; decide)
      obtain ⟨ht, hd⟩ := takeWhile_isDigit_append f mag.toList hfd hmd
      simp only [fractionText, List.cons_append, matchFraction, ht, hd]
      cases f with
      | nil => exact absurd rfl hf0
      | cons a f => simp
  have hmag : matchMagnitude mag.toList = mag := by
    rcases hm with rfl | rfl | rfl | rfl <;> decide
  have hrest : ∀ c r, (groups.map (fun g => ',' :: g)).flatten ++
      (fractionText frac ++ mag.toList) = c :: r → isDigit c = false := by
    intro c r h
    cases groups with
    | cons g gs =>
      simp only [List.map_cons, List.flatten_cons, List.cons_append, List.cons.injEq] at h
      rw [← h.1]; decide
    | nil =>
      cases frac with
      | some f =>
        simp only [fractionText, List.map_nil, List.flatten_nil, List.nil_append,
          List.cons_append, List.cons.injEq] at h
        rw [← h.1]; decide
      | none =>
        rcases hm with rfl | rfl | rfl | rfl <;> simp [fractionText] at h <;>
          (rw [← h.1]; decide)
  obtain ⟨ht, hd⟩ := takeWhile_isDigit_append ds _ hds hrest
  have hgr := matchGroups_groups groups _ hg htail
  cases ds with
  | nil => exact absurd rfl hds0
  | cons d ds =>
    have hd0 : isDigit d = true := hds d (List.mem_cons_self _ _)
    simp only [numeralText, List.append_assoc] at ht hd ⊢
    simp only [List.cons_append] at ht hd ⊢
    rw [amountMatch, if_pos hd0]
    simp only [amountMatchAt, ht, hd, hgr, hfrac, hmag, List.cons_append, List.append_assoc]

theorem splitDecimal_numeral (ip : Str) (frac : Option Str) (hip : ∀ c ∈ ip, isDigit c = true)
    (hf : ∀ f, frac = some f → f ≠ [] ∧ ∀ c ∈ f, isDigit c = true) :
    splitDecimal (ip ++ fractionText frac) = (ip, frac.getD []) := by
  cases frac with
  | none =>
    obtain ⟨ht, hd⟩ := takeWhile_isDigit_append ip [] hip (by simp)
    simp only [fractionText, List.append_nil] at ht hd ⊢
    simp only [splitDecimal, ht, hd, Option.getD_none]
  | some f =>
    obtain ⟨ht, hd⟩ := takeWhile_isDigit_append ip ('.' :: f) hip (by
      intro c r h
      simp only [List.cons.injEq] at h
      rw [← h.1]; decide)
    obtain ⟨ht2, -⟩ := takeWhile_isDigit_append f [] (hf f rfl).2 (by simp)
    simp only [List.append_nil] at ht2
    simp only [fractionText, splitDecimal, ht, hd, ht2, Option.getD_some]

theorem applyMultiplier_roundDouble (v : ℚ) (mag : Option Char)
    (hm : mag = none ∨ mag = some 'k' ∨ mag = some 'm' ∨ mag = some 'b') :
    applyMultiplier (roundDouble v) mag = roundedAmount v mag := by
  rcases hm with rfl | rfl | rfl | rfl
  · simp [applyMultiplier_none, roundedAmount]
  · simp [applyMultiplier_k, roundedAmount, magnitudeFactor]
  · simp [applyMultiplier_m, roundedAmount, magnitudeFactor]
  · simp [applyMultiplier_b, roundedAmount, magnitudeFactor]

theorem roundedAmount_whole (N : Nat) (mag : Option Char)
    (hm : mag = none ∨ mag = some 'k' ∨ mag = some 'm' ∨ mag = some 'b')
    (h : (N : ℚ) * magnitudeFactor mag < 2 ^ 53) :
    roundedAmount (N : ℚ) mag = (N : ℚ) * magnitudeFactor mag := by
  rcases hm with rfl | rfl | rfl | rfl
  · have hf : magnitudeFactor none = 1 := rfl
    rw [hf, mul_one] at h ⊢
    have hN : N < 2 ^ 53 := by exact_mod_cast h
    simp only [roundedAmount, roundDouble_natCast N hN]
  · have hf : magnitudeFactor (some 'k') = ((1000 : ℕ) : ℚ) := by
      simp [magnitudeFactor]
    rw [hf] at h ⊢
    have hNF : N * 1000 < 2 ^ 53 := by exact_mod_cast h
    have hN : N < 2 ^ 53 := by omega
    simp only [roundedAmount, roundDouble_natCast N hN, hf]
    rw [← Nat.cast_mul, roundDouble_natCast _ hNF]
  · have hf : magnitudeFactor (some 'm') = ((1000000 : ℕ) : ℚ) := by
      simp [magnitudeFactor]
    rw [hf] at h ⊢
    have hNF : N * 1000000 < 2 ^ 53 := by exact_mod_cast h
    have hN : N < 2 ^ 53 := by omega
    simp only [roundedAmount, roundDouble_natCast N hN, hf]
    rw [← Nat.cast_mul, roundDouble_natCast _ hNF]
  · have hf : magnitudeFactor (some 'b') = ((1000000000 : ℕ) : ℚ) := by
      simp [magnitudeFactor]
    rw [hf] at h ⊢
    have hNF : N * 1000000000 < 2 ^ 53 := by exact_mod_cast h
    have hN : N < 2 ^ 53 := by omega
    simp only [roundedAmount, roundDouble_natCast N hN, hf]
    rw [← Nat.cast_mul, roundDouble_natCast _ hNF]

theorem toLowerCase_numeralText (ds : Str) (groups : List Str) (frac : Option Str)
    (mag : Option Char) (hds : ∀ c ∈ ds, isDigit c = true)
    (hg : ∀ g ∈ groups, g.length = 3 ∧ ∀ c ∈ g, isDigit c = true)
    (hf : ∀ f, frac = some f → f ≠ [] ∧ ∀ c ∈ f, isDigit c = true)
    (hm : mag = none ∨ mag = some 'k' ∨ mag = some 'm' ∨ mag = some 'b') :
    toLowerCase (numeralText ds groups frac mag) = numeralText ds groups frac mag := by
  have hdig : ∀ s : Str, (∀ c ∈ s, isDigit c = true) → toLowerCase s = s := by
    intro s hs
    unfold toLowerCase
    conv_rhs => rw [← List.map_id s]
    exact List.map_congr_left (fun c hc => toLower_of_isDigit c (hs c hc))
  have hgroups : toLowerCase ((groups.map (fun g => ',' :: g)).flatten) =
      (groups.map (fun g => ',' :: g)).flatten := by
    induction groups with
    | nil => rfl
    | cons g gs ih =>
      have h1 := hdig g (hg g (List.mem_cons_self _ _)).2
      have h2 := ih (fun g2 h2 => hg g2 (List.mem_cons_of_mem _ h2))
      simp only [List.map_cons, List.flatten_cons, List.cons_append]
      have hc : toLowerCase [','] = [','] := by decide
      have := toLowerCase_append [','] (g ++ (gs.map (fun g => ',' :: g)).flatten)
      simp only [List.singleton_append] at this
      rw [this, toLowerCase_append, h1, h2, hc]
      rfl
  have hfr : toLowerCase (fractionText frac) = fractionText frac := by
    cases frac with
    | none => rfl
    | some f =>
      have h1 := hdig f (hf f rfl).2
      have := toLowerCase_append ['.'] f
      simp only [List.singleton_append] at this
      simp only [fractionText, this, h1]
      rfl
  have hmg : toLowerCase mag.toList = mag.toList := by
    rcases hm with rfl | rfl | rfl | rfl <;> decide
  simp only [numeralText, toLowerCase_append, hdig ds hds, hgroups, hfr, hmg]

theorem filter_comma_fractionText (frac : Option Str)
    (hf : ∀ f, frac = some f → f ≠ [] ∧ ∀ c ∈ f, isDigit c = true) :
    (fractionText frac).filter (fun c => c != ',') = fractionText frac := by
  cases frac with
  | none => rfl
  | some f =>
    have h1 := filter_comma_of_digits f (hf f rfl).2
    have hp : (('.' : Char) != ',') = true := by decide
    simp only [fractionText, List.filter_cons, hp, if_true, h1]

/-- The amount computed from a captured numeral: the double nearest to its value, times the
factor of the magnitude letter, rounded again. -/
theorem detectAmount_numeral (lower : Str) (ds : Str) (groups : List Str) (frac : Option Str)
    (mag : Option Char) (hds : ∀ c ∈ ds, isDigit c = true)
    (hg : ∀ g ∈ groups, g.length = 3 ∧ ∀ c ∈ g, isDigit c = true)
    (hf : ∀ f, frac = some f → f ≠ [] ∧ ∀ c ∈ f, isDigit c = true)
    (hm : mag = none ∨ mag = some 'k' ∨ mag = some 'm' ∨ mag = some 'b')
    (hmatch : amountMatch lower =
      some (ds ++ (groups.map (fun g => ',' :: g)).flatten ++ fractionText frac, mag)) :
    detectAmount lower = some (roundedAmount (numeralValue ds groups frac) mag) := by
  have hdig : ∀ c ∈ ds ++ groups.flatten, isDigit c = true := by
    intro c hc
    rcases List.mem_append.mp hc with h | h
    · exact hds c h
    · exact digits_flatten groups hg c h
  have hfilter : (ds ++ (groups.map (fun g => ',' :: g)).flatten ++ fractionText frac).filter
      (fun c => c != ',') = (ds ++ groups.flatten) ++ fractionText frac := by
    simp only [List.filter_append, filter_comma_of_digits ds hds, filter_comma_groups groups hg,
      filter_comma_fractionText frac hf]
  have hsplit := splitDecimal_numeral (ds ++ groups.flatten) frac hdig hf
  rw [← hfilter] at hsplit
  have hval := detectAmount_eval _ _ _ _ _ hmatch hsplit
  simp only [hval, applyMultiplier_roundDouble _ _ hm, digitsToNat_eq_ofDigits, numeralValue]
  cases frac with
  | some f => simp only [Option.getD_some]
  | none => simp

/-- C4, counterexample: for the message "2.01k" the value of the numeral times 1e3 is
2010, and the analysis returns 2010 - 2^-42 (printed 2009.9999999999998), the double
that the product of the double nearest to 2.01 and 1000 rounds to. -/
theorem advancedAnalyze_amount_numeral_counterexample :
    numeralText "2".toList [] (some "01".toList) (some 'k') = "2.01k".toList ∧
    numeralValue "2".toList [] (some "01".toList) * magnitudeFactor (some 'k') = 2010 ∧
    (advancedAnalyze "2.01k".toList).amount = some (2010 - 1 / 2 ^ 42) ∧
    (advancedAnalyze "2.01k".toList).amount ≠ some 2010 := by
  decide!

/-- C4, as amended: for a message that is a decimal numeral (digits, optional thousands
groups, optional decimal part) optionally followed by a magnitude letter `k`, `m` or `b`,
whose value times 1e3, 1e6 or 1e9 (times 1 without a letter) is below `2 ^ 1023`, so
that every result is a finite double, `advancedAnalyze` returns as amount the double
nearest to the value of the numeral, multiplied by the factor of the letter and rounded
to the nearest double again.  When the numeral has no decimal part and the product is
below `2 ^ 53`, that amount is exactly the value of the numeral times the factor. -/
theorem advancedAnalyze_amount_numeral (ds : Str) (groups : List Str) (frac : Option Str)
    (mag : Option Char) (hds0 : ds ≠ []) (hds : ∀ c ∈ ds, isDigit c = true)
    (hg : ∀ g ∈ groups, g.length = 3 ∧ ∀ c ∈ g, isDigit c = true)
    (hf : ∀ f, frac = some f → f ≠ [] ∧ ∀ c ∈ f, isDigit c = true)
    (hm : mag = none ∨ mag = some 'k' ∨ mag = some 'm' ∨ mag = some 'b')
    (_hfin : numeralValue ds groups frac * magnitudeFactor mag < 2 ^ 1023) :
    (advancedAnalyze (numeralText ds groups frac mag)).amount =
      some (roundedAmount (numeralValue ds groups frac) mag) ∧
    (frac = none → numeralValue ds groups frac * magnitudeFactor mag < 2 ^ 53 →
      (advancedAnalyze (numeralText ds groups frac mag)).amount =
        some (numeralValue ds groups frac * magnitudeFactor mag)) := by
  have hl := toLowerCase_numeralText ds groups frac mag hds hg hf hm
  have hmatch := amountMatch_numeral ds groups frac mag hds0 hds hg hf hm
  have hmain : (advancedAnalyze (numeralText ds groups frac mag)).amount =
      some (roundedAmount (numeralValue ds groups frac) mag) := by
    simp only [advancedAnalyze, hl]
    exact detectAmount_numeral _ ds groups frac mag hds hg hf hm hmatch
  refine ⟨hmain, ?_⟩
  intro hfrac hsmall
  rw [hmain]
  subst hfrac
  have hv : numeralValue ds groups none =
      ((Nat.ofDigits (10 : ℕ) ((ds ++ groups.flatten).reverse.map digitValue) : ℕ) : ℚ) := by
    simp [numeralValue]
  rw [hv] at hsmall ⊢
  rw [roundedAmount_whole _ mag hm hsmall]

/-- Witness of C4 as amended: the three examples of the specification, "10k", "2.5m" and
"1,200". -/
theorem advancedAnalyze_amount_numeral_witness :
    (advancedAnalyze "10k".toList).amount = some 10000 ∧
    (advancedAnalyze "2.5m".toList).amount = some 2500000 ∧
    (advancedAnalyze "1,200".toList).amount = some 1200 := by
  refine ⟨?_, ?_, ?_⟩
  · have h := (advancedAnalyze_amount_numeral "10".toList [] none (some 'k')
      (by decide) (by decide) (by simp) (by simp) (by simp) (by decide!)).1
    have ht : numeralText "10".toList [] none (some 'k') = "10k".toList := by decide
    rw [ht] at h
    rw [h]
    decide!
  · have h := (advancedAnalyze_amount_numeral "2".toList [] (some "5".toList) (some 'm')
      (by decide) (by decide) (by simp) (by simp; decide) (by simp) (by decide!)).1
    have ht : numeralText "2".toList [] (some "5".toList) (some 'm') = "2.5m".toList := by decide
    rw [ht] at h
    rw [h]
    decide!
  · have h := (advancedAnalyze_amount_numeral "1".toList ["200".toList] none none
      (by decide) (by decide) (by decide) (by simp) (by simp) (by decide!)).1
    have ht : numeralText "1".toList ["200".toList] none none = "1,200".toList := by decide
    rw [ht] at h
    rw [h]
    decide!


/-! ## The first number and the first currency token of a message -/

theorem matchGroups_groups_tail (groups : List Str) (r : Str)
    (hg : ∀ g ∈ groups, g.length = 3 ∧ ∀ c ∈ g, isDigit c = true)
    (hr : matchGroups r = ([], r)) :
    matchGroups ((groups.map (fun g => ',' :: g)).flatten ++ r) =
      ((groups.map (fun g => ',' :: g)).flatten, r) := by
  induction groups with
  | nil => simpa using hr
  | cons g gs ih =>
    obtain ⟨hlen, hdig⟩ := hg g (List.mem_cons_self _ _)
    have ih2 := ih (fun g2 h2 => hg g2 (List.mem_cons_of_mem _ h2))
    match g, hlen, hdig with
    | [a, b, c], _, hdig =>
      have ha : isDigit a = true := hdig a (by simp)
      have hb : isDigit b = true := hdig b (by simp)
      have hc : isDigit c = true := hdig c (by simp)
      simp only [List.map_cons, List.flatten_cons, List.cons_append, List.nil_append,
        List.append_assoc]
      rw [matchGroups]
      simp only [ha, hb, hc, Bool.and_self, if_true, ih2]

/-- The amount regex on a numeral followed by a text `r`, from what the parts of the regex
do on `r`. -/
theorem amountMatch_assemble (ds : Str) (groups : List Str) (frac : Option Str)
    (mag : Option Char) (r : Str) (hds0 : ds ≠ []) (hds : ∀ c ∈ ds, isDigit c = true)
    (hg : ∀ g ∈ groups, g.length = 3 ∧ ∀ c ∈ g, isDigit c = true)
    (hf : ∀ f, frac = some f → f ≠ [] ∧ ∀ c ∈ f, isDigit c = true)
    (hmag : matchMagnitude r = mag)
    (hnone : frac = none → matchFraction r = ([], r) ∧ matchGroups r = ([], r) ∧
      (groups = [] → ∀ c t, r = c :: t → isDigit c = false))
    (hsome : ∀ f, frac = some f → ∀ c t, r = c :: t → isDigit c = false) :
    amountMatch (ds ++ (groups.map (fun g => ',' :: g)).flatten ++ fractionText frac ++ r) =
      some (ds ++ (groups.map (fun g => ',' :: g)).flatten ++ fractionText frac, mag) := by
  have hfrac : matchFraction (fractionText frac ++ r) = (fractionText frac, r) := by
    cases frac with
    | none => simpa [fractionText] using (hnone rfl).1
    | some f =>
      obtain ⟨hf0, hfd⟩ := hf f rfl
      obtain ⟨ht, hd⟩ := takeWhile_isDigit_append f r hfd (hsome f rfl)
      simp only [fractionText, List.cons_append, matchFraction, ht, hd]
      cases f with
      | nil => exact absurd rfl hf0
      | cons a f => simp
  have htail : matchGroups (fractionText frac ++ r) = ([], fractionText frac ++ r) := by
    cases frac with
    | none => simpa [fractionText] using (hnone rfl).2.1
    | some f =>
      apply matchGroups_of_not_comma
      intro t h
      simp [fractionText] at h
  have hgr := matchGroups_groups_tail groups _ hg htail
  have hrest : ∀ c t, (groups.map (fun g => ',' :: g)).flatten ++
      (fractionText frac ++ r) = c :: t → isDigit c = false := by
    intro c t h
    cases groups with
    | cons g gs =>
      simp only [List.map_cons, List.flatten_cons, List.cons_append, List.cons.injEq] at h
      rw [← h.1]; decide
    | nil =>
      cases frac with
      | some f =>
        simp only [fractionText, List.map_nil, List.flatten_nil, List.nil_append,
          List.cons_append, List.cons.injEq] at h
        rw [← h.1]; decide
      | none =>
        simp only [fractionText, List.map_nil, List.flatten_nil, List.nil_append] at h
        exact (hnone rfl).2.2 rfl c t h
  obtain ⟨ht, hd⟩ := takeWhile_isDigit_append ds _ hds hrest
  cases ds with
  | nil => exact absurd rfl hds0
  | cons d ds =>
    have hd0 : isDigit d = true := hds d (List.mem_cons_self _ _)
    simp only [List.append_assoc] at ht hd ⊢
    simp only [List.cons_append] at ht hd ⊢
    rw [amountMatch, if_pos hd0]
    simp only [amountMatchAt, ht, hd, hgr, hfrac, hmag, List.cons_append, List.append_assoc]

theorem no_digit_of_not_startsDigit (r : Str) (h : startsDigit r = false) :
    ∀ c t, r = c :: t → isDigit c = false := by
  intro c t hr
  subst hr
  exact h

theorem matchMagnitude_of_not_startsMagnitude (r : Str) (h : startsMagnitude r = false) :
    matchMagnitude r = none := by
  cases r with
  | nil => rfl
  | cons c t =>
    have h2 : (c.toLower == 'k' || c.toLower == 'm' || c.toLower == 'b') = false := h
    simp only [matchMagnitude, h2, Bool.false_eq_true, if_false]

theorem matchFraction_of_not_startsFraction (r : Str) (h : startsFraction r = false) :
    matchFraction r = ([], r) := by
  unfold matchFraction
  split
  · next rest =>
    have hd : (rest.takeWhile isDigit).isEmpty = true := by
      cases rest with
      | nil => rfl
      | cons a t =>
        have ha : isDigit a = false := h
        simp [List.takeWhile, ha]
    rw [if_pos hd]
  · rfl

theorem matchGroups_of_not_startsGroup (r : Str) (h : startsGroup r = false) :
    matchGroups r = ([], r) := by
  unfold matchGroups
  split
  · next a b c rest =>
    have h2 : (isDigit a && isDigit b && isDigit c) = false := h
    simp only [h2, Bool.false_eq_true, if_false]
  · rfl

/-- The amount regex captures a numeral that the rest of the text does not prolong. -/
theorem amountMatch_numeral_tail (ds : Str) (groups : List Str) (frac : Option Str)
    (mag : Option Char) (rest : Str) (hds0 : ds ≠ []) (hds : ∀ c ∈ ds, isDigit c = true)
    (hg : ∀ g ∈ groups, g.length = 3 ∧ ∀ c ∈ g, isDigit c = true)
    (hf : ∀ f, frac = some f → f ≠ [] ∧ ∀ c ∈ f, isDigit c = true)
    (hm : mag = none ∨ mag = some 'k' ∨ mag = some 'm' ∨ mag = some 'b')
    (hends : numeralEnds groups frac mag rest = true) :
    amountMatch (numeralText ds groups frac mag ++ rest) =
      some (ds ++ (groups.map (fun g => ',' :: g)).flatten ++ fractionText frac, mag) := by
  have key := amountMatch_assemble ds groups frac mag (mag.toList ++ rest) hds0 hds hg hf
  have hshape : numeralText ds groups frac mag ++ rest =
      ds ++ (groups.map (fun g => ',' :: g)).flatten ++ fractionText frac ++
        (mag.toList ++ rest) := by
    simp only [numeralText, List.append_assoc]
  rw [hshape]
  rcases hm with rfl | rfl | rfl | rfl
  · cases frac with
    | some f =>
      simp only [numeralEnds, Bool.and_eq_true, Bool.not_eq_true'] at hends
      refine key (matchMagnitude_of_not_startsMagnitude rest hends.2) ?_ ?_
      · intro h
        exact absurd h (by simp)
      · intro f2 _
        exact no_digit_of_not_startsDigit rest hends.1
    | none =>
      simp only [numeralEnds, Bool.and_eq_true, Bool.not_eq_true', Bool.or_eq_true] at hends
      refine key (matchMagnitude_of_not_startsMagnitude rest hends.1.1.1) ?_ ?_
      · intro _
        refine ⟨matchFraction_of_not_startsFraction rest hends.1.1.2,
          matchGroups_of_not_startsGroup rest hends.1.2, ?_⟩
        intro hgr
        rcases hends.2 with h | h
        · rw [hgr] at h
          exact absurd h (by decide)
        · exact no_digit_of_not_startsDigit rest h
      · intro f2 h
        exact absurd h (by simp)
  all_goals
    refine key rfl ?_ ?_
    · intro _
      refine ⟨rfl, rfl, ?_⟩
      intro _ c t h
      simp only [Option.toList, List.singleton_append, List.cons.injEq] at h
      rw [← h.1]
      decide
    · intro f2 _ c t h
      simp only [Option.toList, List.singleton_append, List.cons.injEq] at h
      rw [← h.1]
      decide

/-- The leftmost match of an alternation starts no later than any occurrence of one of its
alternatives. -/
theorem matchAlternation_of_occurs (alts : List Str) (s : Str) (k : Nat) (tok : Str)
    (htok : tok ∈ alts) (hocc : occursAt tok s k = true) :
    ∃ m i, matchAlternation alts s = some m ∧ m ∈ alts ∧ i ≤ k ∧ occursAt m s i = true := by
  induction s generalizing k with
  | nil =>
    have hp : tok.isPrefixOf [] = true := by simpa [occursAt] using hocc
    have hsome : (matchAlternationAt alts []).isSome = true := by
      rw [matchAlternationAt, List.find?_isSome]
      exact ⟨tok, htok, hp⟩
    obtain ⟨m, hm⟩ := Option.isSome_iff_exists.mp hsome
    refine ⟨m, 0, ?_, List.mem_of_find?_eq_some hm, Nat.zero_le _, ?_⟩
    · simp only [matchAlternation, hm]
    · simpa [occursAt] using List.find?_some hm
  | cons c s ih =>
    cases hm : matchAlternationAt alts (c :: s) with
    | some m =>
      refine ⟨m, 0, ?_, List.mem_of_find?_eq_some hm, Nat.zero_le _, ?_⟩
      · simp only [matchAlternation, hm]
      · simpa [occursAt] using List.find?_some hm
    | none =>
      cases k with
      | zero =>
        have hp : tok.isPrefixOf (c :: s) = true := by simpa [occursAt] using hocc
        have hsome : (matchAlternationAt alts (c :: s)).isSome = true := by
          rw [matchAlternationAt, List.find?_isSome]
          exact ⟨tok, htok, hp⟩
        rw [hm] at hsome
        exact absurd hsome (by decide)
      | succ k =>
        have hocc2 : occursAt tok s k = true := by simpa [occursAt] using hocc
        obtain ⟨m, i, h1, h2, h3, h4⟩ := ih k hocc2
        refine ⟨m, i + 1, ?_, h2, Nat.succ_le_succ h3, ?_⟩
        · simp only [matchAlternation, hm, h1]
        · simpa [occursAt] using h4

/-- C2, counterexample: in "1 eur 5000 USD" the number 5000 and the token USD are both
present, and the analysis returns the amount 1 and the currency EUR, the leftmost number
and the leftmost currency token. -/
theorem advancedAnalyze_5000_usd_counterexample :
    (advancedAnalyze "1 eur 5000 USD".toList).amount = some 1 ∧
    (advancedAnalyze "1 eur 5000 USD".toList).currency = some "EUR".toList ∧
    ¬ ((advancedAnalyze "1 eur 5000 USD".toList).amount = some 5000 ∧
       (advancedAnalyze "1 eur 5000 USD".toList).currency = some "USD".toList) := by
  decide!

/-- C2, as amended: the analysis returns the first number and the first currency token of
the message, whatever surrounds them.
Amount: when the lower-cased message is `pre ++ numeral ++ rest`, where `pre` contains no
digit, `numeral` is a decimal numeral (digits, optional thousands groups, optional decimal
part, optional magnitude letter) that denotes 5000, such as "5000", "5,000" or "5k", and
`rest` does not prolong the numeral, the analysis returns the amount 5000.
Currency: when a token of the currency regex that `normalizeCurrency` maps to USD occurs
in the lower-cased message at position `k`, and no token of the regex that is mapped to
another currency or to none occurs at a position up to `k`, the analysis returns the
currency USD. -/
theorem advancedAnalyze_5000_usd :
    (∀ (text pre rest ds : Str) (groups : List Str) (frac : Option Str) (mag : Option Char),
      toLowerCase text = pre ++ numeralText ds groups frac mag ++ rest →
      (∀ c ∈ pre, isDigit c = false) →
      ds ≠ [] → (∀ c ∈ ds, isDigit c = true) →
      (∀ g ∈ groups, g.length = 3 ∧ ∀ c ∈ g, isDigit c = true) →
      (∀ f, frac = some f → f ≠ [] ∧ ∀ c ∈ f, isDigit c = true) →
      (mag = none ∨ mag = some 'k' ∨ mag = some 'm' ∨ mag = some 'b') →
      numeralEnds groups frac mag rest = true →
      roundedAmount (numeralValue ds groups frac) mag = 5000 →
      (advancedAnalyze text).amount = some 5000) ∧
    (∀ (text : Str) (k : Nat) (tok : Str), tok ∈ currencyAlternation →
      normalizeCurrency tok = some "USD".toList →
      occursAt tok (toLowerCase text) k = true →
      (∀ t ∈ currencyAlternation, normalizeCurrency t ≠ some "USD".toList →
        ∀ i, i ≤ k → occursAt t (toLowerCase text) i = false) →
      (advancedAnalyze text).currency = some "USD".toList) := by
  constructor
  · intro text pre rest ds groups frac mag hl hd hds0 hds hg hf hm hends hval
    have hmatch : amountMatch (toLowerCase text) =
        some (ds ++ (groups.map (fun g => ',' :: g)).flatten ++ fractionText frac, mag) := by
      rw [hl, List.append_assoc, amountMatch_append_of_no_digit _ _ hd]
      exact amountMatch_numeral_tail ds groups frac mag rest hds0 hds hg hf hm hends
    have h := detectAmount_numeral _ ds groups frac mag hds hg hf hm hmatch
    simp only [advancedAnalyze, h, hval]
  · intro text k tok htok hnorm hocc hnone
    obtain ⟨m, i, hm, hmem, hik, hmocc⟩ :=
      matchAlternation_of_occurs currencyAlternation (toLowerCase text) k tok htok hocc
    have hmn : normalizeCurrency m = some "USD".toList := by
      by_contra hne
      have := hnone m hmem hne i hik
      rw [hmocc] at this
      exact absurd this (by decide)
    simp only [advancedAnalyze, detectCurrency, hm, hmn]

/-- Witness of C2 as amended: "Please send 5000 UsD asap", "USD 5000", "5000usd",
"dollars: 5000 USD", "usd 5K today", "pay 5,000.00 dollars" and
"pay 5000 in USD please". -/
theorem advancedAnalyze_5000_usd_witness :
    ((advancedAnalyze "Please send 5000 UsD asap".toList).amount = some 5000 ∧
      (advancedAnalyze "Please send 5000 UsD asap".toList).currency = some "USD".toList) ∧
    ((advancedAnalyze "USD 5000".toList).amount = some 5000 ∧
      (advancedAnalyze "USD 5000".toList).currency = some "USD".toList) ∧
    ((advancedAnalyze "5000usd".toList).amount = some 5000 ∧
      (advancedAnalyze "5000usd".toList).currency = some "USD".toList) ∧
    ((advancedAnalyze "dollars: 5000 USD".toList).amount = some 5000 ∧
      (advancedAnalyze "dollars: 5000 USD".toList).currency = some "USD".toList) ∧
    ((advancedAnalyze "usd 5K today".toList).amount = some 5000 ∧
      (advancedAnalyze "usd 5K today".toList).currency = some "USD".toList) ∧
    ((advancedAnalyze "pay 5,000.00 dollars".toList).amount = some 5000 ∧
      (advancedAnalyze "pay 5,000.00 dollars".toList).currency = some "USD".toList) ∧
    ((advancedAnalyze "pay 5000 in USD please".toList).amount = some 5000 ∧
      (advancedAnalyze "pay 5000 in USD please".toList).currency = some "USD".toList) :=
  ⟨⟨advancedAnalyze_5000_usd.1 "Please send 5000 UsD asap".toList "please send ".toList
       " usd asap".toList "5000".toList [] none none (by decide) (by decide) (by decide)
       (by decide) (by simp) (by simp) (by simp) (by decide) (by decide!),
     advancedAnalyze_5000_usd.2 "Please send 5000 UsD asap".toList 17 "usd".toList
       (by decide) (by decide) (by decide) (by decide)⟩,
   ⟨advancedAnalyze_5000_usd.1 "USD 5000".toList "usd ".toList [] "5000".toList [] none none
       (by decide) (by decide) (by decide) (by decide) (by simp) (by simp) (by simp)
       (by decide) (by decide!),
     advancedAnalyze_5000_usd.2 "USD 5000".toList 0 "usd".toList
       (by decide) (by decide) (by decide) (by decide)⟩,
   ⟨advancedAnalyze_5000_usd.1 "5000usd".toList [] "usd".toList "5000".toList [] none none
       (by decide) (by decide) (by decide) (by decide) (by simp) (by simp) (by simp)
       (by decide) (by decide!),
     advancedAnalyze_5000_usd.2 "5000usd".toList 4 "usd".toList
       (by decide) (by decide) (by decide) (by decide)⟩,
   ⟨advancedAnalyze_5000_usd.1 "dollars: 5000 USD".toList "dollars: ".toList " usd".toList
       "5000".toList [] none none (by decide) (by decide) (by decide) (by decide) (by simp)
       (by simp) (by simp) (by decide) (by decide!),
     advancedAnalyze_5000_usd.2 "dollars: 5000 USD".toList 0 "dollar".toList
       (by decide) (by decide) (by decide) (by decide)⟩,
   ⟨advancedAnalyze_5000_usd.1 "usd 5K today".toList "usd ".toList " today".toList
       "5".toList [] none (some 'k') (by decide) (by decide) (by decide) (by decide) (by simp)
       (by simp) (by simp) (by decide) (by decide!),
     advancedAnalyze_5000_usd.2 "usd 5K today".toList 0 "usd".toList
       (by decide) (by decide) (by decide) (by decide)⟩,
   ⟨advancedAnalyze_5000_usd.1 "pay 5,000.00 dollars".toList "pay ".toList
       " dollars".toList "5".toList ["000".toList] (some "00".toList) none (by decide)
       (by decide) (by decide) (by decide) (by decide) (by simp; decide) (by simp)
       (by decide) (by decide!),
     advancedAnalyze_5000_usd.2 "pay 5,000.00 dollars".toList 13 "dollar".toList
       (by decide) (by decide) (by decide) (by decide)⟩,
   ⟨advancedAnalyze_5000_usd.1 "pay 5000 in USD please".toList "pay ".toList
       " in usd please".toList "5000".toList [] none none (by decide) (by decide) (by decide)
       (by decide) (by simp) (by simp) (by simp) (by decide) (by decide!),
     advancedAnalyze_5000_usd.2 "pay 5000 in USD please".toList 12 "usd".toList
       (by decide) (by decide) (by decide) (by decide)⟩⟩


/-! ## Currency extraction -/

/-- C3, at the failing inputs: the leftmost token of the alternation is found (`aud`,
`cad`, `rupee`, `inr`), `normalizeCurrency` has no case for it, and the analysis returns
no currency; in "rupees for 100 dollars" the token `rupee` hides the token `dollar`. -/
theorem advancedAnalyze_currency_unmapped_tokens :
    (matchAlternation currencyAlternation (toLowerCase "100 aud".toList) = some "aud".toList ∧
      (advancedAnalyze "100 aud".toList).currency = none) ∧
    (matchAlternation currencyAlternation (toLowerCase "100 CAD".toList) = some "cad".toList ∧
      (advancedAnalyze "100 CAD".toList).currency = none) ∧
    (matchAlternation currencyAlternation (toLowerCase "100 inr".toList) = some "inr".toList ∧
      (advancedAnalyze "100 inr".toList).currency = none) ∧
    (matchAlternation currencyAlternation (toLowerCase "rupees for 100 dollars".toList) =
        some "rupee".toList ∧
      (advancedAnalyze "rupees for 100 dollars".toList).currency = none) := by
  decide

theorem matchAlternationAt_mem (alts : List Str) (s m : Str)
    (h : matchAlternationAt alts s = some m) : m ∈ alts :=
  List.mem_of_find?_eq_some h

theorem matchAlternation_mem (alts : List Str) (s m : Str)
    (h : matchAlternation alts s = some m) : m ∈ alts := by
  induction s with
  | nil => exact matchAlternationAt_mem alts [] m h
  | cons c s ih =>
    simp only [matchAlternation] at h
    cases hm : matchAlternationAt alts (c :: s) with
    | some x =>
      rw [hm] at h
      cases h
      exact matchAlternationAt_mem alts _ _ hm
    | none =>
      rw [hm] at h
      exact ih h

/-- The detected currency is the normalization of the leftmost token, and it is null
exactly for the four tokens `aud`, `cad`, `rupee` and `inr`. -/
theorem detectCurrency_of_match (lower m : Str)
    (h : matchAlternation currencyAlternation lower = some m) :
    detectCurrency lower = normalizeCurrency m ∧
    (normalizeCurrency m = none ↔ m ∈ ["aud", "cad", "rupee", "inr"].map String.toList) := by
  refine ⟨by simp only [detectCurrency, h], ?_⟩
  have hm := matchAlternation_mem _ _ _ h
  simp only [currencyAlternation, List.map, List.mem_cons, List.mem_singleton,
    List.not_mem_nil, or_false] at hm
  rcases hm with h | h | h | h | h | h | h | h | h | h | h | h | h | h | h | h | h | h <;>
    (subst h; decide)

/-! ## Sentiment -/

theorem foldl_count (p : Str → Bool) (d : Int) (f : Int → Str → Int)
    (hf : ∀ sc w, f sc w = if p w then sc + d else sc) (ws : List Str) (init : Int) :
    ws.foldl f init = init + d * ((ws.filter p).length : Int) := by
  induction ws generalizing init with
  | nil => simp
  | cons w ws ih =>
    rw [List.foldl_cons, ih, hf]
    by_cases hp : p w = true
    · simp only [hp, if_true, List.filter_cons_of_pos, List.length_cons]
      push_cast
      ring
    · simp only [hp, if_false, List.filter_cons_of_neg hp]
      simp

theorem sentimentScore_eq (lower : Str) :
    sentimentScore lower =
      (occurrences lower nlp.sentiment.positive : Int) -
        (occurrences lower nlp.sentiment.negative : Int) -
        2 * (occurrences lower nlp.sentiment.urgent : Int) := by
  unfold sentimentScore occurrences
  simp only
  rw [foldl_count (includes lower) (-2) _ (fun sc w => by split <;> simp [Int.sub_eq_add_neg]),
    foldl_count (includes lower) 1 _ (fun sc w => rfl),
    foldl_count (includes lower) (-1) _ (fun sc w => by split <;> simp [Int.sub_eq_add_neg])]
  ring

theorem matchAlternation_isSome_iff (alts : List Str) (s : Str) :
    (matchAlternation alts s).isSome = true ↔ ∃ a ∈ alts, includes s a = true := by
  induction s with
  | nil =>
    simp only [matchAlternation, matchAlternationAt, List.find?_isSome, includes]
    constructor
    · rintro ⟨a, ha, h⟩
      exact ⟨a, ha, by cases a <;> simp_all [List.isPrefixOf]⟩
    · rintro ⟨a, ha, h⟩
      exact ⟨a, ha, by cases a <;> simp_all [List.isPrefixOf]⟩
  | cons c s ih =>
    simp only [matchAlternation, includes, Bool.or_eq_true]
    cases hm : matchAlternationAt alts (c :: s) with
    | some m =>
      simp only [Option.isSome_some, true_iff]
      have h2 : (matchAlternationAt alts (c :: s)).isSome = true := by rw [hm]; rfl
      simp only [matchAlternationAt, List.find?_isSome] at h2
      obtain ⟨a, ha, h⟩ := h2
      exact ⟨a, ha, Or.inl h⟩
    | none =>
      simp only [matchAlternationAt, List.find?_eq_none] at hm
      rw [ih]
      constructor
      · rintro ⟨a, ha, h⟩
        exact ⟨a, ha, Or.inr h⟩
      · rintro ⟨a, ha, h | h⟩
        · exact absurd h (hm a ha)
        · exact ⟨a, ha, h⟩

/-- C5: the sentiment is `urgent` when the lower-cased text contains one of the urgency
markers "urgent", "asap", "now"; otherwise it is `positive`, `negative` or `neutral` as the
score is above, below or equal to zero, the score being the number of positive words that
occur, minus the number of negative words that occur, minus twice the number of urgent
words that occur. -/
theorem advancedAnalyze_sentiment (text : Str) :
    (advancedAnalyze text).sentiment =
      if ∃ m ∈ ["urgent", "asap", "now"].map String.toList,
          includes (toLowerCase text) m = true then "urgent"
      else if (occurrences (toLowerCase text) nlp.sentiment.positive : Int) -
          (occurrences (toLowerCase text) nlp.sentiment.negative : Int) -
          2 * (occurrences (toLowerCase text) nlp.sentiment.urgent : Int) > 0 then "positive"
      else if (occurrences (toLowerCase text) nlp.sentiment.positive : Int) -
          (occurrences (toLowerCase text) nlp.sentiment.negative : Int) -
          2 * (occurrences (toLowerCase text) nlp.sentiment.urgent : Int) < 0 then "negative"
      else "neutral" := by
  have hu : (matchAlternation urgencyMarkers (toLowerCase text)).isSome = true ↔
      ∃ m ∈ ["urgent", "asap", "now"].map String.toList,
        includes (toLowerCase text) m = true :=
    matchAlternation_isSome_iff urgencyMarkers (toLowerCase text)
  simp only [advancedAnalyze, detectSentiment, sentimentScore_eq]
  by_cases h : (matchAlternation urgencyMarkers (toLowerCase text)).isSome = true
  · rw [if_pos h, if_pos (hu.mp h)]
  · rw [if_neg h, if_neg (fun hex => h (hu.mpr hex))]
    split
    · rw [if_neg (by omega)]
    · rfl

/-! ## Greetings -/

/-- C6: a message that is exactly one greeting keyword, in any letter case, is classified
as `greeting`. -/
theorem advancedAnalyze_greeting (msg : Str)
    (h : toLowerCase msg ∈ ["hello", "hi", "hey", "greetings", "morning", "evening", "start",
      "begin"].map String.toList) :
    (advancedAnalyze msg).intent = "greeting" := by
  simp only [List.map, List.mem_cons, List.mem_singleton, List.not_mem_nil, or_false] at h
  rcases h with h | h | h | h | h | h | h | h <;>
    (simp only [advancedAnalyze, h]; decide)

/-- Witness of C6: the message "MorNing". -/
theorem advancedAnalyze_greeting_witness :
    (advancedAnalyze "MorNing".toList).intent = "greeting" :=
  advancedAnalyze_greeting "MorNing".toList (by decide)


/-! ## Session Loop: the three routes of `process` -/

theorem whenTruthyStr_some_of_ne (msg : Str) (h : msg ≠ []) :
    whenTruthyStr (some msg) = some msg := by
  simp [whenTruthyStr, h]

theorem process_workflow (host : Host) (be : Backend) (env : Env) (st : State) (msg : Str)
    (hmsg : msg ≠ []) (hready : be.isReady = true) (hctx : st.context = some "workflow") :
    process host (some be) env st (some msg) =
      workflowManager.handleStep env (updateAnalytics env st (trim msg)) (trim msg) := by
  simp only [process, whenTruthyStr_some_of_ne msg hmsg, hready, updateAnalytics, hctx]
  simp

theorem process_context (host : Host) (be : Backend) (env : Env) (st : State) (msg : Str)
    (hmsg : msg ≠ []) (hready : be.isReady = true) (hctx : st.context ≠ some "workflow")
    (htag : truthyTag st.context = true) :
    process host (some be) env st (some msg) =
      (some (handleContext host be env
          { updateAnalytics env st (trim msg) with
            userSentiment := (advancedAnalyze (trim msg)).sentiment }
          (advancedAnalyze (trim msg)) (trim msg)).1,
        (handleContext host be env
          { updateAnalytics env st (trim msg) with
            userSentiment := (advancedAnalyze (trim msg)).sentiment }
          (advancedAnalyze (trim msg)) (trim msg)).2) := by
  simp only [process, whenTruthyStr_some_of_ne msg hmsg, hready, updateAnalytics, hctx, htag]
  simp

theorem process_generate (host : Host) (be : Backend) (env : Env) (st : State) (msg : Str)
    (hmsg : msg ≠ []) (hready : be.isReady = true) (htag : truthyTag st.context = false) :
    process host (some be) env st (some msg) =
      (some (sentimentAdjust (generateResponse host be env
          { updateAnalytics env st (trim msg) with
            userSentiment := (advancedAnalyze (trim msg)).sentiment }
          (advancedAnalyze (trim msg))).1 (advancedAnalyze (trim msg)).sentiment),
        (generateResponse host be env
          { updateAnalytics env st (trim msg) with
            userSentiment := (advancedAnalyze (trim msg)).sentiment }
          (advancedAnalyze (trim msg))).2) := by
  have hctx : st.context ≠ some "workflow" := by
    intro h
    rw [h] at htag
    exact absurd htag (by decide)
  simp only [process, whenTruthyStr_some_of_ne msg hmsg, hready, updateAnalytics, hctx, htag]
  simp

/-- C7, counterexample.  From the initial state, "sign up" starts the onboarding workflow
and "yes but slow" (negative sentiment) is answered by the Workflow Engine without the
apology; "explain" sets the context `awaiting_term_definition` and "bad" (negative
sentiment) is answered by the Context Resolver without the apology. -/
theorem process_sentimentAdjust_counterexample :
    ((advancedAnalyze "yes but slow".toList).sentiment = "negative" ∧
      (process sampleHost (some sampleBackend) sampleEnv
        (process sampleHost (some sampleBackend) sampleEnv (State.initial 0)
          (some "sign up".toList)).2 (some "yes but slow".toList)).1 =
        some "Great! Step 1: Do you have a valid **IEC (Import Export Code)**? (Yes/No)".toList ∧
      (process sampleHost (some sampleBackend) sampleEnv
        (process sampleHost (some sampleBackend) sampleEnv (State.initial 0)
          (some "sign up".toList)).2 (some "yes but slow".toList)).1 ≠
        some (sentimentAdjust
          "Great! Step 1: Do you have a valid **IEC (Import Export Code)**? (Yes/No)".toList
          "negative")) ∧
    ((advancedAnalyze "bad".toList).sentiment = "negative" ∧
      (process sampleHost (some sampleBackend) sampleEnv
        (process sampleHost (some sampleBackend) sampleEnv (State.initial 0)
          (some "explain".toList)).2 (some "bad".toList)).1 =
        some "I couldn't find a definition for that specific term in my trade dictionary. Try 'FEMA', 'HS Code', or 'BRC'.".toList ∧
      (process sampleHost (some sampleBackend) sampleEnv
        (process sampleHost (some sampleBackend) sampleEnv (State.initial 0)
          (some "explain".toList)).2 (some "bad".toList)).1 ≠
        some (sentimentAdjust
          "I couldn't find a definition for that specific term in my trade dictionary. Try 'FEMA', 'HS Code', or 'BRC'.".toList
          "negative")) := by
  decide

/-- C7, as amended: on a turn with a non-empty message and a ready collaborator that is
handled by the Response Generator (no workflow and no context tag active), the reply of
`process` is the reply of `generateResponse` passed through `sentimentAdjust` exactly
once: prefixed with the apology when the sentiment is negative, with the priority banner
when it is urgent, and unchanged otherwise. -/
theorem process_sentimentAdjust_once (host : Host) (be : Backend) (env : Env) (st : State)
    (msg : Str) (hmsg : msg ≠ []) (hready : be.isReady = true)
    (htag : truthyTag st.context = false) :
    (process host (some be) env st (some msg)).1 =
      some (sentimentAdjust (generateResponse host be env
          { updateAnalytics env st (trim msg) with
            userSentiment := (advancedAnalyze (trim msg)).sentiment }
          (advancedAnalyze (trim msg))).1 (advancedAnalyze (trim msg)).sentiment) ∧
    ((advancedAnalyze (trim msg)).sentiment = "negative" →
      (process host (some be) env st (some msg)).1 =
        some ("I apologize if you're facing issues. ".toList ++ (generateResponse host be env
          { updateAnalytics env st (trim msg) with
            userSentiment := (advancedAnalyze (trim msg)).sentiment }
          (advancedAnalyze (trim msg))).1)) ∧
    ((advancedAnalyze (trim msg)).sentiment = "urgent" →
      (process host (some be) env st (some msg)).1 =
        some ("\uf8ff\u00fc\u00f6\u00ae **Priority Response**: ".toList ++
          (generateResponse host be env
            { updateAnalytics env st (trim msg) with
              userSentiment := (advancedAnalyze (trim msg)).sentiment }
            (advancedAnalyze (trim msg))).1)) ∧
    ((advancedAnalyze (trim msg)).sentiment ≠ "negative" →
      (advancedAnalyze (trim msg)).sentiment ≠ "urgent" →
      (process host (some be) env st (some msg)).1 =
        some (generateResponse host be env
          { updateAnalytics env st (trim msg) with
            userSentiment := (advancedAnalyze (trim msg)).sentiment }
          (advancedAnalyze (trim msg))).1) := by
  rw [process_generate host be env st msg hmsg hready htag]
  refine ⟨rfl, ?_, ?_, ?_⟩
  · intro h
    simp only [sentimentAdjust, h, if_true]
  · intro h
    have hne : ¬ ("urgent" = "negative") := by decide
    simp only [sentimentAdjust, h, hne, if_false, if_true]
  · intro h1 h2
    simp only [sentimentAdjust, h1, h2, if_false]

/-- Witness of C7 as amended: "my payment is stuck" from the initial state. -/
theorem process_sentimentAdjust_once_witness :
    ("my payment is stuck".toList ≠ [] ∧ sampleBackend.isReady = true ∧
      truthyTag (State.initial 0).context = false) ∧
    (advancedAnalyze (trim "my payment is stuck".toList)).sentiment = "negative" ∧
    (process sampleHost (some sampleBackend) sampleEnv (State.initial 0)
      (some "my payment is stuck".toList)).1 =
      some ("I apologize if you're facing issues. ".toList ++
        (generateResponse sampleHost sampleBackend sampleEnv
          { updateAnalytics sampleEnv (State.initial 0) (trim "my payment is stuck".toList) with
            userSentiment := (advancedAnalyze (trim "my payment is stuck".toList)).sentiment }
          (advancedAnalyze (trim "my payment is stuck".toList))).1) :=
  ⟨⟨by decide, by decide, by decide⟩, by decide,
    (process_sentimentAdjust_once sampleHost sampleBackend sampleEnv (State.initial 0)
      "my payment is stuck".toList (by decide) (by decide) (by decide)).2.1 (by decide)⟩


/-! ## Context Resolver: the calculation dialogue -/

theorem whenTruthyNum_eq_some (x : Option ℚ) (a : ℚ) (h : whenTruthyNum x = some a) :
    x = some a ∧ a ≠ 0 := by
  cases x with
  | none => simp [whenTruthyNum] at h
  | some q =>
    simp only [whenTruthyNum] at h
    split at h
    · cases h
    · cases h
      exact ⟨rfl, ‹_›⟩

theorem whenTruthyStr_eq_some (x : Option Str) (c : Str) (h : whenTruthyStr x = some c) :
    x = some c ∧ c ≠ [] := by
  cases x with
  | none => simp [whenTruthyStr] at h
  | some q =>
    simp only [whenTruthyStr] at h
    split at h
    · cases h
    · cases h
      exact ⟨rfl, ‹_›⟩

theorem whenTruthyNum_jsOr (x y : Option ℚ) :
    whenTruthyNum (jsOr whenTruthyNum x y) =
      match whenTruthyNum x with
      | some a => some a
      | none => whenTruthyNum y := by
  unfold jsOr
  cases h : whenTruthyNum x with
  | none => rfl
  | some a =>
    simp only [(whenTruthyNum_eq_some x a h).1]
    rw [(whenTruthyNum_eq_some x a h).1] at h
    exact h

theorem whenTruthyStr_jsOr (x y : Option Str) :
    whenTruthyStr (jsOr whenTruthyStr x y) =
      match whenTruthyStr x with
      | some a => some a
      | none => whenTruthyStr y := by
  unfold jsOr
  cases h : whenTruthyStr x with
  | none => rfl
  | some a =>
    simp only [(whenTruthyStr_eq_some x a h).1]
    rw [(whenTruthyStr_eq_some x a h).1] at h
    exact h

theorem calc_ne_rate :
    ¬ ((some "awaiting_calculation_details" : Option String) = some "awaiting_currency_for_rate") := by
  decide

theorem handleContext_calc (host : Host) (be : Backend) (env : Env) (st : State)
    (analysis : Analysis) (rawText : Str)
    (hctx : st.context = some "awaiting_calculation_details") :
    handleContext host be env st analysis rawText =
      match presentAmount analysis st.tempData, presentCurrency analysis st.tempData with
      | some a, some c => (calculateConversion host be a c, { st with context := none })
      | some a, none =>
        ("Got the amount (".toList ++ host.numToString a ++
            "). Now, which currency? (e.g. USD)".toList,
          { st with tempData := { st.tempData with pendingAmount := some a },
                    context := some "awaiting_calculation_details" })
      | none, some c =>
        ("Got the currency (".toList ++ c ++ "). How much do you want to convert?".toList,
          { st with tempData := { st.tempData with pendingCurrency := some c },
                    context := some "awaiting_calculation_details" })
      | none, none =>
        ("I still need an amount and a currency to help (e.g., '1000 USD').".toList,
          { st with context := none }) := by
  have hA : whenTruthyNum (jsOr whenTruthyNum analysis.amount st.tempData.pendingAmount) =
      presentAmount analysis st.tempData := whenTruthyNum_jsOr _ _
  have hC : whenTruthyStr (jsOr whenTruthyStr analysis.currency st.tempData.pendingCurrency) =
      presentCurrency analysis st.tempData := whenTruthyStr_jsOr _ _
  simp only [handleContext, hctx, if_neg calc_ne_rate, if_true]
  rw [hA, hC]
  cases hpa : presentAmount analysis st.tempData with
  | none =>
    cases hpc : presentCurrency analysis st.tempData with
    | none => rfl
    | some c =>
      rw [hpc] at hC
      simp only [(whenTruthyStr_eq_some _ c hC).1]
  | some a =>
    cases hpc : presentCurrency analysis st.tempData with
    | none =>
      rw [hpa] at hA
      simp only [(whenTruthyNum_eq_some _ a hA).1]
    | some c => rfl

/-! ## Response Generator: the calculator intent -/

theorem calculator_both_detected (host : Host) (be : Backend) (env : Env) (st : State)
    (analysis : Analysis) (a : ℚ) (c : Str) (hint : analysis.intent = "calculator")
    (ha : analysis.amount = some a) (ha0 : a ≠ 0) (hc : analysis.currency = some c)
    (hc0 : c ≠ []) :
    generateResponse host be env st analysis = (calculateConversion host be a c, st) := by
  have h1 : ¬ ("calculator" = "greeting") := by decide
  have h2 : ¬ ("calculator" = "rate_inquiry") := by decide
  simp only [generateResponse, hint, h1, h2, if_false, if_true, ha, hc, whenTruthyNum,
    whenTruthyStr, ha0, hc0]

theorem includes_append_mid (s w t : Str) : includes (s ++ w ++ t) w = true := by
  rw [includes_iff_block]
  exact ⟨s, t, rfl⟩

theorem getQuote_sgd (be : Backend) (r amount : ℚ) (hr : be.rates.SGD = some r) (hr0 : r ≠ 0) :
    ∃ q, getQuote be amount "SGD".toList true = some q := by
  have hg : be.rates.get "SGD".toList = some r := by
    have h1 : ¬ ("SGD".toList = "USD".toList) := by decide
    simp only [Rates.get, h1, if_false, if_true, hr]
  simp only [getQuote, hg, whenTruthyNum, hr0, if_false]
  exact ⟨_, rfl⟩

theorem calculateConversion_includes_total (host : Host) (be : Backend) (amount : ℚ)
    (currency : Str) (q : Quote) (hq : getQuote be amount currency true = some q) :
    includes (calculateConversion host be amount currency) "Total Profit Recovered".toList =
      true := by
  have hlit : "\u201a\u00fa\u00d6 **Total Profit Recovered: ".toList =
      "\u201a\u00fa\u00d6 **".toList ++ "Total Profit Recovered".toList ++ ": ".toList := by
    decide
  simp only [calculateConversion, hq, hlit]
  have := includes_append_mid
    ("\uf8ff\u00fc\u00df\u00c6 **Cost Analysis for ".toList ++ host.numToString amount ++
      " ".toList ++ currency ++ "**\n".toList ++
      "\u201a\u00c4\u00a2 Traditional Bank Cost: ".toList ++ host.formatCurrency q.bank_total ++
      "\n".toList ++ "\u201a\u00c4\u00a2 SettleX Wholesale Cost: ".toList ++
      host.formatCurrency q.settlex_total ++ "\n".toList ++
      "----------------------------------\n".toList ++ "\u201a\u00fa\u00d6 **".toList)
    "Total Profit Recovered".toList
    (": ".toList ++ host.formatCurrency q.savings ++ "**".toList)
  simpa only [List.append_assoc] using this

/-- C8, at the failing input.  From the initial state, "convert", "500" and "usd" produce
the conversion of 500 USD and clear the context tag, and the slot `pendingAmount` still
holds 500 afterwards; a later "convert" followed by "eur" is then answered with the
conversion of 500 EUR, the stale amount being merged into the new calculation. -/
theorem handleContext_conversion_keeps_slots :
    (process sampleHost (some sampleBackend) sampleEnv
      (process sampleHost (some sampleBackend) sampleEnv
        (process sampleHost (some sampleBackend) sampleEnv (State.initial 0)
          (some "convert".toList)).2 (some "500".toList)).2 (some "usd".toList)).1 =
      some (calculateConversion sampleHost sampleBackend 500 "USD".toList) ∧
    (process sampleHost (some sampleBackend) sampleEnv
      (process sampleHost (some sampleBackend) sampleEnv
        (process sampleHost (some sampleBackend) sampleEnv (State.initial 0)
          (some "convert".toList)).2 (some "500".toList)).2 (some "usd".toList)).2.context =
      none ∧
    (process sampleHost (some sampleBackend) sampleEnv
      (process sampleHost (some sampleBackend) sampleEnv
        (process sampleHost (some sampleBackend) sampleEnv (State.initial 0)
          (some "convert".toList)).2 (some "500".toList)).2
            (some "usd".toList)).2.tempData.pendingAmount = some 500 ∧
    (process sampleHost (some sampleBackend) sampleEnv
      (process sampleHost (some sampleBackend) sampleEnv
        (process sampleHost (some sampleBackend) sampleEnv
          (process sampleHost (some sampleBackend) sampleEnv
            (process sampleHost (some sampleBackend) sampleEnv (State.initial 0)
              (some "convert".toList)).2 (some "500".toList)).2 (some "usd".toList)).2
                (some "convert".toList)).2 (some "eur".toList)).1 =
      some (calculateConversion sampleHost sampleBackend 500 "EUR".toList) ∧
    includes (calculateConversion sampleHost sampleBackend 500 "EUR".toList)
      "Cost Analysis for 500 EUR".toList = true := by
  decide!

/-- C9, counterexample.  In the context `awaiting_calculation_details` with empty slots,
the message "0" carries the amount 0 and no currency; nothing is stored, the context is
not set again, and a following "usd" is answered with the fallback of the Response
Generator instead of a conversion. -/
theorem handleContext_calculation_slots_counterexample :
    (advancedAnalyze "0".toList).amount = some 0 ∧
    (advancedAnalyze "0".toList).currency = none ∧
    (handleContext sampleHost sampleBackend sampleEnv
      { State.initial 0 with context := some "awaiting_calculation_details" }
      (advancedAnalyze "0".toList) "0".toList).1 =
      "I still need an amount and a currency to help (e.g., '1000 USD').".toList ∧
    (handleContext sampleHost sampleBackend sampleEnv
      { State.initial 0 with context := some "awaiting_calculation_details" }
      (advancedAnalyze "0".toList) "0".toList).2.tempData.pendingAmount = none ∧
    (handleContext sampleHost sampleBackend sampleEnv
      { State.initial 0 with context := some "awaiting_calculation_details" }
      (advancedAnalyze "0".toList) "0".toList).2.context = none ∧
    (process sampleHost (some sampleBackend) sampleEnv
      (process sampleHost (some sampleBackend) sampleEnv
        { State.initial 0 with context := some "awaiting_calculation_details" }
        (some "0".toList)).2 (some "usd".toList)).1 =
      some "I'm trained on Trade Finance, Live FX Rates, and Compliance rules. You can ask: 'Current USD Rate', 'What is RoDTEP?', 'Convert 5000 SGD', or 'Help with login'.".toList := by
  decide!

/-- C9, as amended, with "present" read as the program tests it (an amount other than
zero, a currency other than the empty string, newly detected or previously stored).  In
the context `awaiting_calculation_details`: when only an amount is present it is stored in
`pendingAmount`, the other slots are unchanged and the context is set again; likewise for
a currency alone; when neither is present the slots are unchanged.  Consequently, from
empty slots, a message carrying only an amount `a` other than zero followed by a message
carrying only a currency `c` yields the conversion reply for `(a, c)`. -/
theorem handleContext_calculation_slots (host : Host) (be : Backend) (env : Env) (st : State)
    (analysis : Analysis) (rawText : Str)
    (hctx : st.context = some "awaiting_calculation_details") :
    (∀ a, presentAmount analysis st.tempData = some a →
      presentCurrency analysis st.tempData = none →
      (handleContext host be env st analysis rawText).2.tempData =
          { st.tempData with pendingAmount := some a } ∧
        (handleContext host be env st analysis rawText).2.context =
          some "awaiting_calculation_details") ∧
    (∀ c, presentAmount analysis st.tempData = none →
      presentCurrency analysis st.tempData = some c →
      (handleContext host be env st analysis rawText).2.tempData =
          { st.tempData with pendingCurrency := some c } ∧
        (handleContext host be env st analysis rawText).2.context =
          some "awaiting_calculation_details") ∧
    (presentAmount analysis st.tempData = none →
      presentCurrency analysis st.tempData = none →
      (handleContext host be env st analysis rawText).2.tempData = st.tempData) ∧
    (∀ (a : ℚ) (c : Str) (second : Analysis) (secondText : Str),
      st.tempData = TempData.empty →
      analysis.amount = some a → a ≠ 0 → whenTruthyStr analysis.currency = none →
      second.amount = none → second.currency = some c → c ≠ [] →
      (handleContext host be env (handleContext host be env st analysis rawText).2
        second secondText).1 = calculateConversion host be a c) := by
  have hcalc := handleContext_calc host be env st analysis rawText hctx
  refine ⟨?_, ?_, ?_, ?_⟩
  · intro a ha hc
    rw [hcalc, ha, hc]
    exact ⟨rfl, rfl⟩
  · intro c ha hc
    rw [hcalc, ha, hc]
    exact ⟨rfl, rfl⟩
  · intro ha hc
    rw [hcalc, ha, hc]
  · intro a c second secondText hempty ha ha0 hcur hsa hsc hc0
    have hpa : presentAmount analysis st.tempData = some a := by
      simp only [presentAmount, ha, whenTruthyNum, ha0, if_false]
    have hpc : presentCurrency analysis st.tempData = none := by
      unfold presentCurrency
      rw [hcur, hempty]
      rfl
    rw [hcalc, hpa, hpc]
    simp only
    rw [handleContext_calc host be env _ second secondText rfl]
    have hpa2 : presentAmount second
        { st.tempData with pendingAmount := some a } = some a := by
      simp only [presentAmount, hsa, whenTruthyNum, ha0, if_false]
    have hpc2 : presentCurrency second
        { st.tempData with pendingAmount := some a } = some c := by
      simp only [presentCurrency, hsc, whenTruthyStr, hc0, if_false]
    simp only [hpa2, hpc2]

/-- Witness of C9 as amended: with empty slots, "500" and then "usd" yield the conversion
reply for 500 USD. -/
theorem handleContext_calculation_slots_witness :
    (handleContext sampleHost sampleBackend sampleEnv
      (handleContext sampleHost sampleBackend sampleEnv
        { State.initial 0 with context := some "awaiting_calculation_details" }
        (advancedAnalyze "500".toList) "500".toList).2
      (advancedAnalyze "usd".toList) "usd".toList).1 =
      calculateConversion sampleHost sampleBackend 500 "USD".toList :=
  (handleContext_calculation_slots sampleHost sampleBackend sampleEnv
    { State.initial 0 with context := some "awaiting_calculation_details" }
    (advancedAnalyze "500".toList) "500".toList rfl).2.2.2 500 "USD".toList
    (advancedAnalyze "usd".toList) "usd".toList rfl (by decide!) (by decide) (by decide)
    (by decide) (by decide) (by decide)

/-- C10, counterexample: "convert 0 usd" is analysed as a calculator request with the
amount 0 and the currency USD, both non-null, and `generateResponse` asks for the amount
and sets the context `awaiting_calculation_details` instead of converting. -/
theorem generateResponse_calculator_counterexample :
    (advancedAnalyze "convert 0 usd".toList).intent = "calculator" ∧
    (advancedAnalyze "convert 0 usd".toList).amount = some 0 ∧
    (advancedAnalyze "convert 0 usd".toList).currency = some "USD".toList ∧
    (generateResponse sampleHost sampleBackend sampleEnv (State.initial 0)
      (advancedAnalyze "convert 0 usd".toList)).1 =
      "I can calculate that instant savings for you. How much do you want to convert? (e.g., '5000 USD')".toList ∧
    (generateResponse sampleHost sampleBackend sampleEnv (State.initial 0)
      (advancedAnalyze "convert 0 usd".toList)).2.context =
      some "awaiting_calculation_details" := by
  decide!

/-- C10, as amended: for every analysis with intent `calculator`, an amount other than
zero and a currency (a non-empty code), `generateResponse` returns the reply of
`calculateConversion(amount, currency)` and leaves the state, hence the context tag, as it
was; and with a ready collaborator holding a rate for SGD and no context active,
`process("convert 1000 sgd")` returns a reply containing "Total Profit Recovered" and the
context remains null. -/
theorem generateResponse_calculator (host : Host) (be : Backend) (env : Env) (st : State) :
    (∀ (analysis : Analysis) (a : ℚ) (c : Str), analysis.intent = "calculator" →
      analysis.amount = some a → a ≠ 0 → analysis.currency = some c → c ≠ [] →
      generateResponse host be env st analysis = (calculateConversion host be a c, st)) ∧
    (∀ r : ℚ, be.isReady = true → be.rates.SGD = some r → r ≠ 0 → st.context = none →
      ∃ reply,
        (process host (some be) env st (some "convert 1000 sgd".toList)).1 = some reply ∧
        includes reply "Total Profit Recovered".toList = true ∧
        (process host (some be) env st (some "convert 1000 sgd".toList)).2.context = none) := by
  refine ⟨fun analysis a c hint ha ha0 hc hc0 =>
    calculator_both_detected host be env st analysis a c hint ha ha0 hc hc0, ?_⟩
  intro r hready hr hr0 hctx
  have htag : truthyTag st.context = false := by rw [hctx]; rfl
  have htrim : trim "convert 1000 sgd".toList = "convert 1000 sgd".toList := by decide
  have hs : (advancedAnalyze "convert 1000 sgd".toList).sentiment = "neutral" := by decide
  have hgen := calculator_both_detected host be env
    { updateAnalytics env st "convert 1000 sgd".toList with
      userSentiment := (advancedAnalyze "convert 1000 sgd".toList).sentiment }
    (advancedAnalyze "convert 1000 sgd".toList) 1000 "SGD".toList (by decide) (by decide!)
    (by norm_num) (by decide) (by decide)
  rw [process_generate host be env st _ (by decide) hready htag, htrim, hgen]
  obtain ⟨q, hq⟩ := getQuote_sgd be r 1000 hr hr0
  refine ⟨calculateConversion host be 1000 "SGD".toList, ?_, ?_, ?_⟩
  · simp only [hs, sentimentAdjust]
    rfl
  · exact calculateConversion_includes_total host be 1000 "SGD".toList q hq
  · simp only [updateAnalytics, hctx]

/-- Witness of C10 as amended: the analysis of "convert 1000 sgd", and the turn
`process("convert 1000 sgd")` from the initial state. -/
theorem generateResponse_calculator_witness :
    generateResponse sampleHost sampleBackend sampleEnv (State.initial 0)
      (advancedAnalyze "convert 1000 sgd".toList) =
      (calculateConversion sampleHost sampleBackend 1000 "SGD".toList, State.initial 0) ∧
    ∃ reply,
      (process sampleHost (some sampleBackend) sampleEnv (State.initial 0)
        (some "convert 1000 sgd".toList)).1 = some reply ∧
      includes reply "Total Profit Recovered".toList = true ∧
      (process sampleHost (some sampleBackend) sampleEnv (State.initial 0)
        (some "convert 1000 sgd".toList)).2.context = none :=
  ⟨(generateResponse_calculator sampleHost sampleBackend sampleEnv (State.initial 0)).1
      (advancedAnalyze "convert 1000 sgd".toList) 1000 "SGD".toList (by decide) (by decide!)
      (by norm_num) (by decide) (by decide),
    (generateResponse_calculator sampleHost sampleBackend sampleEnv (State.initial 0)).2
      62 (by decide) (by decide) (by norm_num) (by decide)⟩

/-! ## Context Resolver: the rate dialogue -/

theorem whenTruthyStr_normalizeCurrency (text : Str) :
    whenTruthyStr (normalizeCurrency text) = normalizeCurrency text := by
  unfold normalizeCurrency
  split
  · rfl
  · simp only [normalizeLower, normalizeTable]
    repeat' split
    all_goals rfl

theorem handleContext_rate (host : Host) (be : Backend) (env : Env) (st : State)
    (analysis : Analysis) (rawText : Str)
    (hctx : st.context = some "awaiting_currency_for_rate") :
    handleContext host be env st analysis rawText =
      match normalizeCurrency rawText with
      | some currency => (getRateString host be currency, { st with context := none })
      | none =>
        if analysis.intent = "goodbye" then
          ("No problem. Let me know if you need rates later.".toList, { st with context := none })
        else
          ("I didn't catch that currency. We support USD, SGD, GBP, EUR, and AED. Which one are you interested in?".toList,
            { st with context := none }) := by
  simp only [handleContext, hctx, if_true, whenTruthyStr_normalizeCurrency]

theorem getQuote_usd (be : Backend) (r amount : ℚ) (hr : be.rates.USD = some r) (hr0 : r ≠ 0) :
    ∃ q, getQuote be amount "USD".toList true = some q := by
  have hg : be.rates.get "USD".toList = some r := by
    simp only [Rates.get, if_true, hr]
  simp only [getQuote, hg, whenTruthyNum, hr0, if_false]
  exact ⟨_, rfl⟩

theorem getRateString_includes_wholesale (host : Host) (be : Backend) (currency : Str)
    (q : Quote) (hq : getQuote be 1000 currency true = some q) :
    includes (getRateString host be currency) (currency ++ " Live Wholesale".toList) = true := by
  have hlit : " Live Wholesale**: \u201a\u00c7\u03c0".toList =
      " Live Wholesale".toList ++ "**: \u201a\u00c7\u03c0".toList := by decide
  simp only [getRateString, hq, hlit]
  have := includes_append_mid "\uf8ff\u00fc\u00e9\u00d8 **".toList
    (currency ++ " Live Wholesale".toList)
    ("**: \u201a\u00c7\u03c0".toList ++ host.toFixed2 q.settlex ++ " \n\n".toList ++
      "Compare that to your bank's rate (approx \u201a\u00c7\u03c0".toList ++
      host.toFixed2 q.bank ++ "). ".toList ++ "We save you ~2.3% per unit.".toList)
  simpa only [List.append_assoc] using this

theorem generateResponse_rate_prompt (host : Host) (be : Backend) (env : Env) (st : State)
    (analysis : Analysis) (hint : analysis.intent = "rate_inquiry")
    (hc : analysis.currency = none) :
    generateResponse host be env st analysis =
      ("I can check live wholesale rates for you. Which currency? (USD, SGD, GBP, EUR)".toList,
        { st with context := some "awaiting_currency_for_rate" }) := by
  have h1 : ¬ ("rate_inquiry" = "greeting") := by decide
  simp only [generateResponse, hint, h1, if_false, if_true, hc, whenTruthyStr]

theorem getQuote_outflow (be : Backend) (amount : ℚ) (currency : Str) (r : ℚ)
    (hg : be.rates.get currency = some r) (hr0 : r ≠ 0) :
    ∃ q, getQuote be amount currency true = some q ∧ q.live_mid_rate = r ∧
      q.settlex = roundDouble (r * roundDouble (1 + roundDouble (20 / 10000))) ∧
      q.bank = roundDouble (r * roundDouble (1 + roundDouble (25 / 1000))) := by
  simp only [getQuote, hg, whenTruthyNum, hr0, if_false, if_true]
  exact ⟨_, rfl, rfl, rfl, rfl⟩

theorem getRateString_of_quote (host : Host) (be : Backend) (currency : Str) (q : Quote)
    (hq : getQuote be 1000 currency true = some q) :
    getRateString host be currency =
      "\uf8ff\u00fc\u00e9\u00d8 **".toList ++ currency ++
        " Live Wholesale**: \u201a\u00c7\u03c0".toList ++ host.toFixed2 q.settlex ++
        " \n\n".toList ++
        "Compare that to your bank's rate (approx \u201a\u00c7\u03c0".toList ++
        host.toFixed2 q.bank ++ "). ".toList ++ "We save you ~2.3% per unit.".toList := by
  simp only [getRateString, hq]

theorem getRateString_of_no_quote (host : Host) (be : Backend) (currency : Str)
    (hq : getQuote be 1000 currency true = none) :
    getRateString host be currency =
      "I don't have live data for ".toList ++ currency ++
        " right now. Please try USD, SGD, GBP, or EUR.".toList := by
  simp only [getRateString, hq]

/-- C11: with a ready collaborator holding a USD rate `r` and no context active,
`process("rate")` leaves the context `awaiting_currency_for_rate`, and a following
`process("USD")` returns the live wholesale rate reply for USD and leaves the context null:
the reply is the rate template filled with the two rates of the collaborator's quote for
USD, whose mid rate is `r`, whose wholesale rate is `r * (1 + 0.0020)` and whose bank rate
is `r * (1 + 0.025)`, computed in doubles (for a rate below `2 ^ 1000` in absolute value,
so that the two rates are finite doubles).
In the context `awaiting_currency_for_rate` every message leaves the context null: a
message that normalizes to a currency gets the rate reply for it (the rate template filled
from the collaborator's quote, or the no-data reply when the collaborator has no quote for
the currency), any other message gets the closing remark when its intent is `goodbye` and
the re-prompt otherwise. -/
theorem handleContext_awaiting_currency (host : Host) (be : Backend) :
    (∀ (r : ℚ) (env1 env2 : Env) (st : State), be.isReady = true → be.rates.USD = some r →
      r ≠ 0 → st.context = none →
      (process host (some be) env1 st (some "rate".toList)).2.context =
        some "awaiting_currency_for_rate" ∧
      (process host (some be) env2 (process host (some be) env1 st (some "rate".toList)).2
        (some "USD".toList)).1 = some (getRateString host be "USD".toList) ∧
      includes (getRateString host be "USD".toList) "USD Live Wholesale".toList = true ∧
      (process host (some be) env2 (process host (some be) env1 st (some "rate".toList)).2
        (some "USD".toList)).2.context = none ∧
      (|r| < 2 ^ 1000 →
        ∃ q, getQuote be 1000 "USD".toList true = some q ∧ q.live_mid_rate = r ∧
        q.settlex = roundDouble (r * roundDouble (1 + roundDouble (20 / 10000))) ∧
        q.bank = roundDouble (r * roundDouble (1 + roundDouble (25 / 1000))) ∧
        (process host (some be) env2
          (process host (some be) env1 st (some "rate".toList)).2 (some "USD".toList)).1 =
          some ("\uf8ff\u00fc\u00e9\u00d8 **".toList ++ "USD".toList ++
            " Live Wholesale**: \u201a\u00c7\u03c0".toList ++ host.toFixed2 q.settlex ++
            " \n\n".toList ++
            "Compare that to your bank's rate (approx \u201a\u00c7\u03c0".toList ++
            host.toFixed2 q.bank ++ "). ".toList ++ "We save you ~2.3% per unit.".toList))) ∧
    (∀ (env : Env) (st : State) (analysis : Analysis) (rawText : Str),
      st.context = some "awaiting_currency_for_rate" →
      (handleContext host be env st analysis rawText).2.context = none ∧
      (∀ currency, normalizeCurrency rawText = some currency →
        (handleContext host be env st analysis rawText).1 = getRateString host be currency) ∧
      (normalizeCurrency rawText = none → analysis.intent = "goodbye" →
        (handleContext host be env st analysis rawText).1 =
          "No problem. Let me know if you need rates later.".toList) ∧
      (normalizeCurrency rawText = none → analysis.intent ≠ "goodbye" →
        (handleContext host be env st analysis rawText).1 =
          "I didn't catch that currency. We support USD, SGD, GBP, EUR, and AED. Which one are you interested in?".toList) ∧
      (∀ currency q, normalizeCurrency rawText = some currency →
        getQuote be 1000 currency true = some q →
        (handleContext host be env st analysis rawText).1 =
          "\uf8ff\u00fc\u00e9\u00d8 **".toList ++ currency ++
        " Live Wholesale**: \u201a\u00c7\u03c0".toList ++ host.toFixed2 q.settlex ++
        " \n\n".toList ++
        "Compare that to your bank's rate (approx \u201a\u00c7\u03c0".toList ++
        host.toFixed2 q.bank ++ "). ".toList ++ "We save you ~2.3% per unit.".toList) ∧
      (∀ currency, normalizeCurrency rawText = some currency →
        getQuote be 1000 currency true = none →
        (handleContext host be env st analysis rawText).1 =
          "I don't have live data for ".toList ++ currency ++
            " right now. Please try USD, SGD, GBP, or EUR.".toList)) := by
  constructor
  · intro r env1 env2 st hready hr hr0 hctx
    have htag : truthyTag st.context = false := by rw [hctx]; rfl
    have htrim : trim "rate".toList = "rate".toList := by decide
    have hs : (advancedAnalyze "rate".toList).sentiment = "neutral" := by decide
    have hgen := generateResponse_rate_prompt host be env1
      { updateAnalytics env1 st "rate".toList with
        userSentiment := (advancedAnalyze "rate".toList).sentiment }
      (advancedAnalyze "rate".toList) (by decide) (by decide)
    have h1 := process_generate host be env1 st "rate".toList (by decide) hready htag
    rw [htrim, hgen] at h1
    rw [h1]
    have htrim2 : trim "USD".toList = "USD".toList := by decide
    have h2 := process_context host be env2
      { updateAnalytics env1 st "rate".toList with
        userSentiment := (advancedAnalyze "rate".toList).sentiment,
        context := some "awaiting_currency_for_rate" }
      "USD".toList (by decide) hready
      (show (some "awaiting_currency_for_rate" : Option String) ≠ some "workflow" by decide)
      (show truthyTag (some "awaiting_currency_for_rate") = true by decide)
    rw [htrim2, handleContext_rate host be env2 _ _ _ rfl] at h2
    have hn : normalizeCurrency "USD".toList = some "USD".toList := by decide
    simp only [hn] at h2
    have hg : be.rates.get "USD".toList = some r := by
      simp only [Rates.get, if_true, hr]
    obtain ⟨q, hq, hmid, hset, hbank⟩ := getQuote_outflow be 1000 "USD".toList r hg hr0
    refine ⟨rfl, ?_, ?_, ?_, fun _ => ⟨q, hq, hmid, hset, hbank, ?_⟩⟩
    · exact congrArg Prod.fst h2
    · exact getRateString_includes_wholesale host be "USD".toList q hq
    · exact congrArg (fun p => p.2.context) h2
    · rw [← getRateString_of_quote host be "USD".toList q hq]
      exact congrArg Prod.fst h2
  · intro env st analysis rawText hctx
    rw [handleContext_rate host be env st analysis rawText hctx]
    refine ⟨?_, ?_, ?_, ?_, ?_, ?_⟩
    · cases normalizeCurrency rawText with
      | some c => rfl
      | none =>
        simp only
        split <;> rfl
    · intro c hc
      rw [hc]
    · intro hn hg
      rw [hn]
      simp only [hg, if_true]
    · intro hn hg
      rw [hn]
      simp only [hg, if_false]
    · intro c q hc hq
      rw [hc]
      exact getRateString_of_quote host be c q hq
    · intro c hc hq
      rw [hc]
      exact getRateString_of_no_quote host be c hq

/-- Witness of C11: the two turns "rate" and "USD" from the initial state, with a USD rate
of 83. -/
theorem handleContext_awaiting_currency_witness :
    (process sampleHost (some sampleBackend) sampleEnv (State.initial 0)
      (some "rate".toList)).2.context = some "awaiting_currency_for_rate" ∧
    (process sampleHost (some sampleBackend) sampleEnv
      (process sampleHost (some sampleBackend) sampleEnv (State.initial 0)
        (some "rate".toList)).2 (some "USD".toList)).1 =
      some (getRateString sampleHost sampleBackend "USD".toList) ∧
    includes (getRateString sampleHost sampleBackend "USD".toList)
      "USD Live Wholesale".toList = true ∧
    (process sampleHost (some sampleBackend) sampleEnv
      (process sampleHost (some sampleBackend) sampleEnv (State.initial 0)
        (some "rate".toList)).2 (some "USD".toList)).2.context = none ∧
    (∃ q, getQuote sampleBackend 1000 "USD".toList true = some q ∧ q.live_mid_rate = 83 ∧
      q.settlex = roundDouble (83 * roundDouble (1 + roundDouble (20 / 10000))) ∧
      q.bank = roundDouble (83 * roundDouble (1 + roundDouble (25 / 1000))) ∧
      (process sampleHost (some sampleBackend) sampleEnv
        (process sampleHost (some sampleBackend) sampleEnv (State.initial 0)
          (some "rate".toList)).2 (some "USD".toList)).1 =
        some ("\uf8ff\u00fc\u00e9\u00d8 **".toList ++ "USD".toList ++
          " Live Wholesale**: \u201a\u00c7\u03c0".toList ++ sampleHost.toFixed2 q.settlex ++
          " \n\n".toList ++
          "Compare that to your bank's rate (approx \u201a\u00c7\u03c0".toList ++
          sampleHost.toFixed2 q.bank ++ "). ".toList ++ "We save you ~2.3% per unit.".toList)) :=
  ⟨((handleContext_awaiting_currency sampleHost sampleBackend).1 83 sampleEnv sampleEnv
      (State.initial 0) (by decide) (by decide) (by norm_num) (by decide)).1,
    ((handleContext_awaiting_currency sampleHost sampleBackend).1 83 sampleEnv sampleEnv
      (State.initial 0) (by decide) (by decide) (by norm_num) (by decide)).2.1,
    ((handleContext_awaiting_currency sampleHost sampleBackend).1 83 sampleEnv sampleEnv
      (State.initial 0) (by decide) (by decide) (by norm_num) (by decide)).2.2.1,
    ((handleContext_awaiting_currency sampleHost sampleBackend).1 83 sampleEnv sampleEnv
      (State.initial 0) (by decide) (by decide) (by norm_num) (by decide)).2.2.2.1,
    ((handleContext_awaiting_currency sampleHost sampleBackend).1 83 sampleEnv sampleEnv
      (State.initial 0) (by decide) (by decide) (by norm_num) (by decide)).2.2.2.2
      (by decide!)⟩

/-! ## Context Resolver: the definition dialogue -/

theorem term_ne_rate :
    ¬ ((some "awaiting_term_definition" : Option String) = some "awaiting_currency_for_rate") := by
  decide

theorem term_ne_calc :
    ¬ ((some "awaiting_term_definition" : Option String) =
      some "awaiting_calculation_details") := by
  decide

theorem handleContext_term (host : Host) (be : Backend) (env : Env) (st : State)
    (analysis : Analysis) (rawText : Str)
    (hctx : st.context = some "awaiting_term_definition") :
    handleContext host be env st analysis rawText =
      match dictionaryGet (termKey rawText) with
      | some definition =>
        (definitionReply (termKey rawText) definition, { st with context := none })
      | none =>
        ("I couldn't find a definition for that specific term in my trade dictionary. Try 'FEMA', 'HS Code', or 'BRC'.".toList,
          { st with context := none }) := by
  simp only [handleContext, hctx, if_neg term_ne_rate, if_neg term_ne_calc, if_true, termKey]

/-- C12, counterexample: for the message "ad_code" the key made of its letters alone is
"adcode", which is no dictionary entry, and `handleContext` nevertheless returns the
definition stored under `ad_code`, because the underscore is kept in the key. -/
theorem handleContext_term_definition_counterexample :
    lettersOnlyKey "ad_code".toList = "adcode".toList ∧
    knowledge.dictionary.lookup (lettersOnlyKey "ad_code".toList) = none ∧
    (handleContext sampleHost sampleBackend sampleEnv
      { State.initial 0 with context := some "awaiting_term_definition" }
      (advancedAnalyze "ad_code".toList) "ad_code".toList).1 =
      definitionReply "ad_code".toList
        "Authorized Dealer Code. A 14-digit code assigned by the bank where you have a current account. You must register this at every customs port where you export/import.".toList ∧
    (handleContext sampleHost sampleBackend sampleEnv
      { State.initial 0 with context := some "awaiting_term_definition" }
      (advancedAnalyze "ad_code".toList) "ad_code".toList).1 ≠
      "I couldn't find a definition for that specific term in my trade dictionary. Try 'FEMA', 'HS Code', or 'BRC'.".toList := by
  decide!

/-- C12, as amended: in the context `awaiting_term_definition`, `handleContext` computes
the key by lower-casing the raw message and removing every character other than `a` to
`z` and the underscore; it returns the dictionary definition stored under that key when
the key is a dictionary entry, and the not-found message when the key is neither a
dictionary entry nor one of the names `constructor` and `__proto__`; in every case the
context is null afterwards. -/
theorem handleContext_term_definition (host : Host) (be : Backend) (env : Env) (st : State)
    (analysis : Analysis) (rawText : Str)
    (hctx : st.context = some "awaiting_term_definition") :
    (handleContext host be env st analysis rawText).2.context = none ∧
    (∀ definition, knowledge.dictionary.lookup (termKey rawText) = some definition →
      (handleContext host be env st analysis rawText).1 =
        definitionReply (termKey rawText) definition) ∧
    (knowledge.dictionary.lookup (termKey rawText) = none →
      termKey rawText ≠ "constructor".toList → termKey rawText ≠ "__proto__".toList →
      (handleContext host be env st analysis rawText).1 =
        "I couldn't find a definition for that specific term in my trade dictionary. Try 'FEMA', 'HS Code', or 'BRC'.".toList) := by
  rw [handleContext_term host be env st analysis rawText hctx]
  refine ⟨?_, ?_, ?_⟩
  · cases dictionaryGet (termKey rawText) <;> rfl
  · intro d hd
    simp only [dictionaryGet, hd]
  · intro hd h1 h2
    have hi : knowledge.dictionaryInherited.lookup (termKey rawText) = none := by
      simp only [knowledge.dictionaryInherited, List.lookup]
      have e1 : (termKey rawText == "constructor".toList) = false := by simpa using h1
      have e2 : (termKey rawText == "__proto__".toList) = false := by simpa using h2
      simp only [e1, e2]
    simp only [dictionaryGet, hd, hi]

/-- Witness of C12 as amended: the message " F.E.M.A? " is looked up under `fema`. -/
theorem handleContext_term_definition_witness :
    termKey " F.E.M.A? ".toList = "fema".toList ∧
    (handleContext sampleHost sampleBackend sampleEnv
      { State.initial 0 with context := some "awaiting_term_definition" }
      (advancedAnalyze " F.E.M.A? ".toList) " F.E.M.A? ".toList).1 =
      definitionReply "fema".toList
        "Foreign Exchange Management Act, 1999. The primary law governing FX in India. SettleX ensures all transactions comply with FEMA guidelines automatically.".toList :=
  ⟨by decide,
    (handleContext_term_definition sampleHost sampleBackend sampleEnv
      { State.initial 0 with context := some "awaiting_term_definition" }
      (advancedAnalyze " F.E.M.A? ".toList) " F.E.M.A? ".toList rfl).2.1 _ (by decide)⟩

/-! ## Workflow Engine -/

theorem handleStep_cancel (env : Env) (st : State) (msg : Str) (hc : isCancel msg = true) :
    workflowManager.handleStep env st msg =
      (some "Workflow cancelled. How else can I help?".toList,
        { st with context := none, subContext := none }) := by
  have h : toLowerCase msg = "cancel".toList ∨ toLowerCase msg = "stop".toList ∨
      toLowerCase msg = "exit".toList := by
    simpa [isCancel] using hc
  simp only [workflowManager.handleStep, h, if_true]

theorem handleStep_onboarding (env : Env) (st : State) (msg : Str) (hc : isCancel msg = false)
    (hsub : st.subContext = some "onboarding") :
    workflowManager.handleStep env st msg = workflowManager.flowOnboarding st st.step msg := by
  have h : ¬ (toLowerCase msg = "cancel".toList ∨ toLowerCase msg = "stop".toList ∨
      toLowerCase msg = "exit".toList) := by
    simpa [isCancel] using hc
  simp only [workflowManager.handleStep, h, if_false, hsub, if_true]

theorem handleStep_ticket (env : Env) (st : State) (msg : Str) (hc : isCancel msg = false)
    (hsub : st.subContext = some "ticket") :
    workflowManager.handleStep env st msg = workflowManager.flowTicket env st st.step msg := by
  have h : ¬ (toLowerCase msg = "cancel".toList ∨ toLowerCase msg = "stop".toList ∨
      toLowerCase msg = "exit".toList) := by
    simpa [isCancel] using hc
  have hne : ¬ ((some "ticket" : Option String) = some "onboarding") := by decide
  simp only [workflowManager.handleStep, h, if_false, hsub, hne, if_true]

theorem generateResponse_onboarding (host : Host) (be : Backend) (env : Env) (st : State)
    (analysis : Analysis) (hint : analysis.intent = "onboarding") :
    generateResponse host be env st analysis =
      ("Opening an account is fully digital. Would you like me to guide you through the requirements? (Type 'Yes' to start)".toList,
        startWorkflow st "onboarding") := by
  have h1 : ¬ ("onboarding" = "greeting") := by decide
  have h2 : ¬ ("onboarding" = "rate_inquiry") := by decide
  have h3 : ¬ ("onboarding" = "calculator") := by decide
  have h4 : ¬ ("onboarding" = "compliance_fira") := by decide
  have h5 : ¬ ("onboarding" = "compliance_rodtep") := by decide
  have h6 : ¬ ("onboarding" = "compliance_boe") := by decide
  have h7 : ¬ ("onboarding" = "speed") := by decide
  have h8 : ¬ ("onboarding" = "security") := by decide
  simp only [generateResponse, hint, h1, h2, h3, h4, h5, h6, h7, h8, if_false, if_true]

theorem process_sign_up (host : Host) (be : Backend) (env : Env) (st : State)
    (hready : be.isReady = true) (hctx : st.context = none) :
    (process host (some be) env st (some "sign up".toList)).2 =
      startWorkflow
        { updateAnalytics env st "sign up".toList with
          userSentiment := (advancedAnalyze "sign up".toList).sentiment } "onboarding" := by
  have htag : truthyTag st.context = false := by rw [hctx]; rfl
  have htrim : trim "sign up".toList = "sign up".toList := by decide
  have hgen := generateResponse_onboarding host be env
    { updateAnalytics env st "sign up".toList with
      userSentiment := (advancedAnalyze "sign up".toList).sentiment }
    (advancedAnalyze "sign up".toList) (by decide)
  have h1 := process_generate host be env st "sign up".toList (by decide) hready htag
  rw [htrim, hgen] at h1
  rw [h1]

theorem process_onboarding_step (host : Host) (be : Backend) (env : Env) (st : State)
    (msg : Str) (hmsg : msg ≠ []) (hready : be.isReady = true)
    (hctx : st.context = some "workflow") (hsub : st.subContext = some "onboarding")
    (hc : isCancel (trim msg) = false) :
    process host (some be) env st (some msg) =
      workflowManager.flowOnboarding (updateAnalytics env st (trim msg)) st.step (trim msg) := by
  rw [process_workflow host be env st msg hmsg hready hctx,
    handleStep_onboarding env (updateAnalytics env st (trim msg)) _ hc hsub]
  rfl

/-- C13: from a fresh session with a ready collaborator, `process("sign up")` starts the
onboarding workflow at step 0, `process("yes")` moves it to step 1 with the reply asking
about the IEC, and `process("no")` ends the workflow with the context null.  At the
onboarding steps 0 and 1, a message that is not a cancel message advances the step by
exactly one when its lower-case form contains "yes", and clears the workflow (context
null, step unchanged) otherwise. -/
theorem onboarding_confirmation_steps (host : Host) (be : Backend) :
    (∀ (env1 env2 env3 : Env) (t : Nat), be.isReady = true →
      (process host (some be) env1 (State.initial t) (some "sign up".toList)).2.context =
        some "workflow" ∧
      (process host (some be) env1 (State.initial t) (some "sign up".toList)).2.subContext =
        some "onboarding" ∧
      (process host (some be) env1 (State.initial t) (some "sign up".toList)).2.step = 0 ∧
      (process host (some be) env2
        (process host (some be) env1 (State.initial t) (some "sign up".toList)).2
        (some "yes".toList)).1 =
        some "Great! Step 1: Do you have a valid **IEC (Import Export Code)**? (Yes/No)".toList ∧
      (process host (some be) env2
        (process host (some be) env1 (State.initial t) (some "sign up".toList)).2
        (some "yes".toList)).2.step = 1 ∧
      (process host (some be) env2
        (process host (some be) env1 (State.initial t) (some "sign up".toList)).2
        (some "yes".toList)).2.context = some "workflow" ∧
      (process host (some be) env3
        (process host (some be) env2
          (process host (some be) env1 (State.initial t) (some "sign up".toList)).2
          (some "yes".toList)).2 (some "no".toList)).2.context = none) ∧
    (∀ (env : Env) (st : State) (msg : Str), st.subContext = some "onboarding" →
      (st.step = 0 ∨ st.step = 1) → isCancel msg = false →
      (includes (toLowerCase msg) "yes".toList = true →
        (workflowManager.handleStep env st msg).2.step = st.step + 1 ∧
        (workflowManager.handleStep env st msg).2.context = st.context) ∧
      (includes (toLowerCase msg) "yes".toList = false →
        (workflowManager.handleStep env st msg).2.context = none ∧
        (workflowManager.handleStep env st msg).2.step = st.step)) := by
  constructor
  · intro env1 env2 env3 t hready
    have h1 := process_sign_up host be env1 (State.initial t) hready rfl
    have htrim2 : trim "yes".toList = "yes".toList := by decide
    have htrim3 : trim "no".toList = "no".toList := by decide
    have h2 := process_onboarding_step host be env2
      (process host (some be) env1 (State.initial t) (some "sign up".toList)).2
      "yes".toList (by decide) hready (by rw [h1]; rfl) (by rw [h1]; rfl)
      (by rw [htrim2]; decide)
    have hstep1 : (process host (some be) env1 (State.initial t)
        (some "sign up".toList)).2.step = 0 := by rw [h1]; rfl
    have hy : includes (toLowerCase "yes".toList) "yes".toList = true := by decide
    rw [htrim2, hstep1] at h2
    simp only [workflowManager.flowOnboarding, if_true, hy] at h2
    have hs2 : (process host (some be) env2
        (process host (some be) env1 (State.initial t) (some "sign up".toList)).2
        (some "yes".toList)).2.step = 1 := by
      rw [h2]
      show (updateAnalytics env2 _ _).step + 1 = 1
      show (process host (some be) env1 (State.initial t) (some "sign up".toList)).2.step + 1 = 1
      rw [hstep1]
    have hc2 : (process host (some be) env2
        (process host (some be) env1 (State.initial t) (some "sign up".toList)).2
        (some "yes".toList)).2.context = some "workflow" := by
      rw [h2]
      show (process host (some be) env1 (State.initial t) (some "sign up".toList)).2.context =
        some "workflow"
      rw [h1]; rfl
    have hsub2 : (process host (some be) env2
        (process host (some be) env1 (State.initial t) (some "sign up".toList)).2
        (some "yes".toList)).2.subContext = some "onboarding" := by
      rw [h2]
      show (process host (some be) env1 (State.initial t)
        (some "sign up".toList)).2.subContext = some "onboarding"
      rw [h1]; rfl
    have h3 := process_onboarding_step host be env3 _ "no".toList (by decide) hready hc2 hsub2
      (by rw [htrim3]; decide)
    have hn : includes (toLowerCase "no".toList) "yes".toList = false := by decide
    have h01 : ¬ ((1 : Nat) = 0) := by decide
    rw [htrim3, hs2] at h3
    simp only [workflowManager.flowOnboarding, h01, if_false, if_true, hn,
      Bool.false_eq_true] at h3
    refine ⟨by rw [h1]; rfl, by rw [h1]; rfl, hstep1, ?_, hs2, hc2, ?_⟩
    · rw [h2]
    · rw [h3]
  · intro env st msg hsub hstep hc
    rw [handleStep_onboarding env st msg hc hsub]
    have h01 : ¬ ((1 : Nat) = 0) := by decide
    constructor
    · intro hy
      rcases hstep with h | h <;>
        simp only [workflowManager.flowOnboarding, h, h01, if_true, if_false, hy, and_self]
    · intro hn
      rcases hstep with h | h <;>
        simp only [workflowManager.flowOnboarding, h, h01, if_true, if_false, hn,
          Bool.false_eq_true, and_self]

/-- Witness of C13: at onboarding step 1 the message "Yes, we do" advances to step 2. -/
theorem onboarding_confirmation_steps_witness :
    (workflowManager.handleStep sampleEnv
      { startWorkflow (State.initial 0) "onboarding" with step := 1 }
      "Yes, we do".toList).2.step = 2 ∧
    (workflowManager.handleStep sampleEnv
      { startWorkflow (State.initial 0) "onboarding" with step := 1 }
      "Yes, we do".toList).2.context = some "workflow" :=
  ((onboarding_confirmation_steps sampleHost sampleBackend).2 sampleEnv
    { startWorkflow (State.initial 0) "onboarding" with step := 1 } "Yes, we do".toList
    rfl (Or.inr rfl) (by decide)).1 (by decide)

/-- C14, counterexample.  After the onboarding workflow has completed ("sign up", "yes",
"yes", a PAN, a company name, a GSTIN) the context is null, and `subContext` still names
the workflow and the slot `companyName` still holds the name; likewise after the ticket
workflow has completed ("urgent help", "yes", an issue, a reference). -/
theorem workflow_completion_counterexample :
    ((processAll sampleHost (some sampleBackend) sampleEnv (State.initial 0)
        ["sign up".toList, "yes".toList, "yes".toList, "ABCDE1234F".toList,
          "Acme Exports".toList, "29ABCDE1234F1Z5".toList]).context = none ∧
      (processAll sampleHost (some sampleBackend) sampleEnv (State.initial 0)
        ["sign up".toList, "yes".toList, "yes".toList, "ABCDE1234F".toList,
          "Acme Exports".toList, "29ABCDE1234F1Z5".toList]).subContext = some "onboarding" ∧
      (processAll sampleHost (some sampleBackend) sampleEnv (State.initial 0)
        ["sign up".toList, "yes".toList, "yes".toList, "ABCDE1234F".toList,
          "Acme Exports".toList, "29ABCDE1234F1Z5".toList]).tempData.companyName =
        some "Acme Exports".toList) ∧
    ((processAll sampleHost (some sampleBackend) sampleEnv (State.initial 0)
        ["urgent help".toList, "yes".toList, "payment stuck".toList, "NA".toList]).context =
        none ∧
      (processAll sampleHost (some sampleBackend) sampleEnv (State.initial 0)
        ["urgent help".toList, "yes".toList, "payment stuck".toList, "NA".toList]).subContext =
        some "ticket" ∧
      (processAll sampleHost (some sampleBackend) sampleEnv (State.initial 0)
        ["urgent help".toList, "yes".toList, "payment stuck".toList,
          "NA".toList]).tempData.ticketIssue = some "payment stuck".toList) := by
  decide!

/-- C14, as amended: when a workflow completes (onboarding at step 4 with a GSTIN that the
validator accepts, ticket at step 2 with any message that is not a cancel message) the
context tag is cleared, so that no workflow is active any more, and the onboarding
summary contains the company name stored at step 3. -/
theorem workflow_completion (env : Env) (st : State) :
    (∀ msg, st.subContext = some "onboarding" → st.step = 4 → isCancel msg = false →
      validators.gstin msg = true →
      (workflowManager.handleStep env st msg).2.context = none) ∧
    (∀ msg, st.subContext = some "ticket" → st.step = 2 → isCancel msg = false →
      (workflowManager.handleStep env st msg).2.context = none) ∧
    (∀ (env2 : Env) (name gstin : Str), st.subContext = some "onboarding" → st.step = 3 →
      isCancel name = false → isCancel gstin = false → validators.gstin gstin = true →
      ∃ reply,
        (workflowManager.handleStep env2 (workflowManager.handleStep env st name).2 gstin).1 =
          some reply ∧
        includes reply name = true ∧
        (workflowManager.handleStep env2 (workflowManager.handleStep env st name).2
          gstin).2.context = none) := by
  have h10 : ¬ ((1 : Nat) = 0) := by decide
  have h20 : ¬ ((2 : Nat) = 0) := by decide
  have h21 : ¬ ((2 : Nat) = 1) := by decide
  have h30 : ¬ ((3 : Nat) = 0) := by decide
  have h31 : ¬ ((3 : Nat) = 1) := by decide
  have h32 : ¬ ((3 : Nat) = 2) := by decide
  have h40 : ¬ ((4 : Nat) = 0) := by decide
  have h41 : ¬ ((4 : Nat) = 1) := by decide
  have h42 : ¬ ((4 : Nat) = 2) := by decide
  have h43 : ¬ ((4 : Nat) = 3) := by decide
  refine ⟨?_, ?_, ?_⟩
  · intro msg hsub hstep hc hg
    rw [handleStep_onboarding env st msg hc hsub, hstep]
    simp only [workflowManager.flowOnboarding, h40, h41, h42, h43, if_false, if_true, hg]
  · intro msg hsub hstep hc
    rw [handleStep_ticket env st msg hc hsub, hstep]
    simp only [workflowManager.flowTicket, h20, h21, if_false, if_true]
  · intro env2 name gstin hsub hstep hcn hcg hg
    have e1 : workflowManager.handleStep env st name =
        (some ("Thanks. Last Step: Enter your GSTIN for ".toList ++ name ++ ".".toList),
          { st with tempData := { st.tempData with companyName := some name },
                    step := st.step + 1 }) := by
      rw [handleStep_onboarding env st name hcn hsub]
      simp only [workflowManager.flowOnboarding, hstep, h30, h31, h32, if_false, if_true]
    have e2 := handleStep_onboarding env2
      { st with tempData := { st.tempData with companyName := some name },
                step := st.step + 1 } gstin hcg hsub
    rw [e1]
    simp only
    rw [e2]
    simp only [hstep, workflowManager.flowOnboarding, h40, h41, h42, h43, if_false, if_true, hg,
      templateStr, Nat.reduceAdd]
    exact ⟨_, rfl, includes_append_mid _ _ _, trivial⟩

/-- Witness of C14 as amended: the company name "Acme" given at step 3 appears in the
summary returned for the GSTIN "29ABCDE1234F1Z5". -/
theorem workflow_completion_witness :
    ∃ reply,
      (workflowManager.handleStep sampleEnv (workflowManager.handleStep sampleEnv
        { startWorkflow (State.initial 0) "onboarding" with step := 3 } "Acme".toList).2
        "29ABCDE1234F1Z5".toList).1 = some reply ∧
      includes reply "Acme".toList = true ∧
      (workflowManager.handleStep sampleEnv (workflowManager.handleStep sampleEnv
        { startWorkflow (State.initial 0) "onboarding" with step := 3 } "Acme".toList).2
        "29ABCDE1234F1Z5".toList).2.context = none :=
  (workflow_completion sampleEnv
    { startWorkflow (State.initial 0) "onboarding" with step := 3 }).2.2 sampleEnv
    "Acme".toList "29ABCDE1234F1Z5".toList rfl rfl (by decide) (by decide) (by decide)

/-- C15: `startWorkflow(name)`, called in any state, sets the step to 0, makes the named
workflow active (context `workflow`, `subContext` the name) and empties the slots: none
of the four slots holds a value afterwards. -/
theorem startWorkflow_resets (st : State) (name : String) :
    (startWorkflow st name).step = 0 ∧
    (startWorkflow st name).context = some "workflow" ∧
    (startWorkflow st name).subContext = some name ∧
    (startWorkflow st name).tempData = TempData.empty ∧
    (startWorkflow st name).tempData.pendingAmount = none ∧
    (startWorkflow st name).tempData.pendingCurrency = none ∧
    (startWorkflow st name).tempData.companyName = none ∧
    (startWorkflow st name).tempData.ticketIssue = none :=
  ⟨rfl, rfl, rfl, rfl, rfl, rfl, rfl, rfl⟩

/-- C16: with a ready collaborator and an active workflow, at any step, a message whose
trimmed lower-case form is "cancel", "stop" or "exit" gets the cancellation
acknowledgment; the context tag and the workflow name are cleared, and the step counter
and the slots are left as they were. -/
theorem process_cancel (host : Host) (be : Backend) (env : Env) (st : State) (msg : Str)
    (hready : be.isReady = true) (hctx : st.context = some "workflow")
    (hc : isCancel (trim msg) = true) :
    (process host (some be) env st (some msg)).1 =
      some "Workflow cancelled. How else can I help?".toList ∧
    (process host (some be) env st (some msg)).2.context = none ∧
    (process host (some be) env st (some msg)).2.subContext = none ∧
    (process host (some be) env st (some msg)).2.step = st.step ∧
    (process host (some be) env st (some msg)).2.tempData = st.tempData := by
  have hmsg : msg ≠ [] := by
    rintro rfl
    exact absurd hc (by decide)
  rw [process_workflow host be env st msg hmsg hready hctx, handleStep_cancel env _ _ hc]
  exact ⟨rfl, rfl, rfl, rfl, rfl⟩

/-- Witness of C16: " Cancel " at step 2 of the onboarding workflow. -/
theorem process_cancel_witness :
    (process sampleHost (some sampleBackend) sampleEnv
      { startWorkflow (State.initial 0) "onboarding" with step := 2 }
      (some " Cancel ".toList)).1 = some "Workflow cancelled. How else can I help?".toList ∧
    (process sampleHost (some sampleBackend) sampleEnv
      { startWorkflow (State.initial 0) "onboarding" with step := 2 }
      (some " Cancel ".toList)).2.context = none ∧
    (process sampleHost (some sampleBackend) sampleEnv
      { startWorkflow (State.initial 0) "onboarding" with step := 2 }
      (some " Cancel ".toList)).2.subContext = none ∧
    (process sampleHost (some sampleBackend) sampleEnv
      { startWorkflow (State.initial 0) "onboarding" with step := 2 }
      (some " Cancel ".toList)).2.step = 2 ∧
    (process sampleHost (some sampleBackend) sampleEnv
      { startWorkflow (State.initial 0) "onboarding" with step := 2 }
      (some " Cancel ".toList)).2.tempData = TempData.empty :=
  process_cancel sampleHost sampleBackend sampleEnv
    { startWorkflow (State.initial 0) "onboarding" with step := 2 } " Cancel ".toList
    (by decide) rfl (by decide)

/-! ## The step counter -/

theorem flowOnboarding_step (st : State) (msg : Str) :
    (workflowManager.flowOnboarding st st.step msg).2.step = st.step ∨
    (workflowManager.flowOnboarding st st.step msg).2.step = st.step + 1 := by
  unfold workflowManager.flowOnboarding
  repeat' split
  all_goals first
    | exact Or.inl rfl
    | exact Or.inr rfl

theorem flowTicket_step (env : Env) (st : State) (msg : Str) :
    (workflowManager.flowTicket env st st.step msg).2.step = st.step ∨
    (workflowManager.flowTicket env st st.step msg).2.step = st.step + 1 := by
  unfold workflowManager.flowTicket
  repeat' split
  all_goals first
    | exact Or.inl rfl
    | exact Or.inr rfl

theorem handleStep_step (env : Env) (st : State) (msg : Str) :
    (workflowManager.handleStep env st msg).2.step = st.step ∨
    (workflowManager.handleStep env st msg).2.step = st.step + 1 := by
  unfold workflowManager.handleStep
  simp only
  split
  · exact Or.inl rfl
  · split
    · exact flowOnboarding_step st msg
    · split
      · exact flowTicket_step env st msg
      · exact Or.inl rfl

theorem generateResponse_step (host : Host) (be : Backend) (env : Env) (st : State)
    (analysis : Analysis) :
    (generateResponse host be env st analysis).2.step = st.step ∨
    ∃ name, (generateResponse host be env st analysis).2 = startWorkflow st name := by
  unfold generateResponse
  by_cases h0 : analysis.intent = "greeting"
  · rw [if_pos h0]; exact Or.inl rfl
  rw [if_neg h0]
  by_cases h1 : analysis.intent = "rate_inquiry"
  · rw [if_pos h1]
    split <;> exact Or.inl rfl
  rw [if_neg h1]
  by_cases h2 : analysis.intent = "calculator"
  · rw [if_pos h2]
    split <;> exact Or.inl rfl
  rw [if_neg h2]
  by_cases h3 : analysis.intent = "compliance_fira"
  · rw [if_pos h3]; exact Or.inl rfl
  rw [if_neg h3]
  by_cases h4 : analysis.intent = "compliance_rodtep"
  · rw [if_pos h4]; exact Or.inl rfl
  rw [if_neg h4]
  by_cases h5 : analysis.intent = "compliance_boe"
  · rw [if_pos h5]; exact Or.inl rfl
  rw [if_neg h5]
  by_cases h6 : analysis.intent = "speed"
  · rw [if_pos h6]; exact Or.inl rfl
  rw [if_neg h6]
  by_cases h7 : analysis.intent = "security"
  · rw [if_pos h7]; exact Or.inl rfl
  rw [if_neg h7]
  by_cases h8 : analysis.intent = "onboarding"
  · rw [if_pos h8]; exact Or.inr ⟨_, rfl⟩
  rw [if_neg h8]
  by_cases h9 : analysis.intent = "support" ∨ analysis.intent = "troubleshoot"
  · rw [if_pos h9]
    by_cases hs : analysis.sentiment = "urgent" ∨ analysis.sentiment = "negative"
    · rw [if_pos hs]; exact Or.inr ⟨_, rfl⟩
    · rw [if_neg hs]
      split
      · exact Or.inl rfl
      · split <;> exact Or.inl rfl
  rw [if_neg h9]
  by_cases h10 : analysis.intent = "explain_concept"
  · rw [if_pos h10]
    simp only
    split <;> exact Or.inl rfl
  rw [if_neg h10]
  by_cases h11 : analysis.intent = "thanks"
  · rw [if_pos h11]; exact Or.inl rfl
  rw [if_neg h11]
  by_cases h12 : analysis.intent = "goodbye"
  · rw [if_pos h12]; exact Or.inl rfl
  rw [if_neg h12]
  by_cases h13 : analysis.intent = "personality"
  · rw [if_pos h13]; exact Or.inl rfl
  rw [if_neg h13]
  exact Or.inl rfl

theorem handleContext_step (host : Host) (be : Backend) (env : Env) (st : State)
    (analysis : Analysis) (rawText : Str) :
    (handleContext host be env st analysis rawText).2.step = st.step ∨
    ∃ s0 name, (handleContext host be env st analysis rawText).2 = startWorkflow s0 name := by
  unfold handleContext
  simp only
  split
  · repeat' split
    all_goals exact Or.inl rfl
  · split
    · repeat' split
      all_goals exact Or.inl rfl
    · split
      · repeat' split
        all_goals exact Or.inl rfl
      · rcases generateResponse_step host be env { st with context := none } analysis with h | h
        · exact Or.inl h
        · obtain ⟨name, hn⟩ := h
          exact Or.inr ⟨_, name, hn⟩

/-- C17: one call of `workflowManager.handleStep` leaves the step counter unchanged or
increases it by exactly 1, so the counter never decreases while a workflow is active; and
a call of `process` that neither keeps the counter nor increases it by 1 ends in a state
produced by `startWorkflow`, the only place where the counter is set to 0. -/
theorem step_counter_monotone (host : Host) (be : Option Backend) (env : Env) (st : State) :
    (∀ msg, (workflowManager.handleStep env st msg).2.step = st.step ∨
      (workflowManager.handleStep env st msg).2.step = st.step + 1) ∧
    (∀ message, (process host be env st message).2.step = st.step ∨
      (process host be env st message).2.step = st.step + 1 ∨
      ∃ s0 name, (process host be env st message).2 = startWorkflow s0 name ∧
        (process host be env st message).2.step = 0) := by
  refine ⟨fun msg => handleStep_step env st msg, ?_⟩
  intro message
  unfold process
  split
  · exact Or.inl rfl
  · next m hm =>
    simp only
    split
    · exact Or.inl rfl
    · next b =>
      split
      · exact Or.inl rfl
      · split
        · rcases handleStep_step env (updateAnalytics env st (trim m)) (trim m) with h | h
          · exact Or.inl h
          · exact Or.inr (Or.inl h)
        · split
          · rcases handleContext_step host b env
              { updateAnalytics env st (trim m) with
                userSentiment := (advancedAnalyze (trim m)).sentiment }
              (advancedAnalyze (trim m)) (trim m) with h | h
            · exact Or.inl h
            · obtain ⟨s0, name, hn⟩ := h
              exact Or.inr (Or.inr ⟨s0, name, hn, by rw [hn]; rfl⟩)
          · rcases generateResponse_step host b env
              { updateAnalytics env st (trim m) with
                userSentiment := (advancedAnalyze (trim m)).sentiment }
              (advancedAnalyze (trim m)) with h | h
            · exact Or.inl h
            · obtain ⟨name, hn⟩ := h
              exact Or.inr (Or.inr ⟨_, name, hn, by rw [hn]; rfl⟩)

/-! ## Invalid workflow input -/

/-- C18: at onboarding step 2 and step 4, a message that is not a cancel message and that
the validator of the step rejects gets the invalid-format hint of the step, and the
session state is left exactly as it was. -/
theorem onboarding_invalid_input (env : Env) (st : State) (msg : Str)
    (hsub : st.subContext = some "onboarding") (hc : isCancel msg = false) :
    (st.step = 2 → validators.pan msg = false →
      workflowManager.handleStep env st msg =
        (some "\u201a\u00f9\u00e5 Invalid PAN format. It should be 5 letters, 4 numbers, 1 letter (e.g., ABCDE1234F). Try again.".toList,
          st)) ∧
    (st.step = 4 → validators.gstin msg = false →
      workflowManager.handleStep env st msg =
        (some "\u201a\u00f9\u00e5 Invalid GSTIN format. It typically starts with state code (e.g., 29ABCDE1234F1Z5). Try again.".toList,
          st)) := by
  have h20 : ¬ ((2 : Nat) = 0) := by decide
  have h21 : ¬ ((2 : Nat) = 1) := by decide
  have h40 : ¬ ((4 : Nat) = 0) := by decide
  have h41 : ¬ ((4 : Nat) = 1) := by decide
  have h42 : ¬ ((4 : Nat) = 2) := by decide
  have h43 : ¬ ((4 : Nat) = 3) := by decide
  rw [handleStep_onboarding env st msg hc hsub]
  constructor
  · intro hstep hv
    simp only [workflowManager.flowOnboarding, hstep, h20, h21, if_false, if_true, hv,
      Bool.false_eq_true]
  · intro hstep hv
    simp only [workflowManager.flowOnboarding, hstep, h40, h41, h42, h43, if_false, if_true, hv,
      Bool.false_eq_true]

/-- Witness of C18: "ABC12345F" at the PAN step. -/
theorem onboarding_invalid_input_witness :
    workflowManager.handleStep sampleEnv
      { startWorkflow (State.initial 0) "onboarding" with step := 2 } "ABC12345F".toList =
      (some "\u201a\u00f9\u00e5 Invalid PAN format. It should be 5 letters, 4 numbers, 1 letter (e.g., ABCDE1234F). Try again.".toList,
        { startWorkflow (State.initial 0) "onboarding" with step := 2 }) :=
  (onboarding_invalid_input sampleEnv
    { startWorkflow (State.initial 0) "onboarding" with step := 2 } "ABC12345F".toList
    rfl (by decide)).1 rfl (by decide)

/-! ## Validators -/

/-- C19, at the failing input: `validators.pan` accepts "ABCDE1234F" and "abcde1234f" and
rejects "ABC12345F", and it also accepts "XXABCDE1234FYY" and "ABCDEFGH1234IJ", texts of
14 characters that merely contain five letters, four digits and a letter in a row. -/
theorem validators_pan_unanchored :
    validators.pan "ABCDE1234F".toList = true ∧
    validators.pan "abcde1234f".toList = true ∧
    validators.pan "ABC12345F".toList = false ∧
    validators.pan "XXABCDE1234FYY".toList = true ∧
    validators.pan "ABCDEFGH1234IJ".toList = true := by
  decide

/-! ## Empty input -/

/-- C20: for a null and for an empty message `process` returns the empty string and the
session state, the history included, is exactly what it was. -/
theorem process_empty_message (host : Host) (be : Option Backend) (env : Env) (st : State) :
    process host be env st none = (some [], st) ∧
    process host be env st (some []) = (some [], st) :=
  ⟨rfl, rfl⟩

/-! ## Collaborator not ready -/

/-- C22: when the quoting collaborator is absent or not ready, `process` answers every
non-empty message with the fixed "try again" reply, and the context tag, the workflow
name, the step counter, the slots and the stored sentiment are what they were. -/
theorem process_not_ready (host : Host) (be : Option Backend) (env : Env) (st : State)
    (msg : Str) (hmsg : msg ≠ [])
    (hbe : be = none ∨ ∃ b, be = some b ∧ b.isReady = false) :
    (process host be env st (some msg)).1 =
      some "I'm currently establishing a secure handshake with the GIFT City server to get live rates. Please try again in 2 seconds.".toList ∧
    (process host be env st (some msg)).2.context = st.context ∧
    (process host be env st (some msg)).2.subContext = st.subContext ∧
    (process host be env st (some msg)).2.step = st.step ∧
    (process host be env st (some msg)).2.tempData = st.tempData ∧
    (process host be env st (some msg)).2.userSentiment = st.userSentiment := by
  have key : process host be env st (some msg) =
      (some "I'm currently establishing a secure handshake with the GIFT City server to get live rates. Please try again in 2 seconds.".toList,
        updateAnalytics env st (trim msg)) := by
    rcases hbe with rfl | ⟨b, rfl, hb⟩
    · simp only [process, whenTruthyStr_some_of_ne msg hmsg]
    · simp only [process, whenTruthyStr_some_of_ne msg hmsg, hb]
      rfl
  rw [key]
  exact ⟨rfl, rfl, rfl, rfl, rfl, rfl⟩

/-- Witness of C22: "convert 1000 sgd" in the middle of the onboarding workflow, without a
collaborator. -/
theorem process_not_ready_witness :
    (process sampleHost none sampleEnv
      { startWorkflow (State.initial 0) "onboarding" with step := 2 }
      (some "convert 1000 sgd".toList)).1 =
      some "I'm currently establishing a secure handshake with the GIFT City server to get live rates. Please try again in 2 seconds.".toList ∧
    (process sampleHost none sampleEnv
      { startWorkflow (State.initial 0) "onboarding" with step := 2 }
      (some "convert 1000 sgd".toList)).2.context = some "workflow" ∧
    (process sampleHost none sampleEnv
      { startWorkflow (State.initial 0) "onboarding" with step := 2 }
      (some "convert 1000 sgd".toList)).2.subContext = some "onboarding" ∧
    (process sampleHost none sampleEnv
      { startWorkflow (State.initial 0) "onboarding" with step := 2 }
      (some "convert 1000 sgd".toList)).2.step = 2 ∧
    (process sampleHost none sampleEnv
      { startWorkflow (State.initial 0) "onboarding" with step := 2 }
      (some "convert 1000 sgd".toList)).2.tempData = TempData.empty ∧
    (process sampleHost none sampleEnv
      { startWorkflow (State.initial 0) "onboarding" with step := 2 }
      (some "convert 1000 sgd".toList)).2.userSentiment = "neutral" :=
  process_not_ready sampleHost none sampleEnv
    { startWorkflow (State.initial 0) "onboarding" with step := 2 } "convert 1000 sgd".toList
    (by decide) (Or.inl rfl)

/-! ## Cancel without a workflow -/

theorem generateResponse_unknown (host : Host) (be : Backend) (env : Env) (st : State)
    (analysis : Analysis) (hint : analysis.intent = "unknown") :
    generateResponse host be env st analysis =
      ("I'm trained on Trade Finance, Live FX Rates, and Compliance rules. You can ask: 'Current USD Rate', 'What is RoDTEP?', 'Convert 5000 SGD', or 'Help with login'.".toList,
        st) := by
  have h1 : ¬ ("unknown" = "greeting") := by decide
  have h2 : ¬ ("unknown" = "rate_inquiry") := by decide
  have h3 : ¬ ("unknown" = "calculator") := by decide
  have h4 : ¬ ("unknown" = "compliance_fira") := by decide
  have h5 : ¬ ("unknown" = "compliance_rodtep") := by decide
  have h6 : ¬ ("unknown" = "compliance_boe") := by decide
  have h7 : ¬ ("unknown" = "speed") := by decide
  have h8 : ¬ ("unknown" = "security") := by decide
  have h9 : ¬ ("unknown" = "onboarding") := by decide
  have h10 : ¬ ("unknown" = "support" ∨ "unknown" = "troubleshoot") := by decide
  have h11 : ¬ ("unknown" = "explain_concept") := by decide
  have h12 : ¬ ("unknown" = "thanks") := by decide
  have h13 : ¬ ("unknown" = "goodbye") := by decide
  have h14 : ¬ ("unknown" = "personality") := by decide
  simp only [generateResponse, hint, h1, h2, h3, h4, h5, h6, h7, h8, h9, h10, h11, h12, h13,
    h14, if_false]

/-- C23: with a ready collaborator and neither a workflow nor a context active,
`process("cancel")` returns exactly the fallback reply, the reply `generateResponse` gives
to every analysis with intent `unknown` (which a neutral sentiment leaves unadjusted), and
the context tag, the workflow name, the step counter and the slots are what they were. -/
theorem process_cancel_idle (host : Host) (be : Backend) (env : Env) (st : State)
    (hready : be.isReady = true) (hctx : st.context = none) :
    (process host (some be) env st (some "cancel".toList)).1 =
      some "I'm trained on Trade Finance, Live FX Rates, and Compliance rules. You can ask: 'Current USD Rate', 'What is RoDTEP?', 'Convert 5000 SGD', or 'Help with login'.".toList ∧
    (∀ (env2 : Env) (st2 : State) (analysis : Analysis), analysis.intent = "unknown" →
      analysis.sentiment = "neutral" →
      some (sentimentAdjust (generateResponse host be env2 st2 analysis).1 analysis.sentiment) =
        (process host (some be) env st (some "cancel".toList)).1) ∧
    (process host (some be) env st (some "cancel".toList)).2.context = none ∧
    (process host (some be) env st (some "cancel".toList)).2.subContext = st.subContext ∧
    (process host (some be) env st (some "cancel".toList)).2.step = st.step ∧
    (process host (some be) env st (some "cancel".toList)).2.tempData = st.tempData := by
  have htag : truthyTag st.context = false := by rw [hctx]; rfl
  have htrim : trim "cancel".toList = "cancel".toList := by decide
  have hs : (advancedAnalyze "cancel".toList).sentiment = "neutral" := by decide
  have hgen := generateResponse_unknown host be env
    { updateAnalytics env st "cancel".toList with
      userSentiment := (advancedAnalyze "cancel".toList).sentiment }
    (advancedAnalyze "cancel".toList) (by decide)
  have h1 := process_generate host be env st "cancel".toList (by decide) hready htag
  rw [htrim, hgen, hs] at h1
  rw [h1]
  refine ⟨rfl, ?_, hctx, rfl, rfl, rfl⟩
  intro env2 st2 analysis hi hn
  rw [generateResponse_unknown host be env2 st2 analysis hi, hn]

/-- Witness of C23: `process("cancel")` in the initial state. -/
theorem process_cancel_idle_witness :
    (process sampleHost (some sampleBackend) sampleEnv (State.initial 0)
      (some "cancel".toList)).1 =
      some "I'm trained on Trade Finance, Live FX Rates, and Compliance rules. You can ask: 'Current USD Rate', 'What is RoDTEP?', 'Convert 5000 SGD', or 'Help with login'.".toList ∧
    (process sampleHost (some sampleBackend) sampleEnv (State.initial 0)
      (some "cancel".toList)).2.context = none :=
  ⟨(process_cancel_idle sampleHost sampleBackend sampleEnv (State.initial 0)
      (by decide) rfl).1,
    (process_cancel_idle sampleHost sampleBackend sampleEnv (State.initial 0)
      (by decide) rfl).2.2.1⟩

/-! ## Analytics history -/

theorem handleStep_history (env : Env) (st : State) (msg : Str) :
    (workflowManager.handleStep env st msg).2.history = st.history := by
  unfold workflowManager.handleStep workflowManager.flowOnboarding workflowManager.flowTicket
  simp only
  repeat' split
  all_goals rfl

theorem generateResponse_history (host : Host) (be : Backend) (env : Env) (st : State)
    (analysis : Analysis) :
    (generateResponse host be env st analysis).2.history = st.history := by
  unfold generateResponse
  by_cases h0 : analysis.intent = "greeting"
  · rw [if_pos h0]
  rw [if_neg h0]
  by_cases h1 : analysis.intent = "rate_inquiry"
  · rw [if_pos h1]
    split <;> rfl
  rw [if_neg h1]
  by_cases h2 : analysis.intent = "calculator"
  · rw [if_pos h2]
    split <;> rfl
  rw [if_neg h2]
  by_cases h3 : analysis.intent = "compliance_fira"
  · rw [if_pos h3]
  rw [if_neg h3]
  by_cases h4 : analysis.intent = "compliance_rodtep"
  · rw [if_pos h4]
  rw [if_neg h4]
  by_cases h5 : analysis.intent = "compliance_boe"
  · rw [if_pos h5]
  rw [if_neg h5]
  by_cases h6 : analysis.intent = "speed"
  · rw [if_pos h6]
  rw [if_neg h6]
  by_cases h7 : analysis.intent = "security"
  · rw [if_pos h7]
  rw [if_neg h7]
  by_cases h8 : analysis.intent = "onboarding"
  · rw [if_pos h8]; rfl
  rw [if_neg h8]
  by_cases h9 : analysis.intent = "support" ∨ analysis.intent = "troubleshoot"
  · rw [if_pos h9]
    by_cases hs : analysis.sentiment = "urgent" ∨ analysis.sentiment = "negative"
    · rw [if_pos hs]; rfl
    · rw [if_neg hs]
      split
      · rfl
      · split <;> rfl
  rw [if_neg h9]
  by_cases h10 : analysis.intent = "explain_concept"
  · rw [if_pos h10]
    simp only
    split <;> rfl
  rw [if_neg h10]
  by_cases h11 : analysis.intent = "thanks"
  · rw [if_pos h11]
  rw [if_neg h11]
  by_cases h12 : analysis.intent = "goodbye"
  · rw [if_pos h12]
  rw [if_neg h12]
  by_cases h13 : analysis.intent = "personality"
  · rw [if_pos h13]
  rw [if_neg h13]

theorem handleContext_history (host : Host) (be : Backend) (env : Env) (st : State)
    (analysis : Analysis) (rawText : Str) :
    (handleContext host be env st analysis rawText).2.history = st.history := by
  unfold handleContext
  simp only
  split
  · repeat' split
    all_goals rfl
  · split
    · repeat' split
      all_goals rfl
    · split
      · repeat' split
        all_goals rfl
      · exact generateResponse_history host be env { st with context := none } analysis

theorem process_history (host : Host) (be : Option Backend) (env : Env) (st : State)
    (msg : Str) (hmsg : msg ≠ []) :
    (process host be env st (some msg)).2.history =
      (updateAnalytics env st (trim msg)).history := by
  simp only [process, whenTruthyStr_some_of_ne msg hmsg]
  split
  · rfl
  · next b =>
    split
    · rfl
    · split
      · exact handleStep_history env _ _
      · split
        · exact handleContext_history host b env _ _ _
        · exact generateResponse_history host b env _ _

theorem lastEntries_of_length_le {α : Type} (k : Nat) (l : List α) (h : l.length ≤ k) :
    lastEntries k l = l := by
  unfold lastEntries
  rw [Nat.sub_eq_zero_of_le h]
  rfl

theorem lastEntries_drop_one {α : Type} (k : Nat) (l r : List α) (h : k < l.length) :
    lastEntries k (l.drop 1 ++ r) = lastEntries k (l ++ r) := by
  unfold lastEntries
  cases l with
  | nil => simp at h
  | cons a l =>
    simp only [List.drop_succ_cons, List.drop_zero, List.length_append, List.length_cons,
      List.cons_append] at h ⊢
    have e : l.length + r.length + 1 - k = (l.length + r.length - k) + 1 := by omega
    rw [e, List.drop_succ_cons]

theorem lastEntries_length {α : Type} (k : Nat) (l : List α) :
    (lastEntries k l).length = min l.length k := by
  unfold lastEntries
  rw [List.length_drop]
  omega

theorem updateAnalytics_history (env : Env) (st : State) (m : Str)
    (h : st.history.length ≤ config.maxHistorySize) (r : List Str) :
    (updateAnalytics env st m).history.length ≤ config.maxHistorySize ∧
    lastEntries config.maxHistorySize
        ((updateAnalytics env st m).history.map (fun e => e.msg) ++ r) =
      lastEntries config.maxHistorySize (st.history.map (fun e => e.msg) ++ m :: r) := by
  unfold updateAnalytics
  simp only
  split
  · next hgt =>
    constructor
    · simp only [List.length_drop, List.length_append, List.length_cons, List.length_nil]
      omega
    · have hlen : config.maxHistorySize <
          ((st.history ++ [({ ts := env.now, msg := m } : HistoryEntry)]).map
            (fun e => e.msg)).length := by
        simpa using hgt
      have := lastEntries_drop_one config.maxHistorySize
        ((st.history ++ [({ ts := env.now, msg := m } : HistoryEntry)]).map
          (fun e => e.msg)) r hlen
      simpa [List.map_drop] using this
  · next hle =>
    constructor
    · exact Nat.le_of_not_lt hle
    · simp

theorem processTurns_history (host : Host) (turns : List Turn) (st : State)
    (hne : ∀ t ∈ turns, ∃ m, t.2.2 = some m ∧ m ≠ [])
    (h : st.history.length ≤ config.maxHistorySize) :
    (processTurns host st turns).history.length ≤ config.maxHistorySize ∧
    (processTurns host st turns).history.map (fun e => e.msg) =
      lastEntries config.maxHistorySize
        (st.history.map (fun e => e.msg) ++ turns.map (fun t => trim (t.2.2.getD []))) := by
  induction turns generalizing st with
  | nil =>
    refine ⟨h, ?_⟩
    simp only [processTurns, List.foldl_nil, List.map_nil, List.append_nil]
    exact (lastEntries_of_length_le _ _ (by simpa using h)).symm
  | cons t ts ih =>
    obtain ⟨m, hm, hm0⟩ := hne t (List.mem_cons_self _ _)
    have hstep : (process host t.1 t.2.1 st t.2.2).2.history =
        (updateAnalytics t.2.1 st (trim m)).history := by
      rw [hm]
      exact process_history host t.1 t.2.1 st m hm0
    have hu := updateAnalytics_history t.2.1 st (trim m) h
      (ts.map (fun t => trim (t.2.2.getD [])))
    have ih2 := ih (process host t.1 t.2.1 st t.2.2).2
      (fun x hx => hne x (List.mem_cons_of_mem _ hx)) (by rw [hstep]; exact hu.1)
    have hfold : processTurns host st (t :: ts) =
        processTurns host (process host t.1 t.2.1 st t.2.2).2 ts := rfl
    rw [hfold]
    refine ⟨ih2.1, ?_⟩
    rw [ih2.2, hstep, hu.2]
    simp only [List.map_cons, hm, Option.getD_some]

/-- C21: the analytics history never holds more than `maxHistorySize` (50) entries: after
any sequence of `n` non-empty messages, starting from an empty history, it consists of
exactly the last `min n 50` trimmed messages, in the order in which they were sent. -/
theorem history_bounded (host : Host) (st : State) (turns : List Turn)
    (hempty : st.history = [])
    (hne : ∀ t ∈ turns, ∃ m, t.2.2 = some m ∧ m ≠ []) :
    (processTurns host st turns).history.length ≤ 50 ∧
    (processTurns host st turns).history.length = min turns.length 50 ∧
    (processTurns host st turns).history.map (fun e => e.msg) =
      lastEntries 50 (turns.map (fun t => trim (t.2.2.getD []))) := by
  have h := processTurns_history host turns st hne (by rw [hempty]; exact Nat.zero_le _)
  rw [hempty] at h
  simp only [List.map_nil, List.nil_append] at h
  have h2 : (processTurns host st turns).history.map (fun e => e.msg) =
      lastEntries 50 (turns.map (fun t => trim (t.2.2.getD []))) := h.2
  refine ⟨h.1, ?_, h2⟩
  have := congrArg List.length h2
  rw [List.length_map, lastEntries_length, List.length_map] at this
  exact this

/-- Witness of C21: three messages, the second sent while the collaborator is absent. -/
theorem history_bounded_witness :
    (processTurns sampleHost (State.initial 0)
      [(some sampleBackend, sampleEnv, some " hi ".toList), (none, sampleEnv, some "rate".toList),
        (some sampleBackend, sampleEnv, some "usd".toList)]).history.map (fun e => e.msg) =
      lastEntries 50 ["hi".toList, "rate".toList, "usd".toList] :=
  (history_bounded sampleHost (State.initial 0)
    [(some sampleBackend, sampleEnv, some " hi ".toList), (none, sampleEnv, some "rate".toList),
      (some sampleBackend, sampleEnv, some "usd".toList)] rfl (by decide)).2.2

/-- C25, at the failing input: `validators.gstin` accepts the example "29ABCDE1234F1Z5",
and it also accepts "X29ABCDE1234F1Z5Y" (17 characters) and "GSTIN 29abcde1234f1z5 of
Acme", texts that merely contain a GSTIN-shaped block of 15 characters. -/
theorem validators_gstin_unanchored :
    validators.gstin "29ABCDE1234F1Z5".toList = true ∧
    validators.gstin "X29ABCDE1234F1Z5Y".toList = true ∧
    validators.gstin "GSTIN 29abcde1234f1z5 of Acme".toList = true ∧
    validators.gstin "29ABCDE1234F1Y5".toList = false := by
  decide

/-! ## Dictionary lookup of the Response Generator -/

theorem generateResponse_explain (host : Host) (be : Backend) (env : Env) (st : State)
    (analysis : Analysis) (hint : analysis.intent = "explain_concept") :
    generateResponse host be env st analysis =
      match dictionaryGet (toLowerCase (lastWord analysis.raw)) with
      | some definition =>
        (definitionReply (toLowerCase (lastWord analysis.raw)) definition, st)
      | none =>
        ("I have a full trade dictionary. Which term do you want defined? (e.g., 'EEFC', 'HS Code', 'FEMA')".toList,
          { st with context := some "awaiting_term_definition" }) := by
  have h1 : ¬ ("explain_concept" = "greeting") := by decide
  have h2 : ¬ ("explain_concept" = "rate_inquiry") := by decide
  have h3 : ¬ ("explain_concept" = "calculator") := by decide
  have h4 : ¬ ("explain_concept" = "compliance_fira") := by decide
  have h5 : ¬ ("explain_concept" = "compliance_rodtep") := by decide
  have h6 : ¬ ("explain_concept" = "compliance_boe") := by decide
  have h7 : ¬ ("explain_concept" = "speed") := by decide
  have h8 : ¬ ("explain_concept" = "security") := by decide
  have h9 : ¬ ("explain_concept" = "onboarding") := by decide
  have h10 : ¬ ("explain_concept" = "support" ∨ "explain_concept" = "troubleshoot") := by decide
  simp only [generateResponse, hint, h1, h2, h3, h4, h5, h6, h7, h8, h9, h10, if_false, if_true]

/-- C26, counterexample.  In "what is\nfema" the last whitespace-delimited token is
"fema", a dictionary key, and `generateResponse` asks which term to define and sets the
context, because the text is cut at spaces only and the last piece is "is\nfema".  In
"define constructor" the last token, "constructor", is no dictionary key, and
`generateResponse` answers with a definition line and sets no context. -/
theorem generateResponse_explain_concept_counterexample :
    ((advancedAnalyze "what is\nfema".toList).intent = "explain_concept" ∧
      lastWhitespaceToken "what is\nfema".toList = "fema".toList ∧
      (knowledge.dictionary.lookup "fema".toList).isSome = true ∧
      (generateResponse sampleHost sampleBackend sampleEnv (State.initial 0)
        (advancedAnalyze "what is\nfema".toList)).1 =
        "I have a full trade dictionary. Which term do you want defined? (e.g., 'EEFC', 'HS Code', 'FEMA')".toList ∧
      (generateResponse sampleHost sampleBackend sampleEnv (State.initial 0)
        (advancedAnalyze "what is\nfema".toList)).2.context =
        some "awaiting_term_definition") ∧
    ((advancedAnalyze "define constructor".toList).intent = "explain_concept" ∧
      lastWhitespaceToken "define constructor".toList = "constructor".toList ∧
      knowledge.dictionary.lookup "constructor".toList = none ∧
      (generateResponse sampleHost sampleBackend sampleEnv (State.initial 0)
        (advancedAnalyze "define constructor".toList)).1 =
        definitionReply "constructor".toList
          "function Object() \x7b [native code] \x7d".toList ∧
      (generateResponse sampleHost sampleBackend sampleEnv (State.initial 0)
        (advancedAnalyze "define constructor".toList)).2.context = none) := by
  decide!

/-- C26, as amended: for every analysis with intent `explain_concept`, `generateResponse`
takes the last space-delimited piece of the raw text, lower-cases it and looks it up in
the trade dictionary: when it is a dictionary key the reply is the definition of the term
and the state, hence the context tag, is unchanged; when it is neither a dictionary key
nor one of the names `constructor` and `__proto__`, the context becomes
`awaiting_term_definition` and the reply is the prompt asking which term to define. -/
theorem generateResponse_explain_concept (host : Host) (be : Backend) (env : Env) (st : State)
    (analysis : Analysis) (hint : analysis.intent = "explain_concept") :
    (∀ definition,
      knowledge.dictionary.lookup (toLowerCase (lastWord analysis.raw)) = some definition →
      generateResponse host be env st analysis =
        (definitionReply (toLowerCase (lastWord analysis.raw)) definition, st)) ∧
    (knowledge.dictionary.lookup (toLowerCase (lastWord analysis.raw)) = none →
      toLowerCase (lastWord analysis.raw) ≠ "constructor".toList →
      toLowerCase (lastWord analysis.raw) ≠ "__proto__".toList →
      generateResponse host be env st analysis =
        ("I have a full trade dictionary. Which term do you want defined? (e.g., 'EEFC', 'HS Code', 'FEMA')".toList,
          { st with context := some "awaiting_term_definition" })) := by
  rw [generateResponse_explain host be env st analysis hint]
  constructor
  · intro d hd
    simp only [dictionaryGet, hd]
  · intro hd h1 h2
    have hi : knowledge.dictionaryInherited.lookup (toLowerCase (lastWord analysis.raw)) =
        none := by
      simp only [knowledge.dictionaryInherited, List.lookup]
      have e1 : (toLowerCase (lastWord analysis.raw) == "constructor".toList) = false := by
        simpa using h1
      have e2 : (toLowerCase (lastWord analysis.raw) == "__proto__".toList) = false := by
        simpa using h2
      simp only [e1, e2]
    simp only [dictionaryGet, hd, hi]

/-- Witness of C26 as amended: "What is FEMA" is answered with the definition of `fema`. -/
theorem generateResponse_explain_concept_witness :
    lastWord "What is FEMA".toList = "FEMA".toList ∧
    generateResponse sampleHost sampleBackend sampleEnv (State.initial 0)
      (advancedAnalyze "What is FEMA".toList) =
      (definitionReply (toLowerCase (lastWord (advancedAnalyze "What is FEMA".toList).raw))
        "Foreign Exchange Management Act, 1999. The primary law governing FX in India. SettleX ensures all transactions comply with FEMA guidelines automatically.".toList,
        State.initial 0) :=
  ⟨by decide,
    (generateResponse_explain_concept sampleHost sampleBackend sampleEnv (State.initial 0)
      (advancedAnalyze "What is FEMA".toList) (by decide)).1 _ (by decide)⟩

/-! ## Ticket workflow -/

theorem floorMul_lt (r : Random) (k : Nat) (hk : 0 < k) : r.floorMul k < k := by
  unfold Random.floorMul
  have hden : 0 < r.den := Nat.lt_of_le_of_lt (Nat.zero_le _) r.lt
  rw [Nat.div_lt_iff_lt_mul hden]
  calc r.num * k < r.den * k := Nat.mul_lt_mul_of_pos_right r.lt hk
    _ = k * r.den := Nat.mul_comm _ _

/-- C27: in the ticket workflow, at step 1 a message that is not a cancel message is
stored as the issue and the step becomes 2; at step 2 a message that is not a cancel
message completes the workflow (context null), and the summary contains the issue stored
at step 1, the step-2 message as the reference and the ticket identifier "TKT-" followed
by the decimal digits of an integer `n` with `0 ≤ n < 10000`. -/
theorem ticket_workflow (env1 env2 : Env) (st : State) (issue ref : Str)
    (hsub : st.subContext = some "ticket") (hstep : st.step = 1)
    (hc1 : isCancel issue = false) (hc2 : isCancel ref = false) :
    (workflowManager.handleStep env1 st issue).2.tempData.ticketIssue = some issue ∧
    (workflowManager.handleStep env1 st issue).2.step = 2 ∧
    ∃ reply n,
      (workflowManager.handleStep env2 (workflowManager.handleStep env1 st issue).2 ref).1 =
        some reply ∧
      0 ≤ n ∧ n < 10000 ∧
      includes reply ("Ticket Created: TKT-".toList ++ Nat.toDigits 10 n ++ "**".toList) = true ∧
      includes reply ("Issue: ".toList ++ issue ++ "\n".toList) = true ∧
      includes reply ("Ref: ".toList ++ ref ++ "\n".toList) = true ∧
      (workflowManager.handleStep env2 (workflowManager.handleStep env1 st issue).2
        ref).2.context = none := by
  have h10 : ¬ ((1 : Nat) = 0) := by decide
  have h20 : ¬ ((2 : Nat) = 0) := by decide
  have h21 : ¬ ((2 : Nat) = 1) := by decide
  have e1 : workflowManager.handleStep env1 st issue =
      (some "Got it. Please provide a valid **Transaction ID** (if applicable) or type 'NA'.".toList,
        { st with tempData := { st.tempData with ticketIssue := some issue },
                  step := st.step + 1 }) := by
    rw [handleStep_ticket env1 st issue hc1 hsub]
    simp only [workflowManager.flowTicket, hstep, h10, if_false, if_true]
  have e2 := handleStep_ticket env2
    { st with tempData := { st.tempData with ticketIssue := some issue },
              step := st.step + 1 } ref hc2 hsub
  rw [e1]
  refine ⟨rfl, by simp only [hstep], ?_⟩
  simp only
  rw [e2]
  simp only [hstep, workflowManager.flowTicket, h20, h21, if_false, if_true, templateStr,
    Nat.reduceAdd]
  refine ⟨_, env2.random.floorMul 10000, rfl, Nat.zero_le _,
    floorMul_lt env2.random 10000 (by decide), ?_, ?_, ?_, trivial⟩
  · rw [includes_iff_block]
    refine ⟨"\u201a\u00fa\u00d6 **".toList, "\n\nIssue: ".toList ++ issue ++ "\nRef: ".toList ++ ref ++
      "\n\nOur Ops Team has been alerted. ETA: < 2 hours.".toList, ?_⟩
    simp [List.append_assoc]
  · rw [includes_iff_block]
    refine ⟨"\u201a\u00fa\u00d6 **Ticket Created: ".toList ++ ("TKT-".toList ++
      Nat.toDigits 10 (env2.random.floorMul 10000)) ++ "**\n\n".toList,
      "Ref: ".toList ++ ref ++ "\n\nOur Ops Team has been alerted. ETA: < 2 hours.".toList, ?_⟩
    simp [List.append_assoc]
  · rw [includes_iff_block]
    refine ⟨"\u201a\u00fa\u00d6 **Ticket Created: ".toList ++ ("TKT-".toList ++
      Nat.toDigits 10 (env2.random.floorMul 10000)) ++ "**\n\nIssue: ".toList ++ issue ++
      "\n".toList, "\nOur Ops Team has been alerted. ETA: < 2 hours.".toList, ?_⟩
    simp [List.append_assoc]

/-- Witness of C27: the issue "payment stuck" and the reference "NA". -/
theorem ticket_workflow_witness :
    (workflowManager.handleStep sampleEnv
      { startWorkflow (State.initial 0) "ticket" with step := 1 }
      "payment stuck".toList).2.tempData.ticketIssue = some "payment stuck".toList ∧
    (workflowManager.handleStep sampleEnv
      { startWorkflow (State.initial 0) "ticket" with step := 1 }
      "payment stuck".toList).2.step = 2 :=
  ⟨(ticket_workflow sampleEnv sampleEnv
      { startWorkflow (State.initial 0) "ticket" with step := 1 } "payment stuck".toList
      "NA".toList rfl rfl (by decide) (by decide)).1,
    (ticket_workflow sampleEnv sampleEnv
      { startWorkflow (State.initial 0) "ticket" with step := 1 } "payment stuck".toList
      "NA".toList rfl rfl (by decide) (by decide)).2.1⟩

/-! ## Intent scoring as a maximum -/

theorem foldl_weight_count (p : Str → Bool) (k : Nat) (ws : List Str) (init : Nat) :
    ws.foldl (fun score word => if p word then score + k else score) init =
      init + k * (ws.filter p).length := by
  induction ws generalizing init with
  | nil => simp
  | cons w ws ih =>
    rw [List.foldl_cons, ih]
    by_cases hp : p w = true
    · simp only [hp, if_true, List.filter_cons_of_pos, List.length_cons]
      ring
    · simp only [hp, if_false, List.filter_cons_of_neg, Bool.false_eq_true, not_false_eq_true]

theorem keywordScore_eq_intentScore (lower : Str) (d : IntentSpec) :
    keywordScore lower d = intentScore lower d := by
  unfold keywordScore intentScore occurrences
  rw [foldl_weight_count (fun w => includes lower w) d.weight d.keywords 0]
  simp

theorem greatestScore_cons (lower : Str) (d : IntentSpec) (ds : List IntentSpec) :
    greatestScore lower (d :: ds) = max (intentScore lower d) (greatestScore lower ds) := rfl

theorem intentScore_le_greatestScore (lower : Str) (ds : List IntentSpec) (d : IntentSpec)
    (hd : d ∈ ds) : intentScore lower d ≤ greatestScore lower ds := by
  induction ds with
  | nil => cases hd
  | cons a ds ih =>
    rw [greatestScore_cons]
    rcases List.mem_cons.mp hd with rfl | hmem
    · exact Nat.le_max_left _ _
    · exact Nat.le_trans (ih hmem) (Nat.le_max_right _ _)

theorem greatestScore_eq_zero (lower : Str) (ds : List IntentSpec)
    (h : ∀ d ∈ ds, intentScore lower d = 0) : greatestScore lower ds = 0 := by
  induction ds with
  | nil => rfl
  | cons a ds ih =>
    rw [greatestScore_cons, h a (List.mem_cons_self _ _),
      ih (fun d hd => h d (List.mem_cons_of_mem _ hd))]
    rfl

theorem foldl_scoreStep_snd (lower : Str) (ds : List IntentSpec) (acc : String × Nat) :
    (ds.foldl (scoreStep lower) acc).2 = max acc.2 (greatestScore lower ds) := by
  induction ds generalizing acc with
  | nil => simp [greatestScore]
  | cons d ds ih =>
    rw [List.foldl_cons, ih, greatestScore_cons]
    unfold scoreStep
    rw [keywordScore_eq_intentScore]
    by_cases h : intentScore lower d > acc.2
    · rw [if_pos h]
      simp only
      omega
    · rw [if_neg h]
      omega

theorem foldl_scoreStep_fst (lower : Str) (ds : List IntentSpec) (acc : String × Nat) :
    (acc.2 < greatestScore lower ds →
      ∃ d, firstWithScore lower (greatestScore lower ds) ds = some d ∧
        (ds.foldl (scoreStep lower) acc).1 = d.name) ∧
    (greatestScore lower ds ≤ acc.2 → (ds.foldl (scoreStep lower) acc).1 = acc.1) := by
  induction ds generalizing acc with
  | nil =>
    refine ⟨fun h => ?_, fun _ => rfl⟩
    exact absurd h (Nat.not_lt_zero _)
  | cons d ds ih =>
    rw [List.foldl_cons, greatestScore_cons]
    have hstep : scoreStep lower acc d =
        if intentScore lower d > acc.2 then (d.name, intentScore lower d) else acc := by
      unfold scoreStep
      rw [keywordScore_eq_intentScore]
    constructor
    · intro hlt
      by_cases hs : greatestScore lower ds ≤ intentScore lower d
      · have hmax : max (intentScore lower d) (greatestScore lower ds) = intentScore lower d :=
          Nat.max_eq_left hs
        rw [hmax] at hlt ⊢
        refine ⟨d, ?_, ?_⟩
        · simp [firstWithScore, List.find?]
        · rw [hstep, if_pos hlt]
          exact (ih (d.name, intentScore lower d)).2 hs
      · have hs2 : intentScore lower d < greatestScore lower ds := Nat.lt_of_not_le hs
        have hmax : max (intentScore lower d) (greatestScore lower ds) = greatestScore lower ds :=
          Nat.max_eq_right (Nat.le_of_lt hs2)
        rw [hmax] at hlt ⊢
        have hacc : (scoreStep lower acc d).2 < greatestScore lower ds := by
          rw [hstep]
          split
          · exact hs2
          · exact hlt
        obtain ⟨e, he, hname⟩ := (ih (scoreStep lower acc d)).1 hacc
        refine ⟨e, ?_, hname⟩
        have hne : (intentScore lower d == greatestScore lower ds) = false := by
          simpa using Nat.ne_of_lt hs2
        simpa [firstWithScore, List.find?, hne] using he
    · intro hle
      have h1 : intentScore lower d ≤ acc.2 := Nat.le_trans (Nat.le_max_left _ _) hle
      have h2 : greatestScore lower ds ≤ acc.2 := Nat.le_trans (Nat.le_max_right _ _) hle
      rw [hstep, if_neg (Nat.not_lt.mpr h1)]
      exact (ih acc).2 h2

theorem intent_weight_pos : ∀ d ∈ nlp.intents, 0 < d.weight := by
  decide

theorem intentScore_eq_zero_iff (lower : Str) (d : IntentSpec) (hw : 0 < d.weight) :
    intentScore lower d = 0 ↔ ∀ w ∈ d.keywords, includes lower w = false := by
  unfold intentScore occurrences
  rw [Nat.mul_eq_zero, List.length_eq_zero, List.filter_eq_nil_iff]
  constructor
  · intro h w hmem
    rcases h with h | h
    · omega
    · simpa using h w hmem
  · intro h
    right
    intro w hmem
    simpa using h w hmem

/-- C24: for every text, the score `advancedAnalyze` returns is the greatest, over the
intents of `nlp.intents`, of weight times the number of the intent's keywords that occur
in the lower-cased text; when the lower-cased text contains neither "ticket" nor
"complaint" and that maximum is positive, the returned intent is the name of the first
intent, in definition order, whose score equals the maximum; and when the text contains
neither word, the result is `unknown` with score 0 exactly when no keyword of any intent
occurs in the lower-cased text. -/
theorem advancedAnalyze_score_maximum (text : Str) :
    (advancedAnalyze text).score = greatestScore (toLowerCase text) nlp.intents ∧
    (includes (toLowerCase text) "ticket".toList = false →
      includes (toLowerCase text) "complaint".toList = false →
      (0 < greatestScore (toLowerCase text) nlp.intents →
        ∃ d, firstWithScore (toLowerCase text)
            (greatestScore (toLowerCase text) nlp.intents) nlp.intents = some d ∧
          (advancedAnalyze text).intent = d.name) ∧
      (((advancedAnalyze text).intent = "unknown" ∧ (advancedAnalyze text).score = 0) ↔
        ∀ d ∈ nlp.intents, ∀ w ∈ d.keywords, includes (toLowerCase text) w = false)) := by
  have hsnd : (scoreIntents (toLowerCase text)).2 =
      greatestScore (toLowerCase text) nlp.intents := by
    unfold scoreIntents
    rw [foldl_scoreStep_snd]
    exact Nat.max_eq_right (Nat.zero_le _)
  have hscore : (advancedAnalyze text).score = greatestScore (toLowerCase text) nlp.intents :=
    hsnd
  refine ⟨hscore, ?_⟩
  intro ht hc
  have hintent : (advancedAnalyze text).intent =
      if (scoreIntents (toLowerCase text)).2 > 0 then (scoreIntents (toLowerCase text)).1
      else "unknown" := by
    simp only [advancedAnalyze, ht, hc, Bool.or_self, Bool.false_eq_true, if_false]
  constructor
  · intro hpos
    obtain ⟨d, hd, hname⟩ :=
      (foldl_scoreStep_fst (toLowerCase text) nlp.intents ("unknown", 0)).1 hpos
    refine ⟨d, hd, ?_⟩
    rw [hintent, hsnd, if_pos hpos]
    exact hname
  · rw [hscore]
    constructor
    · rintro ⟨_, hz⟩ d hd
      have hle := intentScore_le_greatestScore (toLowerCase text) nlp.intents d hd
      rw [hz] at hle
      exact (intentScore_eq_zero_iff (toLowerCase text) d (intent_weight_pos d hd)).mp
        (Nat.le_zero.mp hle)
    · intro hall
      have hz : greatestScore (toLowerCase text) nlp.intents = 0 :=
        greatestScore_eq_zero (toLowerCase text) nlp.intents (fun d hd =>
          (intentScore_eq_zero_iff (toLowerCase text) d (intent_weight_pos d hd)).mpr
            (hall d hd))
      refine ⟨?_, hz⟩
      rw [hintent, hsnd, hz]
      rfl

/-- Witness of C24: in "convert rate" the intents `calculator` and `rate_inquiry` both
score 2, the maximum, and the intent returned is `calculator`, the first of the two. -/
theorem advancedAnalyze_score_maximum_witness :
    (advancedAnalyze "convert rate".toList).score = 2 ∧
    (advancedAnalyze "convert rate".toList).intent = "calculator" ∧
    (advancedAnalyze "convert rate".toList).score =
      greatestScore (toLowerCase "convert rate".toList) nlp.intents ∧
    ∃ d, firstWithScore (toLowerCase "convert rate".toList)
        (greatestScore (toLowerCase "convert rate".toList) nlp.intents) nlp.intents = some d ∧
      (advancedAnalyze "convert rate".toList).intent = d.name :=
  ⟨by decide, by decide, (advancedAnalyze_score_maximum "convert rate".toList).1,
    ((advancedAnalyze_score_maximum "convert rate".toList).2 (by decide) (by decide)).1
      (by decide)⟩

/-! ## Reachable session states -/

theorem wellFormed_of_context_none (s : State) (h : s.context = none) : WellFormed s := by
  refine ⟨Or.inl h, fun hw => ?_⟩
  rw [h] at hw
  exact absurd hw (by decide)

theorem wellFormed_of_rate (s : State) (h : s.context = some "awaiting_currency_for_rate") :
    WellFormed s := by
  refine ⟨Or.inr (Or.inl h), fun hw => ?_⟩
  rw [h] at hw
  exact absurd hw (by decide)

theorem wellFormed_of_calc (s : State) (h : s.context = some "awaiting_calculation_details") :
    WellFormed s := by
  refine ⟨Or.inr (Or.inr (Or.inl h)), fun hw => ?_⟩
  rw [h] at hw
  exact absurd hw (by decide)

theorem wellFormed_of_term (s : State) (h : s.context = some "awaiting_term_definition") :
    WellFormed s := by
  refine ⟨Or.inr (Or.inr (Or.inr (Or.inl h))), fun hw => ?_⟩
  rw [h] at hw
  exact absurd hw (by decide)

theorem wellFormed_onboarding (s : State) (hc : s.context = some "workflow")
    (hs : s.subContext = some "onboarding") (hle : s.step ≤ 4) : WellFormed s :=
  ⟨Or.inr (Or.inr (Or.inr (Or.inr hc))), fun _ => Or.inl ⟨hs, hle⟩⟩

theorem wellFormed_ticket (s : State) (hc : s.context = some "workflow")
    (hs : s.subContext = some "ticket") (hle : s.step ≤ 2) : WellFormed s :=
  ⟨Or.inr (Or.inr (Or.inr (Or.inr hc))), fun _ => Or.inr ⟨hs, hle⟩⟩

theorem wellFormed_startWorkflow_onboarding (st : State) :
    WellFormed (startWorkflow st "onboarding") :=
  wellFormed_onboarding _ rfl rfl (Nat.zero_le _)

theorem wellFormed_startWorkflow_ticket (st : State) :
    WellFormed (startWorkflow st "ticket") :=
  wellFormed_ticket _ rfl rfl (Nat.zero_le _)

theorem wellFormed_congr (s t : State) (hc : t.context = s.context)
    (hs : t.subContext = s.subContext) (hst : t.step = s.step) (h : WellFormed s) :
    WellFormed t := by
  unfold WellFormed at h ⊢
  rw [hc, hs, hst]
  exact h

theorem context_none_of_not_truthy (st : State) (h : WellFormed st)
    (ht : ¬ truthyTag st.context = true) : st.context = none := by
  rcases h.1 with hc | hc | hc | hc | hc
  · exact hc
  all_goals
    rw [hc] at ht
    exact absurd (by decide) ht

theorem context_tag_of_truthy (st : State) (h : WellFormed st)
    (ht : truthyTag st.context = true) (hw : st.context ≠ some "workflow") :
    st.context = some "awaiting_currency_for_rate" ∨
    st.context = some "awaiting_calculation_details" ∨
    st.context = some "awaiting_term_definition" := by
  rcases h.1 with hc | hc | hc | hc | hc
  · rw [hc] at ht
    exact absurd ht (by decide)
  · exact Or.inl hc
  · exact Or.inr (Or.inl hc)
  · exact Or.inr (Or.inr hc)
  · exact absurd hc hw

theorem generateResponse_wellFormed (host : Host) (be : Backend) (env : Env) (st : State)
    (analysis : Analysis) (hctx : st.context = none) :
    WellFormed (generateResponse host be env st analysis).2 := by
  unfold generateResponse
  by_cases h0 : analysis.intent = "greeting"
  · rw [if_pos h0]
    exact wellFormed_of_context_none _ hctx
  rw [if_neg h0]
  by_cases h1 : analysis.intent = "rate_inquiry"
  · rw [if_pos h1]
    split <;>
      first
        | exact wellFormed_of_context_none _ hctx
        | exact wellFormed_of_rate _ rfl
  rw [if_neg h1]
  by_cases h2 : analysis.intent = "calculator"
  · rw [if_pos h2]
    split <;>
      first
        | exact wellFormed_of_context_none _ hctx
        | exact wellFormed_of_calc _ rfl
  rw [if_neg h2]
  by_cases h3 : analysis.intent = "compliance_fira"
  · rw [if_pos h3]
    exact wellFormed_of_context_none _ hctx
  rw [if_neg h3]
  by_cases h4 : analysis.intent = "compliance_rodtep"
  · rw [if_pos h4]
    exact wellFormed_of_context_none _ hctx
  rw [if_neg h4]
  by_cases h5 : analysis.intent = "compliance_boe"
  · rw [if_pos h5]
    exact wellFormed_of_context_none _ hctx
  rw [if_neg h5]
  by_cases h6 : analysis.intent = "speed"
  · rw [if_pos h6]
    exact wellFormed_of_context_none _ hctx
  rw [if_neg h6]
  by_cases h7 : analysis.intent = "security"
  · rw [if_pos h7]
    exact wellFormed_of_context_none _ hctx
  rw [if_neg h7]
  by_cases h8 : analysis.intent = "onboarding"
  · rw [if_pos h8]
    exact wellFormed_startWorkflow_onboarding _
  rw [if_neg h8]
  by_cases h9 : analysis.intent = "support" ∨ analysis.intent = "troubleshoot"
  · rw [if_pos h9]
    by_cases hs : analysis.sentiment = "urgent" ∨ analysis.sentiment = "negative"
    · rw [if_pos hs]
      exact wellFormed_startWorkflow_ticket _
    · rw [if_neg hs]
      split
      · exact wellFormed_of_context_none _ hctx
      · split <;> exact wellFormed_of_context_none _ hctx
  rw [if_neg h9]
  by_cases h10 : analysis.intent = "explain_concept"
  · rw [if_pos h10]
    simp only
    split <;>
      first
        | exact wellFormed_of_context_none _ hctx
        | exact wellFormed_of_term _ rfl
  rw [if_neg h10]
  by_cases h11 : analysis.intent = "thanks"
  · rw [if_pos h11]
    exact wellFormed_of_context_none _ hctx
  rw [if_neg h11]
  by_cases h12 : analysis.intent = "goodbye"
  · rw [if_pos h12]
    exact wellFormed_of_context_none _ hctx
  rw [if_neg h12]
  by_cases h13 : analysis.intent = "personality"
  · rw [if_pos h13]
    exact wellFormed_of_context_none _ hctx
  rw [if_neg h13]
  exact wellFormed_of_context_none _ hctx

theorem handleContext_wellFormed (host : Host) (be : Backend) (env : Env) (st : State)
    (analysis : Analysis) (rawText : Str) :
    WellFormed (handleContext host be env st analysis rawText).2 := by
  unfold handleContext
  simp only
  split
  · repeat' split
    all_goals exact wellFormed_of_context_none _ rfl
  · split
    · repeat' split
      all_goals first | exact wellFormed_of_context_none _ rfl | exact wellFormed_of_calc _ rfl
    · split
      · repeat' split
        all_goals exact wellFormed_of_context_none _ rfl
      · exact generateResponse_wellFormed host be env { st with context := none } analysis rfl

theorem flowOnboarding_wellFormed (_env : Env) (st : State) (msg : Str)
    (h : WellFormed st) (hctx : st.context = some "workflow")
    (hsub : st.subContext = some "onboarding") (hle : st.step ≤ 4) :
    WellFormed (workflowManager.flowOnboarding st st.step msg).2 ∧
    (workflowManager.flowOnboarding st st.step msg).1.isSome = true := by
  have hcases : st.step = 0 ∨ st.step = 1 ∨ st.step = 2 ∨ st.step = 3 ∨ st.step = 4 := by omega
  unfold workflowManager.flowOnboarding
  rcases hcases with hs | hs | hs | hs | hs
  · rw [if_pos hs]
    split
    · exact ⟨wellFormed_onboarding _ hctx hsub (by show st.step + 1 ≤ 4; omega), rfl⟩
    · exact ⟨wellFormed_of_context_none _ rfl, rfl⟩
  · rw [if_neg (by omega : ¬ st.step = 0), if_pos hs]
    split
    · exact ⟨wellFormed_onboarding _ hctx hsub (by show st.step + 1 ≤ 4; omega), rfl⟩
    · exact ⟨wellFormed_of_context_none _ rfl, rfl⟩
  · rw [if_neg (by omega : ¬ st.step = 0), if_neg (by omega : ¬ st.step = 1), if_pos hs]
    split
    · exact ⟨wellFormed_onboarding _ hctx hsub (by show st.step + 1 ≤ 4; omega), rfl⟩
    · exact ⟨h, rfl⟩
  · rw [if_neg (by omega : ¬ st.step = 0), if_neg (by omega : ¬ st.step = 1),
      if_neg (by omega : ¬ st.step = 2), if_pos hs]
    exact ⟨wellFormed_onboarding _ hctx hsub (by show st.step + 1 ≤ 4; omega), rfl⟩
  · rw [if_neg (by omega : ¬ st.step = 0), if_neg (by omega : ¬ st.step = 1),
      if_neg (by omega : ¬ st.step = 2), if_neg (by omega : ¬ st.step = 3), if_pos hs]
    split
    · exact ⟨wellFormed_of_context_none _ rfl, rfl⟩
    · exact ⟨h, rfl⟩

theorem flowTicket_wellFormed (env : Env) (st : State) (msg : Str)
    (_h : WellFormed st) (hctx : st.context = some "workflow")
    (hsub : st.subContext = some "ticket") (hle : st.step ≤ 2) :
    WellFormed (workflowManager.flowTicket env st st.step msg).2 ∧
    (workflowManager.flowTicket env st st.step msg).1.isSome = true := by
  have hcases : st.step = 0 ∨ st.step = 1 ∨ st.step = 2 := by omega
  unfold workflowManager.flowTicket
  rcases hcases with hs | hs | hs
  · rw [if_pos hs]
    split
    · exact ⟨wellFormed_ticket _ hctx hsub (by show st.step + 1 ≤ 2; omega), rfl⟩
    · exact ⟨wellFormed_of_context_none _ rfl, rfl⟩
  · rw [if_neg (by omega : ¬ st.step = 0), if_pos hs]
    exact ⟨wellFormed_ticket _ hctx hsub (by show st.step + 1 ≤ 2; omega), rfl⟩
  · rw [if_neg (by omega : ¬ st.step = 0), if_neg (by omega : ¬ st.step = 1), if_pos hs]
    exact ⟨wellFormed_of_context_none _ rfl, rfl⟩

theorem handleStep_wellFormed (env : Env) (st : State) (msg : Str)
    (h : WellFormed st) (hctx : st.context = some "workflow") :
    WellFormed (workflowManager.handleStep env st msg).2 ∧
    (workflowManager.handleStep env st msg).1.isSome = true ∧
    (isCancel msg = false →
      workflowManager.handleStep env st msg = workflowManager.flowOnboarding st st.step msg ∨
      workflowManager.handleStep env st msg =
        workflowManager.flowTicket env st st.step msg) := by
  by_cases hc : isCancel msg = true
  · rw [handleStep_cancel env st msg hc]
    refine ⟨wellFormed_of_context_none _ rfl, rfl, fun hf => ?_⟩
    rw [hc] at hf
    exact absurd hf (by decide)
  · have hc2 : isCancel msg = false := by simpa using hc
    rcases h.2 hctx with ⟨hsub, hle⟩ | ⟨hsub, hle⟩
    · rw [handleStep_onboarding env st msg hc2 hsub]
      exact ⟨(flowOnboarding_wellFormed env st msg h hctx hsub hle).1,
        (flowOnboarding_wellFormed env st msg h hctx hsub hle).2, fun _ => Or.inl rfl⟩
    · rw [handleStep_ticket env st msg hc2 hsub]
      exact ⟨(flowTicket_wellFormed env st msg h hctx hsub hle).1,
        (flowTicket_wellFormed env st msg h hctx hsub hle).2, fun _ => Or.inr rfl⟩

theorem process_wellFormed (host : Host) (be : Option Backend) (env : Env) (st : State)
    (message : Option Str) (h : WellFormed st) :
    WellFormed (process host be env st message).2 ∧
    (process host be env st message).1.isSome = true := by
  unfold process
  split
  · exact ⟨h, rfl⟩
  · next m _ =>
    have h1 : WellFormed (updateAnalytics env st (trim m)) :=
      wellFormed_congr st _ rfl rfl rfl h
    simp only
    split
    · exact ⟨h1, rfl⟩
    · next b =>
      split
      · exact ⟨h1, rfl⟩
      · split
        · next hw =>
          exact ⟨(handleStep_wellFormed env _ (trim m) h1 hw).1,
            (handleStep_wellFormed env _ (trim m) h1 hw).2.1⟩
        · split
          · exact ⟨handleContext_wellFormed host b env _ _ _, rfl⟩
          · next ht =>
            refine ⟨generateResponse_wellFormed host b env _ _ ?_, rfl⟩
            exact context_none_of_not_truthy st h ht

theorem processTurns_wellFormed (host : Host) (st : State) (turns : List Turn)
    (h : WellFormed st) : WellFormed (processTurns host st turns) := by
  induction turns generalizing st with
  | nil => exact h
  | cons t turns ih =>
    exact ih _ (process_wellFormed host t.1 t.2.1 st t.2.2 h).1

/-- C28: every session state `st` reached from the initial state by any sequence of
`process` calls, each with its own collaborator (absent, not ready or ready), clock,
random source and message, satisfies: if the context is `workflow` then the workflow is
`onboarding` with step at most 4 or `ticket` with step at most 2; every other context
that is not null is one of the three context tags, the ones `handleContext` handles
before it would call the Response Generator; in the context `workflow`,
`workflowManager.handleStep` returns a reply and, for a message that is not a cancel
message, runs `flowOnboarding` or `flowTicket`, never the "Workflow Error" branch, and
the flow of the active workflow returns a reply at the current step; and `process`
returns a string for every message. -/
theorem reachable_state_invariant (host : Host) (t : Nat) (turns : List Turn) :
    (((processTurns host (State.initial t) turns).context = some "workflow" →
      ((processTurns host (State.initial t) turns).subContext = some "onboarding" ∧
        (processTurns host (State.initial t) turns).step ≤ 4) ∨
      ((processTurns host (State.initial t) turns).subContext = some "ticket" ∧
        (processTurns host (State.initial t) turns).step ≤ 2))) ∧
    ((processTurns host (State.initial t) turns).context ≠ none →
      (processTurns host (State.initial t) turns).context ≠ some "workflow" →
      (processTurns host (State.initial t) turns).context = some "awaiting_currency_for_rate" ∨
      (processTurns host (State.initial t) turns).context =
        some "awaiting_calculation_details" ∨
      (processTurns host (State.initial t) turns).context = some "awaiting_term_definition") ∧
    ((processTurns host (State.initial t) turns).context = some "workflow" →
      ∀ env msg,
        (workflowManager.handleStep env (processTurns host (State.initial t) turns)
          msg).1.isSome = true ∧
        (isCancel msg = false →
          workflowManager.handleStep env (processTurns host (State.initial t) turns) msg =
            workflowManager.flowOnboarding (processTurns host (State.initial t) turns)
              (processTurns host (State.initial t) turns).step msg ∨
          workflowManager.handleStep env (processTurns host (State.initial t) turns) msg =
            workflowManager.flowTicket env (processTurns host (State.initial t) turns)
              (processTurns host (State.initial t) turns).step msg) ∧
        ((processTurns host (State.initial t) turns).subContext = some "onboarding" →
          (workflowManager.flowOnboarding (processTurns host (State.initial t) turns)
            (processTurns host (State.initial t) turns).step msg).1.isSome = true) ∧
        ((processTurns host (State.initial t) turns).subContext = some "ticket" →
          (workflowManager.flowTicket env (processTurns host (State.initial t) turns)
            (processTurns host (State.initial t) turns).step msg).1.isSome = true)) ∧
    (∀ be env message,
      (process host be env (processTurns host (State.initial t) turns) message).1.isSome =
        true) := by
  have hwf : WellFormed (processTurns host (State.initial t) turns) :=
    processTurns_wellFormed host (State.initial t) turns
      (wellFormed_of_context_none _ rfl)
  refine ⟨hwf.2, ?_, ?_, ?_⟩
  · intro hn hw
    rcases hwf.1 with hc | hc | hc | hc | hc
    · exact absurd hc hn
    · exact Or.inl hc
    · exact Or.inr (Or.inl hc)
    · exact Or.inr (Or.inr hc)
    · exact absurd hc hw
  · intro hctx env msg
    refine ⟨(handleStep_wellFormed env _ msg hwf hctx).2.1,
      (handleStep_wellFormed env _ msg hwf hctx).2.2, ?_, ?_⟩
    · intro hsub
      rcases hwf.2 hctx with ⟨_, hle⟩ | ⟨hs2, _⟩
      · exact (flowOnboarding_wellFormed env _ msg hwf hctx hsub hle).2
      · rw [hsub] at hs2
        exact absurd hs2 (by decide)
    · intro hsub
      rcases hwf.2 hctx with ⟨hs2, _⟩ | ⟨_, hle⟩
      · rw [hsub] at hs2
        exact absurd hs2 (by decide)
      · exact (flowTicket_wellFormed env _ msg hwf hctx hsub hle).2
  · intro be env message
    exact (process_wellFormed host be env _ message hwf).2

/-- Witness of C28: after "sign up" the session is in the onboarding workflow at step 0,
and after the answer "yes" it is at step 1. -/
theorem reachable_state_invariant_witness :
    (processTurns sampleHost (State.initial 0)
      [(some sampleBackend, sampleEnv, some "sign up".toList),
       (some sampleBackend, sampleEnv, some "yes".toList)]).context = some "workflow" ∧
    (((processTurns sampleHost (State.initial 0)
      [(some sampleBackend, sampleEnv, some "sign up".toList),
       (some sampleBackend, sampleEnv, some "yes".toList)]).subContext = some "onboarding" ∧
      (processTurns sampleHost (State.initial 0)
      [(some sampleBackend, sampleEnv, some "sign up".toList),
       (some sampleBackend, sampleEnv, some "yes".toList)]).step ≤ 4) ∨
     ((processTurns sampleHost (State.initial 0)
      [(some sampleBackend, sampleEnv, some "sign up".toList),
       (some sampleBackend, sampleEnv, some "yes".toList)]).subContext = some "ticket" ∧
      (processTurns sampleHost (State.initial 0)
      [(some sampleBackend, sampleEnv, some "sign up".toList),
       (some sampleBackend, sampleEnv, some "yes".toList)]).step ≤ 2)) :=
  ⟨by decide!, (reachable_state_invariant sampleHost 0
      [(some sampleBackend, sampleEnv, some "sign up".toList),
       (some sampleBackend, sampleEnv, some "yes".toList)]).1 (by decide!)⟩

end AtlasBackend
end SettleX
